import Mathlib

/-!
# The Hurd bootstrap server `init` (src/init/init.c)

A shallow embedding of the server's global state and of its handlers as
state-passing functions.  Everything the server does to the outside world
(remote calls, console output, task termination) is appended to an effect
trace kept in the state; every answer the outside world gives is read from a
`World` record, so that theorems quantify over all possible answers.

The program is compiled with `STANDALONE` undefined (`#undef STANDALONE`), so
the `#else` branches are the code.

The second part embeds `diskfs_S_file_set_translator` of libdiskfs
(src/libdiskfs/file-set-trans.c) in the same style, with a node state
`FsNode`, an effect trace and an `FsWorld` record of helper answers.  The
third part embeds `io_rdwr` (src/libdiskfs/rdwr-internal.c), with 32-bit
integer arithmetic.
-/

namespace HurdInit

/-- Constants of the system headers used by init.c.  The headers are not among
the sources, so the values are parameters of every definition. -/
structure Hdr where
  EPERM : Int
  ENOMEM : Int
  EOPNOTSUPP : Int
  MIG_NO_REPLY : Int
  MACH_SEND_INVALID_DEST : Int
  RB_AUTOBOOT : Int
  RB_HALT : Int
  PI_NOPARENT : Int
  BUFSIZ : Nat
  INIT_PORT_AUTH : Nat
  INIT_PORT_PROC : Nat
  HURD_RELEASE : String

/-- The value of `MACH_PORT_NULL`; the code tests ports with `if (port)`. -/
def MACH_PORT_NULL : Nat := 0

/-- One argument of a `printf` call. -/
inductive Arg where
  | p (port : Nat)
  | s (str : List Char)
  | d (n : Int)
  | x (n : Int)
  | strerror (err : Int)
  deriving DecidableEq, Repr

/-- What the server does to the outside world, in the order it does it.  A
remote call that hands a value back records that value (the content of the
out-parameter after the call) after its arguments.  Arguments that are
constants of the headers (message type names, open flags, counts) are not
recorded. -/
inductive Effect where
  | printf (fmt : String) (args : List Arg)
  | fflush
  | perror (msg : List Char)
  | startup_dosync (notify_port : Nat) (err : Int)
  | proc_getallpids (procserver : Nat) (err : Int) (pids : List Int)
  | proc_pid2task (procserver : Nat) (pid : Int) (err : Int) (task : Nat)
  | proc_getprocinfo (procserver : Nat) (pid : Int) (err : Int) (state : Int)
  | task_terminate (task : Nat)
  | startup_procinit_reply (reply : Nat) (replytype : Int) (retcode : Int)
      (startuptask auth priv dev : Nat)
  | startup_authinit_reply (reply : Nat) (replytype : Int) (retcode : Int) (proc : Nat)
  | proc_child (procserver task : Nat)
  | proc_task2proc (procserver task : Nat) (err : Int) (proc : Nat)
  | hurd_port_set (which : Nat) (port : Nat)
  | proc_setprocargs (procserver argv envp : Nat)
  | proc_register_version (procserver priv : Nat) (name release version : String)
  | path_lookup (path : List Char) (file : Nat)
  | task_create (parent : Nat) (task : Nat)
  | file_exec (file task : Nat) (args : List Char) (dtable ports : List Nat) (err : Int)
  | mach_port_deallocate (port : Nat)
  | proc_setmsgport (procserver msgport : Nat) (old : Nat)
  | fsys_init (bootport fsproc auth : Nat) (err : Int)
  | mach_port_request_notification (name : Nat) (notify : Nat) (prev : Nat)
  deriving DecidableEq, Repr

/-- Entry of the list of notified tasks (`struct ntfy_task`); the `next` link is
the tail of the Lean list. -/
structure ntfy_task where
  notify_port : Nat
  deriving DecidableEq, Repr

/-- Entry of the list of essential tasks (`struct ess_task`). -/
structure ess_task where
  task_port : Nat
  name : List Char
  deriving DecidableEq, Repr

/-- The global variables of init.c, the unread console input and the effect
trace.  The array `default_ports` is a list, written at indices below its
length. -/
structure InitState where
  ess_tasks : List ess_task
  ntfy_tasks : List ntfy_task
  startup : Nat
  host_priv : Nat
  device_master : Nat
  procreply : Nat
  authreply : Nat
  procreplytype : Int
  authreplytype : Int
  authserver : Nat
  procserver : Nat
  bootport : Nat
  authtask : Nat
  proctask : Nat
  fstask : Nat
  init_version : String
  default_ports : List Nat
  default_dtable : List Nat
  global_argv : Nat
  prompt_for_servers : Int
  errno : Int
  stdin : List Char
  trace : List Effect
  deriving DecidableEq, Repr

/-- Answers of the outside world.  An answer may change from one call to the
next: calls made in a loop are keyed by the loop position, the others by the
number of effects performed so far (`proc_getallpids` is asked once in the
life of the process and has no key).  Where a call fills an out-parameter, the
answer is the content of that variable after the call. -/
structure World where
  mach_task_self : Nat
  environ : Nat
  startup_dosync : Nat → Nat → Int
  proc_getallpids : Nat → Int × List Int
  proc_pid2task : Nat → Nat → Int → Int × Nat
  proc_getprocinfo : Nat → Nat → Int → Int × Int
  proc_task2proc : Nat → Nat → Nat → Int × Nat
  path_lookup : Nat → List Char → Nat
  task_create : Nat → Nat
  file_exec : Nat → Nat → Nat → Int
  proc_setmsgport : Nat → Nat → Nat → Nat
  fsys_init : Nat → Nat → Nat → Nat → Int
  mach_port_request_notification : Nat → Nat → Nat
  malloc_ok : Nat → Bool
  strdup_ok : Nat → Bool

/-- How a piece of code ends: it returns a value, the process exits, it spins
in `for (;;)`, it writes through a null pointer, or the model ran out of
fuel. -/
inductive Res (α : Type) where
  | ret (a : α) (s : InitState)
  | exited (status : Int) (s : InitState)
  | hang (s : InitState)
  | fault (s : InitState)
  | timeout (s : InitState)
  deriving DecidableEq, Repr

/-- Sequencing: the continuation runs only when the first part returns. -/
def Res.bind {α β : Type} (r : Res α) (k : α → InitState → Res β) : Res β :=
  match r with
  | .ret a s => k a s
  | .exited c s => .exited c s
  | .hang s => .hang s
  | .fault s => .fault s
  | .timeout s => .timeout s

/-- The state in which a piece of code ended. -/
def Res.state {α : Type} : Res α → InitState
  | .ret _ s => s
  | .exited _ s => s
  | .hang s => s
  | .fault s => s
  | .timeout s => s

/-- Append one effect to the trace. -/
def emit (s : InitState) (e : Effect) : InitState :=
  { s with trace := s.trace ++ [e] }

/-- Append several effects to the trace. -/
def addTrace (s : InitState) (t : List Effect) : InitState :=
  { s with trace := s.trace ++ t }

/-- Number of effects performed so far. -/
def clock (s : InitState) : Nat := s.trace.length

/-- Console output. -/
def printf (s : InitState) (fmt : String) (args : List Arg) : InitState :=
  emit s (.printf fmt args)

/-- Flush of the console stream. -/
def fflush (s : InitState) : InitState := emit s .fflush

/-- The C function `exit`: it does not return. -/
def exit (status : Int) (s : InitState) : Res Empty := .exited status s

/-- The macro `BOOT (flags)`. -/
def BOOT (H : Hdr) (flags : Int) : List Char :=
  if Int.land flags H.RB_HALT ≠ 0 then "halt".toList else "reboot".toList

/-- The macro `CRASH_FLAGS`. -/
def CRASH_FLAGS (H : Hdr) : Int := H.RB_AUTOBOOT

/-- Reboot the microkernel (the branch without `STANDALONE`). -/
def reboot_mach (H : Hdr) (flags : Int) (s : InitState) : Res Empty :=
  let s := printf s "init: Would %s Mach with flags %#x\n" [.s (BOOT H flags), .x flags]
  let s := fflush s
  exit 1 s

/-- Reboot the microkernel, specifying that this is a crash. -/
def crash_mach (H : Hdr) (s : InitState) : Res Empty :=
  reboot_mach H (CRASH_FLAGS H) s

/-- The first loop of `reboot_system`: tell every notified task, in list order.
`i` is the position of the entry in the list. -/
def notify_loop (H : Hdr) (W : World) : Nat → List ntfy_task → InitState → InitState
  | _, [], s => s
  | i, n :: rest, s =>
    let s := printf s "init: notifying %p\n" [.p n.notify_port]
    let s := fflush s
    let err := W.startup_dosync i n.notify_port
    let s := emit s (.startup_dosync n.notify_port err)
    let s :=
      if err ≠ 0 ∧ err ≠ H.MACH_SEND_INVALID_DEST then
        fflush (printf s "init: %p complained: %s\n" [.p n.notify_port, .strerror err])
      else s
    notify_loop H W (i + 1) rest s

/-- The block at label `procbad` of `reboot_system`. -/
def procbad (H : Hdr) (flags : Int) (s : InitState) : Res Empty :=
  let s := printf s "Init: can't simulate crash; proc has died\n" []
  let s := fflush s
  reboot_mach H flags s

/-- The loop over the process ids in `reboot_system`; `ind` is the loop
index.  The code after `reboot_mach` at `procbad` is not reached, `exit` does
not return. -/
def kill_loop (H : Hdr) (W : World) (flags : Int) : Nat → List Int → InitState → Res Unit
  | _, [], s => .ret () s
  | ind, pid :: rest, s =>
    let r := W.proc_pid2task ind s.procserver pid
    let s := emit s (.proc_pid2task s.procserver pid r.1 r.2)
    if r.1 = H.MACH_SEND_INVALID_DEST then
      (procbad H flags s).bind (fun e _ => e.elim)
    else if r.1 ≠ 0 then
      let s := printf s "init: getting task for pid %d: %s\n" [.d pid, .strerror r.1]
      let s := fflush s
      kill_loop H W flags (ind + 1) rest s
    else if r.2 ≠ W.mach_task_self ∧ r.2 ≠ s.proctask then
      let q := W.proc_getprocinfo ind s.procserver pid
      let s := emit s (.proc_getprocinfo s.procserver pid q.1 q.2)
      if q.1 = H.MACH_SEND_INVALID_DEST then
        (procbad H flags s).bind (fun e _ => e.elim)
      else if q.1 ≠ 0 then
        let s := printf s "init: getting procinfo for pid %d: %s\n" [.d pid, .strerror q.1]
        let s := fflush s
        kill_loop H W flags (ind + 1) rest s
      else if Int.land q.2 H.PI_NOPARENT = 0 then
        let s := printf s "init: killing pid %d\n" [.d pid]
        let s := fflush s
        let s := emit s (.task_terminate r.2)
        kill_loop H W flags (ind + 1) rest s
      else
        kill_loop H W flags (ind + 1) rest s
    else
      kill_loop H W flags (ind + 1) rest s

/-- Reboot the Hurd. -/
def reboot_system (H : Hdr) (W : World) (flags : Int) (s : InitState) : Res Empty :=
  let s := notify_loop H W 0 s.ntfy_tasks s
  let a := W.proc_getallpids s.procserver
  let s := emit s (.proc_getallpids s.procserver a.1 a.2)
  (if a.1 = H.MACH_SEND_INVALID_DEST then
      (procbad H flags s).bind (fun e _ => e.elim)
    else Res.ret () s).bind fun _ s =>
  (kill_loop H W flags 0 a.2 s).bind fun _ s =>
  let s := printf s "Killing proc server\n" []
  let s := fflush s
  let s := emit s (.task_terminate s.proctask)
  let s := printf s "Init exiting\n" []
  let s := fflush s
  exit 1 s

/-- Reboot the Hurd, specifying that this is a crash. -/
def crash_system (H : Hdr) (W : World) (s : InitState) : Res Empty :=
  reboot_system H W (CRASH_FLAGS H) s

/-- The NUL character that ends a C string. -/
def NUL : Char := Char.ofNat 0

/-- The C string stored at the start of a byte array: the bytes before the
first NUL. -/
def cstr (bytes : List Char) : List Char :=
  bytes.takeWhile (fun c => c ≠ NUL)

/-- Bytes `fgets` takes from the input when it may store `n` of them: up to
and including the first newline. -/
def fgets_read : Nat → List Char → List Char × List Char
  | 0, inp => ([], inp)
  | _ + 1, [] => ([], [])
  | n + 1, c :: rest =>
    if c = '\n' then ([c], rest)
    else ((c :: (fgets_read n rest).1), (fgets_read n rest).2)

/-- The libc function `fgets` on a console input that ends: `none` is the
`NULL` result, otherwise the bytes stored and the input left. -/
def fgets (bufsize : Nat) (inp : List Char) : Option (List Char × List Char) :=
  if bufsize = 0 then none
  else if bufsize = 1 then some ([], inp)
  else if inp = [] then none
  else some (fgets_read (bufsize - 1) inp)

/-- Read a string from stdin into BUF.  `inp` is the unread console input; the
result is the return value, the C string in the buffer afterwards and the
input left. -/
def getstring (buf : List Char) (bufsize : Nat) (inp : List Char) :
    Int × List Char × List Char :=
  match fgets bufsize inp with
  | none => (0, buf, inp)
  | some (line, rest) =>
    if cstr line ≠ [] then
      if (cstr line).getLast? = some '\n' ∨ (cstr line).getLast? = some '\r' then
        (1, (cstr line).dropLast, rest)
      else (1, cstr line, rest)
    else (0, cstr line, rest)

/-- The libc function `getchar`: one byte of console input is taken. -/
def getchar (s : InitState) : InitState :=
  { s with stdin := s.stdin.tail }

/-- The part of a path after its last slash (`strrchr (prog, '/')` and the
increment), the whole path when it has no slash. -/
def progname (path : List Char) : List Char :=
  (path.reverse.takeWhile (fun c => c ≠ '/')).reverse

/-- The variable a `task_t *` argument of `run` points to: `main` passes
`&proctask` and `&authtask`. -/
inductive TaskVar where
  | proctask
  | authtask
  deriving DecidableEq, Repr

/-- Assignment through the pointer. -/
def TaskVar.store (v : TaskVar) (task : Nat) (s : InitState) : InitState :=
  match v with
  | .proctask => { s with proctask := task }
  | .authtask => { s with authtask := task }

/-- The `while (1)` loop of `run`.  `aliased` says that `prog` points to
`buf`.  The result tells the name under which the server started. -/
def run_loop (H : Hdr) (W : World) (server : List Char) (ports : List Nat) (task : TaskVar) :
    Nat → Bool → List Char → InitState → Res (List Char)
  | 0, _, _, s => .timeout s
  | fuel + 1, aliased, buf, s =>
    let prog := if aliased then buf else server
    let file := W.path_lookup (clock s) prog
    let s := emit s (.path_lookup prog file)
    let attempt : Res Bool :=
      if file = MACH_PORT_NULL then
        .ret false (emit s (.perror prog))
      else
        let t := W.task_create (clock s)
        let s := emit (task.store t s) (.task_create W.mach_task_self t)
        let s := printf s "Pausing for %s\n" [.s prog]
        let s := getchar s
        let e := W.file_exec (clock s) file t
        let s := emit s (.file_exec file t (progname prog ++ [NUL]) s.default_dtable ports e)
        let s := { s with errno := e }
        if e = 0 then .ret true s
        else .ret false (emit s (.perror prog))
    attempt.bind fun started s =>
    if started then .ret prog s
    else
      let s := printf s "File name for server %s (or nothing to reboot): " [.s server]
      let g := getstring buf H.BUFSIZ s.stdin
      let s := { s with stdin := g.2.2 }
      if g.1 ≠ 0 then run_loop H W server ports task fuel true g.2.1 s
      else (crash_system H W s).bind fun _ s =>
        run_loop H W server ports task fuel aliased g.2.1 s

/-- Run SERVER, giving it the initial ports PORTS; TASK is set to the task port
of the new image. -/
def run (H : Hdr) (W : World) (fuel : Nat) (server : List Char) (ports : List Nat)
    (task : TaskVar) (s : InitState) : Res Unit :=
  let start : Bool × List Char × InitState :=
    if s.prompt_for_servers ≠ 0 then
      let s := printf s "Server file name (default %s): " [.s server]
      let g := getstring [] H.BUFSIZ s.stdin
      (g.1 ≠ 0, g.2.1, { s with stdin := g.2.2 })
    else (false, [], s)
  (run_loop H W server ports task fuel start.1 start.2.1 start.2.2).bind fun prog s =>
  let s := printf s "started %s\n" [.s prog]
  let s := fflush s
  .ret () s

/-- The `do ... while (!file)` loop of `run_for_real`.  `aliased` says that
`filename` points to `buf`.  The result is the file name and the file. -/
def run_for_real_loop (W : World) (filename : List Char) :
    Nat → Bool → List Char → InitState → Res (List Char × Nat)
  | 0, _, _, s => .timeout s
  | fuel + 1, aliased, buf, s =>
    let s := printf s "File name [%s]: " [.s (if aliased then buf else filename)]
    let g := getstring buf 512 s.stdin
    let s := { s with stdin := g.2.2 }
    let aliased := aliased || (g.1 ≠ 0 && g.2.1 ≠ [])
    let name := if aliased then g.2.1 else filename
    let file := W.path_lookup (clock s) name
    let s := emit s (.path_lookup name file)
    if file = 0 then
      run_for_real_loop W filename fuel aliased g.2.1 (emit s (.perror name))
    else .ret (name, file) s

/-- Run FILENAME as root with ARGS as its argv (length ARGLEN). -/
def run_for_real (H : Hdr) (W : World) (fuel : Nat) (filename : List Char)
    (args : List Char) (arglen : Nat) (s : InitState) : Res Unit :=
  (run_for_real_loop W (cstr filename) fuel false [] s).bind fun nf s =>
  let task := W.task_create (clock s)
  let s := emit s (.task_create W.mach_task_self task)
  let s := emit s (.proc_child s.procserver task)
  let r := W.proc_task2proc (clock s) s.procserver task
  let s := emit s (.proc_task2proc s.procserver task r.1 r.2)
  let s := { s with default_ports := s.default_ports.set H.INIT_PORT_PROC r.2 }
  let s := printf s "Pausing for %s\n" [.s nf.1]
  let s := getchar s
  let e := W.file_exec (clock s) nf.2 task
  let s := emit s (.file_exec nf.2 task (args.take arglen) s.default_dtable s.default_ports e)
  let s := emit s (.mach_port_deallocate (s.default_ports.getD H.INIT_PORT_PROC 0))
  let s := emit s (.mach_port_deallocate task)
  let s := emit s (.mach_port_deallocate nf.2)
  .ret () s

/-- The array `shell` of `launch_system`, with its terminator. -/
def shell : List Char := "/bin/sh".toList ++ [NUL]

/-- The array `pipes` of `launch_system`, with the NUL inside and its
terminator. -/
def pipes : List Char :=
  "/bin/pipes".toList ++ [NUL] ++ "/servers/sockets/1".toList ++ [NUL]

/-- The rest of the boot, run when both auth and proc have started. -/
def launch_system (H : Hdr) (W : World) (fuel : Nat) (s : InitState) : Res Unit :=
  let s := emit s (.startup_procinit_reply s.procreply s.procreplytype 0
    W.mach_task_self s.authserver s.host_priv s.device_master)
  let s := emit s (.proc_child s.procserver s.fstask)
  let s := emit s (.proc_child s.procserver s.authtask)
  let authproc := W.proc_task2proc (clock s) s.procserver s.authtask
  let s := emit s (.proc_task2proc s.procserver s.authtask authproc.1 authproc.2)
  let s := emit s (.startup_authinit_reply s.authreply s.authreplytype 0 authproc.2)
  let s := emit s (.hurd_port_set H.INIT_PORT_AUTH s.authserver)
  let s := emit s (.hurd_port_set H.INIT_PORT_PROC s.procserver)
  let s := emit s (.proc_setprocargs s.procserver s.global_argv W.environ)
  let s := { s with default_ports := s.default_ports.set H.INIT_PORT_AUTH s.authserver }
  let s := emit s (.proc_register_version s.procserver s.host_priv "init" H.HURD_RELEASE
    s.init_version)
  let fsproc := W.proc_task2proc (clock s) s.procserver s.fstask
  let s := emit s (.proc_task2proc s.procserver s.fstask fsproc.1 fsproc.2)
  (run_for_real H W fuel shell shell shell.length s).bind fun _ s =>
  (run_for_real H W fuel pipes pipes pipes.length s).bind fun _ s =>
  let s := printf s "Init has completed.\n" []
  let s := fflush s
  let old := W.proc_setmsgport (clock s) s.procserver s.startup
  let s := emit s (.proc_setmsgport s.procserver s.startup old)
  let s := if old ≠ 0 then emit s (.mach_port_deallocate old) else s
  let e := W.fsys_init (clock s) s.bootport fsproc.2 s.authserver
  let s := emit s (.fsys_init s.bootport fsproc.2 s.authserver e)
  let s := { s with errno := e }
  let s := if e ≠ 0 then emit s (.perror "fsys_init".toList) else s
  .ret () s

/-- Called by the proc server when it starts up. -/
def S_startup_procinit (H : Hdr) (W : World) (fuel : Nat) (s : InitState)
    (server reply : Nat) (reply_porttype : Int) (proc : Nat) : Res Int :=
  if s.procserver ≠ 0 then .ret H.EPERM s
  else
    let s := { s with procserver := proc }
    let s := { s with procreply := reply, procreplytype := reply_porttype }
    (if s.authserver ≠ 0 then launch_system H W fuel s else .ret () s).bind fun _ s =>
    .ret H.MIG_NO_REPLY s

/-- Called by the auth server when it starts up. -/
def S_startup_authinit (H : Hdr) (W : World) (fuel : Nat) (s : InitState)
    (server reply : Nat) (reply_porttype : Int) (auth : Nat) : Res Int :=
  if s.authserver ≠ 0 then .ret H.EPERM s
  else
    let s := { s with authserver := auth }
    let s := { s with authreply := reply, authreplytype := reply_porttype }
    (if s.procserver ≠ 0 then launch_system H W fuel s else .ret () s).bind fun _ s =>
    .ret H.MIG_NO_REPLY s

/-- Record a task as essential. -/
def S_startup_essential_task (H : Hdr) (W : World) (s : InitState)
    (server task excpt : Nat) (name : List Char) (credential : Nat) : Res Int :=
  if credential ≠ s.host_priv then .ret H.EPERM s
  else if W.malloc_ok (clock s) = false then .ret H.ENOMEM s
  else if W.strdup_ok (clock s) = false then .ret H.ENOMEM s
  else
    let s := { s with ess_tasks := { task_port := task, name := name } :: s.ess_tasks }
    let prev := W.mach_port_request_notification (clock s) task
    let s := emit s (.mach_port_request_notification task s.startup prev)
    let s := if prev ≠ 0 then emit s (.mach_port_deallocate prev) else s
    let s := emit s (.mach_port_deallocate credential)
    .ret 0 s

/-- Record a port whose owner wants to be told of a shutdown.  The result of
`malloc` is used unchecked. -/
def S_startup_request_notification (W : World) (s : InitState)
    (server notify : Nat) : Res Int :=
  let prev := W.mach_port_request_notification (clock s) notify
  let s := emit s (.mach_port_request_notification notify s.startup prev)
  let s := if prev ≠ 0 then emit s (.mach_port_deallocate prev) else s
  if W.malloc_ok (clock s) = false then .fault s
  else
    let s := { s with ntfy_tasks := { notify_port := notify } :: s.ntfy_tasks }
    .ret 0 s

/-- The first loop of `do_mach_notify_dead_name`, over the essential tasks. -/
def ess_loop (H : Hdr) (W : World) (name : Nat) : List ess_task → InitState → Res Unit
  | [], s => .ret () s
  | et :: rest, s =>
    if et.task_port = name then
      let s := printf s "Init crashing system; essential task %s died\n" [.s et.name]
      let s := fflush s
      (crash_system H W s).bind fun _ s => ess_loop H W name rest s
    else ess_loop H W name rest s

/-- The second loop of `do_mach_notify_dead_name`: the list without its first
entry for `name`, `none` when no entry matches. -/
def ntfy_unlink (name : Nat) : List ntfy_task → Option (List ntfy_task)
  | [] => none
  | nt :: rest =>
    if nt.notify_port = name then some rest
    else (ntfy_unlink name rest).map (fun l => nt :: l)

/-- Handler of the dead-name notification. -/
def do_mach_notify_dead_name (H : Hdr) (W : World) (s : InitState)
    (notify name : Nat) : Res Int :=
  (ess_loop H W name s.ess_tasks s).bind fun _ s =>
  match ntfy_unlink name s.ntfy_tasks with
  | some l =>
    let s := emit s (.mach_port_deallocate name)
    .ret 0 { s with ntfy_tasks := l }
  | none => .ret 0 s

/-- Handler of the reboot request. -/
def S_startup_reboot (H : Hdr) (W : World) (s : InitState)
    (server refpt : Nat) (code : Int) : Res Int :=
  if refpt ≠ s.host_priv then .ret H.EPERM s
  else (reboot_system H W code s).bind fun _ s => .hang s

/-- Handler of the port-destroyed notification. -/
def do_mach_notify_port_destroyed (H : Hdr) (s : InitState) (notify rights : Nat) : Res Int :=
  .ret H.EOPNOTSUPP s

/-- Handler of the send-once notification. -/
def do_mach_notify_send_once (H : Hdr) (s : InitState) (notify : Nat) : Res Int :=
  .ret H.EOPNOTSUPP s

/-- Handler of the no-senders notification. -/
def do_mach_notify_no_senders (H : Hdr) (s : InitState) (port mscount : Nat) : Res Int :=
  .ret H.EOPNOTSUPP s

/-- Handler of the port-deleted notification. -/
def do_mach_notify_port_deleted (H : Hdr) (s : InitState) (notify name : Nat) : Res Int :=
  .ret H.EOPNOTSUPP s

/-- Handler of the msg-accepted notification. -/
def do_mach_notify_msg_accepted (H : Hdr) (s : InitState) (notify name : Nat) : Res Int :=
  .ret H.EOPNOTSUPP s

/-- A request or notification message received on the `startup` port. -/
inductive Msg where
  | startup_procinit (server reply : Nat) (reply_porttype : Int) (proc : Nat)
  | startup_authinit (server reply : Nat) (reply_porttype : Int) (auth : Nat)
  | startup_essential_task (server task excpt : Nat) (name : List Char) (credential : Nat)
  | startup_request_notification (server notify : Nat)
  | startup_reboot (server refpt : Nat) (code : Int)
  | mach_notify_dead_name (notify name : Nat)
  | mach_notify_port_destroyed (notify rights : Nat)
  | mach_notify_send_once (notify : Nat)
  | mach_notify_no_senders (port mscount : Nat)
  | mach_notify_port_deleted (notify name : Nat)
  | mach_notify_msg_accepted (notify name : Nat)
  deriving DecidableEq, Repr

/-- The demultiplexer: each message goes to its handler (`notify_server` and
`startup_server` are generated stubs that call the handlers above). -/
def demuxer (H : Hdr) (W : World) (fuel : Nat) (m : Msg) (s : InitState) : Res Int :=
  match m with
  | .startup_procinit server reply ty proc => S_startup_procinit H W fuel s server reply ty proc
  | .startup_authinit server reply ty auth => S_startup_authinit H W fuel s server reply ty auth
  | .startup_essential_task server task excpt name cred =>
    S_startup_essential_task H W s server task excpt name cred
  | .startup_request_notification server notify => S_startup_request_notification W s server notify
  | .startup_reboot server refpt code => S_startup_reboot H W s server refpt code
  | .mach_notify_dead_name notify name => do_mach_notify_dead_name H W s notify name
  | .mach_notify_port_destroyed notify rights => do_mach_notify_port_destroyed H s notify rights
  | .mach_notify_send_once notify => do_mach_notify_send_once H s notify
  | .mach_notify_no_senders port mscount => do_mach_notify_no_senders H s port mscount
  | .mach_notify_port_deleted notify name => do_mach_notify_port_deleted H s notify name
  | .mach_notify_msg_accepted notify name => do_mach_notify_msg_accepted H s notify name

/-- The message loop of `main`: the messages are handled one after the other,
each with its own fuel; `none` when a handler does not return. -/
def serve (H : Hdr) (W : World) : List (Nat × Msg) → InitState → Option InitState
  | [], s => some s
  | (fuel, m) :: ms, s =>
    match demuxer H W fuel m s with
    | .ret _ s1 => serve H W ms s1
    | _ => none

/-! ## Reading the trace -/

/-- The tasks terminated in a trace, in order. -/
def terminated (t : List Effect) : List Nat :=
  t.filterMap fun e => match e with
    | .task_terminate task => some task
    | _ => none

/-- The notify ports called with `startup_dosync` in a trace, in order. -/
def notified (t : List Effect) : List Nat :=
  t.filterMap fun e => match e with
    | .startup_dosync port _ => some port
    | _ => none

/-- What the enumeration does with the process at position `ind`: the task it
terminates, if any. -/
def victim (H : Hdr) (W : World) (procserver proctask : Nat) (ind : Nat) (pid : Int) :
    Option Nat :=
  if (W.proc_pid2task ind procserver pid).1 = 0
      ∧ (W.proc_pid2task ind procserver pid).2 ≠ W.mach_task_self
      ∧ (W.proc_pid2task ind procserver pid).2 ≠ proctask
      ∧ (W.proc_getprocinfo ind procserver pid).1 = 0
      ∧ Int.land (W.proc_getprocinfo ind procserver pid).2 H.PI_NOPARENT = 0 then
    some (W.proc_pid2task ind procserver pid).2
  else none

/-- The replies of the launch sequence to the two foundational servers. -/
def isReply : Effect → Bool
  | .startup_procinit_reply .. => true
  | .startup_authinit_reply .. => true
  | _ => false

/-- The state `s1` has the globals of `s`, apart from `default_ports`, `errno`,
the console input and the trace. -/
def sameCore (s s1 : InitState) : Prop :=
  { s1 with default_ports := s.default_ports, errno := s.errno, stdin := s.stdin,
            trace := s.trace } = s

/-- The state `s1` comes from `s` by effects of which the first are `p` and
the others are no replies to the foundational servers; the globals other than
`default_ports`, `errno` and the console input are those of `s`. -/
def After (s : InitState) (p : List Effect) (s1 : InitState) : Prop :=
  sameCore s s1 ∧ ∃ t, s1.trace = s.trace ++ p ++ t ∧ ∀ e ∈ t, isReply e = false

/-- The first five effects of the launch sequence: the reply to the process
registry, the two child declarations, the lookup of the auth task and the
reply to the auth server. -/
def launch_head (W : World) (s : InitState) : List Effect :=
  [ .startup_procinit_reply s.procreply s.procreplytype 0 W.mach_task_self s.authserver
      s.host_priv s.device_master,
    .proc_child s.procserver s.fstask,
    .proc_child s.procserver s.authtask,
    .proc_task2proc s.procserver s.authtask
      (W.proc_task2proc (s.trace.length + 3) s.procserver s.authtask).1
      (W.proc_task2proc (s.trace.length + 3) s.procserver s.authtask).2,
    .startup_authinit_reply s.authreply s.authreplytype 0
      (W.proc_task2proc (s.trace.length + 3) s.procserver s.authtask).2 ]

/-- A dead-name notification has been requested on the name in the trace. -/
def watched (t : List Effect) (name : Nat) : Prop :=
  ∃ ntfy prev, Effect.mach_port_request_notification name ntfy prev ∈ t

/-- Number of replies to the process registry in a trace: `launch_system` sends
one, as its first effect. -/
def launches (t : List Effect) : Nat :=
  t.countP fun e => match e with
    | .startup_procinit_reply .. => true
    | _ => false

/-- The state with both rendezvous slots filled: the process registry has
registered `proc` with the reply port `reply_p` of type `ty_p`, the auth server
`auth` with `reply_a` of type `ty_a`. -/
def registered (s : InitState) (proc reply_p : Nat) (ty_p : Int) (auth reply_a : Nat)
    (ty_a : Int) : InitState :=
  { s with procserver := proc, procreply := reply_p, procreplytype := ty_p,
           authserver := auth, authreply := reply_a, authreplytype := ty_a }

/-- The process ids looked up with `proc_pid2task` in a trace, in order. -/
def queried (t : List Effect) : List Int :=
  t.filterMap fun e => match e with
    | .proc_pid2task _ pid _ _ => some pid
    | _ => none

/-- The notify ports about which a complaint is printed in a trace, in
order. -/
def complaints (t : List Effect) : List Nat :=
  t.filterMap fun e => match e with
    | .printf fmt (.p port :: _) =>
      if fmt = "init: %p complained: %s\n" then some port else none
    | _ => none

/-- The argument blobs of the `file_exec` calls in a trace, in order. -/
def executed (t : List Effect) : List (List Char) :=
  t.filterMap fun e => match e with
    | .file_exec _ _ args _ _ _ => some args
    | _ => none

/-- The paths looked up in a trace, in order. -/
def lookups (t : List Effect) : List (List Char) :=
  t.filterMap fun e => match e with
    | .path_lookup path _ => some path
    | _ => none

/-- The effects of the block at `procbad`, `reboot_mach` included. -/
def procbad_effects (H : Hdr) (flags : Int) : List Effect :=
  [ .printf "Init: can't simulate crash; proc has died\n" [], .fflush,
    .printf "init: Would %s Mach with flags %#x\n" [.s (BOOT H flags), .x flags], .fflush ]

/-- The lookups for the process at position `ind` report the process registry
as dead: the task lookup does, or the status lookup that follows a successful
task lookup does. -/
def dead_at (H : Hdr) (W : World) (procserver proctask : Nat) (ind : Nat) (pid : Int) : Prop :=
  (W.proc_pid2task ind procserver pid).1 = H.MACH_SEND_INVALID_DEST ∨
  ((W.proc_pid2task ind procserver pid).1 = 0 ∧
    (W.proc_pid2task ind procserver pid).2 ≠ W.mach_task_self ∧
    (W.proc_pid2task ind procserver pid).2 ≠ proctask ∧
    (W.proc_getprocinfo ind procserver pid).1 = H.MACH_SEND_INVALID_DEST)

/-- Whether the target at position `i` of the notification list gets a
complaint printed: its answer is an error other than the invalid-destination
one. -/
def complained (H : Hdr) (W : World) (i : Nat) (n : ntfy_task) : Option Nat :=
  if W.startup_dosync i n.notify_port ≠ 0 ∧
      W.startup_dosync i n.notify_port ≠ H.MACH_SEND_INVALID_DEST then
    some n.notify_port
  else none

/-- The effects of a round of a lookup loop that does not find the program: a
prompt, a failed lookup, an error report. -/
def isRetry : Effect → Bool
  | .printf .. => true
  | .perror _ => true
  | .path_lookup _ file => file == 0
  | _ => false

/-- The calls on the process registry. -/
def isProcCall : Effect → Bool
  | .proc_getallpids .. => true
  | .proc_pid2task .. => true
  | .proc_getprocinfo .. => true
  | .proc_child .. => true
  | .proc_task2proc .. => true
  | .proc_setprocargs .. => true
  | .proc_register_version .. => true
  | .proc_setmsgport .. => true
  | _ => false

/-- The effects of `launch_system` before the shell is run, in order: the five
of `launch_head`, the installation of the auth and proc ports in the library,
the arguments and the version told to the process registry, and the lookup of
the task of the bootstrap filesystem. -/
def launch_steps (H : Hdr) (W : World) (s : InitState) : List Effect :=
  launch_head W s ++
  [ .hurd_port_set H.INIT_PORT_AUTH s.authserver,
    .hurd_port_set H.INIT_PORT_PROC s.procserver,
    .proc_setprocargs s.procserver s.global_argv W.environ,
    .proc_register_version s.procserver s.host_priv "init" H.HURD_RELEASE s.init_version,
    .proc_task2proc s.procserver s.fstask
      (W.proc_task2proc (s.trace.length + 9) s.procserver s.fstask).1
      (W.proc_task2proc (s.trace.length + 9) s.procserver s.fstask).2 ]

/-- The effects of `run_for_real` from the lookup that finds the program on:
the task is created, declared a child of the process registry and given its
proc port, the image is started with the arguments, the descriptor table and
the ports (`ports` is `default_ports` before the call), and the three ports
are released. -/
def start_effects (H : Hdr) (W : World) (procserver : Nat) (dtable ports : List Nat)
    (name : List Char) (file task : Nat) (proc : Int × Nat) (args : List Char) (err : Int) :
    List Effect :=
  [ .path_lookup name file,
    .task_create W.mach_task_self task,
    .proc_child procserver task,
    .proc_task2proc procserver task proc.1 proc.2,
    .printf "Pausing for %s\n" [.s name],
    .file_exec file task args dtable (ports.set H.INIT_PORT_PROC proc.2) err,
    .mach_port_deallocate ((ports.set H.INIT_PORT_PROC proc.2).getD H.INIT_PORT_PROC 0),
    .mach_port_deallocate task,
    .mach_port_deallocate file ]

/-- What one run of `run_for_real` met: the effects of the rounds that did not
find the program, then the name and the file of the lookup that did, the task
created, the answer of `proc_task2proc` for it and the result of
`file_exec`. -/
structure Started where
  retries : List Effect
  name : List Char
  file : Nat
  task : Nat
  proc : Int × Nat
  err : Int

/-- The effects of one returning run of `run_for_real` on `filename` with the
argument blob `args`, in order. -/
def Started.effects (H : Hdr) (W : World) (procserver : Nat) (dtable ports : List Nat)
    (filename args : List Char) (l : Started) : List Effect :=
  (.printf "File name [%s]: " [.s (cstr filename)] :: l.retries) ++
  start_effects H W procserver dtable ports l.name l.file l.task l.proc args l.err

/-- The effects of `launch_system` after the two programs are started, in
order: the message port is told to the process registry, the port it had
before is released, and the bootstrap filesystem is given its ports, with a
report when that fails. -/
def finish_effects (W : World) (s : InitState) (old : Nat) (err : Int) : List Effect :=
  [ .printf "Init has completed.\n" [], .fflush,
    .proc_setmsgport s.procserver s.startup old ] ++
  (if old ≠ 0 then [.mach_port_deallocate old] else []) ++
  [ .fsys_init s.bootport (W.proc_task2proc (s.trace.length + 9) s.procserver s.fstask).2
      s.authserver err ] ++
  (if err ≠ 0 then [.perror "fsys_init".toList] else [])

/-- The effect that tells the process registry the message port of this
server. -/
def announces : Effect → Bool
  | .proc_setmsgport .. => true
  | _ => false

/-- The messages of the `perror` calls in a trace, in order. -/
def reports (t : List Effect) : List (List Char) :=
  t.filterMap fun e => match e with
    | .perror msg => some msg
    | _ => none

/-- The last step of `launch_system` from the state `b`: the bootstrap
filesystem is given its ports, `errno` takes the result `e` and a failure is
reported. -/
def fsys_step (b : InitState) (fsproc : Nat) (e : Int) : InitState :=
  addTrace { b with errno := e }
    (.fsys_init b.bootport fsproc b.authserver e ::
      if e ≠ 0 then [.perror "fsys_init".toList] else [])

/-! ## Worked examples: concrete header values, world and state -/

/-- Header values of a GNU system, used in the worked examples. -/
def gnuHdr : Hdr :=
  { EPERM := 0x40000001, ENOMEM := 0x4000000C, EOPNOTSUPP := 0x4000002D,
    MIG_NO_REPLY := -305, MACH_SEND_INVALID_DEST := 0x10000003,
    RB_AUTOBOOT := 0, RB_HALT := 8, PI_NOPARENT := 0x80, BUFSIZ := 8192,
    INIT_PORT_AUTH := 2, INIT_PORT_PROC := 3, HURD_RELEASE := "0.0" }

/-- A world for the worked examples: this server is task 10, the process
registry knows the pids 1, 2 and 3 with the tasks 10, 20 and 30, every call
succeeds and every allocation succeeds. -/
def calmWorld : World :=
  { mach_task_self := 10, environ := 0,
    startup_dosync := fun _ _ => 0,
    proc_getallpids := fun _ => (0, [1, 2, 3]),
    proc_pid2task := fun _ _ pid => (0, (pid * 10).toNat),
    proc_getprocinfo := fun _ _ _ => (0, 0),
    proc_task2proc := fun _ _ task => (0, task + 1000),
    path_lookup := fun _ _ => 50,
    task_create := fun t => 60 + t,
    file_exec := fun _ _ _ => 0,
    proc_setmsgport := fun _ _ _ => 0,
    fsys_init := fun _ _ _ _ => 0,
    mach_port_request_notification := fun _ _ => 0,
    malloc_ok := fun _ => true,
    strdup_ok := fun _ => true }

/-- The world of `calmWorld` with the memory used up: every allocation fails. -/
def fullWorld : World :=
  { calmWorld with malloc_ok := fun _ => false, strdup_ok := fun _ => false }

/-- A state as `main` leaves it before the message loop: both registries
empty, neither foundational server registered, the process registry is task
20 and the auth server task 21. -/
def bootState : InitState :=
  { ess_tasks := [], ntfy_tasks := [], startup := 4, host_priv := 2, device_master := 3,
    procreply := 0, authreply := 0, procreplytype := 0, authreplytype := 0,
    authserver := 0, procserver := 0, bootport := 5, authtask := 21, proctask := 20,
    fstask := 6, init_version := "0.0 pre-alpha", default_ports := [7, 8, 0, 0, 4, 0],
    default_dtable := [11, 12, 13], global_argv := 0, prompt_for_servers := 0,
    errno := 0, stdin := [], trace := [] }

/-- A state with one essential task (task 30, named fsck) and two notified
tasks (ports 40 and 41), the foundational servers registered. -/
def busyState : InitState :=
  { bootState with
    ess_tasks := [{ task_port := 30, name := "fsck".toList }],
    ntfy_tasks := [{ notify_port := 40 }, { notify_port := 41 }],
    procserver := 22, authserver := 23 }

/-- The world of `calmWorld` with unwilling notified tasks: the first one
called is gone (invalid destination), the others answer with an error. -/
def grumpyWorld : World :=
  { calmWorld with
    startup_dosync := fun i _ =>
      if i = 0 then gnuHdr.MACH_SEND_INVALID_DEST else gnuHdr.EPERM }

/-- The world of `calmWorld` in which the process registry dies during the
enumeration: it lists the pids 3, 1 and 2, and the task lookup at the third
position reports the invalid destination. -/
def dyingProcWorld : World :=
  { calmWorld with
    proc_getallpids := fun _ => (0, [3, 1, 2]),
    proc_pid2task := fun ind _ pid =>
      if ind = 2 then (gnuHdr.MACH_SEND_INVALID_DEST, 0) else (0, (pid * 10).toNat) }

/-- The world of `calmWorld` in which the process registry does not hand out
proc ports: every `proc_task2proc` fails with the invalid destination. -/
def lostProcWorld : World :=
  { calmWorld with proc_task2proc := fun _ _ _ => (gnuHdr.MACH_SEND_INVALID_DEST, 0) }

/-- The world of `calmWorld` in which the bootstrap filesystem refuses its
ports: `fsys_init` fails with `EPERM`. -/
def deafFsWorld : World :=
  { calmWorld with fsys_init := fun _ _ _ _ => gnuHdr.EPERM }

/-- The world of `calmWorld` on a disk with one program: every path lookup
fails but that of `/boot/proc`. -/
def spareDiskWorld : World :=
  { calmWorld with path_lookup := fun _ path => if path = "/boot/proc".toList then 50 else 0 }

/-! ## libdiskfs: `diskfs_S_file_set_translator` (src/libdiskfs/file-set-trans.c)

The node the credential refers to is passed as a state: its mode and device
number are fields, and every call of a helper of libdiskfs, libfshelp or of
another server on it is appended to a trace.  The answers of the helpers are
read from an `FsWorld` record.  The length `passivelen` is the length of the
byte list `passive`. -/

/-- Constants of the headers used by file-set-trans.c.  The headers are not
among the sources, so the values are parameters of every definition. -/
structure FsHdr where
  FS_TRANS_FORCE : Nat
  FS_TRANS_EXCL : Nat
  FS_TRANS_SET : Nat
  FS_TRANS_ORPHAN : Nat
  S_IPTRANS : Nat
  S_IFMT : Nat
  S_IFDIR : Nat
  S_IFLNK : Nat
  S_IFCHR : Nat
  S_IFBLK : Nat
  S_IFIFO : Nat
  S_IFSOCK : Nat
  EOPNOTSUPP : Int
  EROFS : Int
  EINVAL : Int
  EBUSY : Int
  EISDIR : Int
  MIG_SERVER_DIED : Int
  MACH_SEND_INVALID_DEST : Int
  _HURD_SYMLINK : List Char
  _HURD_CHRDEV : List Char
  _HURD_BLKDEV : List Char
  _HURD_FIFO : List Char
  _HURD_IFSOCK : List Char

/-- What the call does to the node and to the outside, in order; results of
the helpers are recorded with the call. -/
inductive FsEffect where
  | mutex_lock
  | mutex_unlock
  | fshelp_fetch_control (err : Int) (control : Nat)
  | fsys_goaway (control : Nat) (flags : Nat) (err : Int)
  | mach_port_deallocate (port : Nat)
  | fshelp_set_active (active : Nat) (excl : Nat) (err : Int)
  | diskfs_validate_rdev_change (rdev : Nat) (err : Int)
  | diskfs_truncate (size : Nat)
  | diskfs_create_symlink_hook (target : List Char) (err : Int)
  | diskfs_node_rdwr (data : List Char) (err : Int)
  | diskfs_validate_mode_change (mode : Nat) (err : Int)
  | diskfs_node_update (wait : Nat)
  | diskfs_set_translator (passive : Option (List Char)) (passivelen : Nat) (err : Int)
  deriving DecidableEq, Repr

/-- The user of an open (`struct protid`); the node is passed separately. -/
structure protid where
  user : Nat
  deriving DecidableEq, Repr

/-- The node (`struct node`): the fields of `dn_stat` the call reads and
writes, and the trace of the calls made on it. -/
structure FsNode where
  st_mode : Nat
  st_rdev : Nat
  trace : List FsEffect
  deriving DecidableEq, Repr

/-- Answers of the helpers and the configuration variables of the filesystem.
Answers that may differ from call to call take the number of effects performed
so far as their first argument. -/
structure FsWorld where
  diskfs_check_readonly : Bool
  diskfs_shortcut_symlink : Bool
  diskfs_shortcut_chrdev : Bool
  diskfs_shortcut_blkdev : Bool
  diskfs_shortcut_fifo : Bool
  diskfs_shortcut_ifsock : Bool
  fshelp_isowner : Nat → Int
  fshelp_fetch_control : Nat → Int × Nat
  fsys_goaway : Nat → Nat → Nat → Int
  fshelp_set_active : Nat → Nat → Nat → Int
  strtol : List Char → Int
  makedev : Int → Int → Nat
  diskfs_validate_rdev_change : Nat → Nat → Int
  diskfs_create_symlink_hook : Option (Nat → List Char → Int)
  diskfs_node_rdwr : Nat → List Char → Int
  diskfs_validate_mode_change : Nat → Nat → Int
  diskfs_set_translator : Nat → Option (List Char) → Int

/-- How the call ends: it returns an error code, it reads through an invalid
pointer, or an `assert` fails and the server aborts. -/
inductive FsRes where
  | ret (err : Int) (np : FsNode)
  | fault (np : FsNode)
  | assert_failed (np : FsNode)
  deriving DecidableEq, Repr

/-- The node with which a call ended. -/
def FsRes.node : FsRes → FsNode
  | .ret _ np => np
  | .fault np => np
  | .assert_failed np => np

/-- Append one effect to the trace of the node. -/
def FsNode.emit (np : FsNode) (e : FsEffect) : FsNode :=
  { np with trace := np.trace ++ [e] }

/-- Number of effects performed so far on the node. -/
def FsNode.clock (np : FsNode) : Nat := np.trace.length

/-- The macro `S_ISDIR`. -/
def S_ISDIR (H : FsHdr) (mode : Nat) : Bool :=
  mode &&& H.S_IFMT = H.S_IFDIR

/-- The `if` chain that recognises the short-circuited translators (lines
111 to 122): the new mode, 0 when the translator is an ordinary one; `none`
when `strcmp` is called on a null `passive`. -/
def shortcut_mode (H : FsHdr) (W : FsWorld) (passive : Option (List Char)) : Option Nat :=
  match passive with
  | none =>
    if W.diskfs_shortcut_symlink ∨ W.diskfs_shortcut_chrdev ∨ W.diskfs_shortcut_blkdev ∨
        W.diskfs_shortcut_fifo ∨ W.diskfs_shortcut_ifsock then none
    else some 0
  | some p =>
    if W.diskfs_shortcut_symlink ∧ cstr p = H._HURD_SYMLINK then some H.S_IFLNK
    else if W.diskfs_shortcut_chrdev ∧ cstr p = H._HURD_CHRDEV then some H.S_IFCHR
    else if W.diskfs_shortcut_blkdev ∧ cstr p = H._HURD_BLKDEV then some H.S_IFBLK
    else if W.diskfs_shortcut_fifo ∧ cstr p = H._HURD_FIFO then some H.S_IFIFO
    else if W.diskfs_shortcut_ifsock ∧ cstr p = H._HURD_IFSOCK then some H.S_IFSOCK
    else some 0

/-- The block `if (newmode == S_IFBLK || newmode == S_IFCHR)` (lines 135 to
168): the device number is read from the two arguments after the translator
name.  The result is the node to go on with, or the end of the call. -/
def set_device_number (H : FsHdr) (W : FsWorld) (p : List Char) (np : FsNode) :
    FsNode ⊕ FsRes :=
  let arg := (cstr p).length + 1
  if ¬ arg ≤ p.length then .inr (.assert_failed np)
  else if arg = p.length then .inr (.ret H.EINVAL (np.emit .mutex_unlock))
  else
    let major := W.strtol (cstr (p.drop arg))
    let arg := arg + (cstr (p.drop arg)).length + 1
    if ¬ arg < p.length then .inr (.assert_failed np)
    else if arg = p.length then .inr (.ret H.EINVAL (np.emit .mutex_unlock))
    else
      let minor := W.strtol (cstr (p.drop arg))
      let error := W.diskfs_validate_rdev_change np.clock (W.makedev major minor)
      let np := np.emit (.diskfs_validate_rdev_change (W.makedev major minor) error)
      if error ≠ 0 then .inr (.ret error (np.emit .mutex_unlock))
      else .inl { np with st_rdev := W.makedev major minor }

/-- The block `if (newmode == S_IFLNK)` (lines 171 to 193): the target of the
link is handed to the hook or written into the file.  The result is the node
to go on with, or the end of the call. -/
def set_link_target (H : FsHdr) (W : FsWorld) (p : List Char) (np : FsNode) :
    FsNode ⊕ FsRes :=
  let arg := (cstr p).length + 1
  if ¬ arg ≤ p.length then .inr (.assert_failed np)
  else if arg = p.length then .inr (.ret H.EINVAL (np.emit .mutex_unlock))
  else
    let target := cstr (p.drop arg)
    let hooked : Int × FsNode :=
      match W.diskfs_create_symlink_hook with
      | some hook =>
        (hook np.clock target, np.emit (.diskfs_create_symlink_hook target (hook np.clock target)))
      | none => (0, np)
    let stored : Int × FsNode :=
      if W.diskfs_create_symlink_hook.isNone ∨ hooked.1 = H.EINVAL then
        (W.diskfs_node_rdwr hooked.2.clock target,
          hooked.2.emit (.diskfs_node_rdwr target (W.diskfs_node_rdwr hooked.2.clock target)))
      else hooked
    if stored.1 ≠ 0 then .inr (.ret stored.1 (stored.2.emit .mutex_unlock))
    else .inl stored.2

/-- The block `if (newmode)` (lines 124 to 203): a short-circuited translator
is stored in the mode of the node.  Here `passive` is not null, as `strcmp`
has matched it. -/
def set_shortcut (H : FsHdr) (W : FsWorld) (p : List Char) (newmode : Nat) (np : FsNode) :
    FsRes :=
  if S_ISDIR H np.st_mode then .ret H.EISDIR (np.emit .mutex_unlock)
  else
    let dev : FsNode ⊕ FsRes :=
      if newmode = H.S_IFBLK ∨ newmode = H.S_IFCHR then set_device_number H W p np
      else .inl np
    match dev with
    | .inr r => r
    | .inl np =>
      let np := np.emit (.diskfs_truncate 0)
      let link : FsNode ⊕ FsRes :=
        if newmode = H.S_IFLNK then set_link_target H W p np else .inl np
      match link with
      | .inr r => r
      | .inl np =>
        let newmode := (np.st_mode &&& (2 ^ 32 - 1 - H.S_IFMT % 2 ^ 32)) ||| newmode
        let error := W.diskfs_validate_mode_change np.clock newmode
        let np := np.emit (.diskfs_validate_mode_change newmode error)
        let np :=
          if error = 0 then { np with st_mode := newmode }.emit (.diskfs_node_update 1)
          else np
        .ret error (np.emit .mutex_unlock)

/-- The part of the call from the comment `Handle exclusive passive bit
*first*` on (lines 85 to 210), run with the node locked and `error` zero. -/
def set_translators (H : FsHdr) (W : FsWorld) (passive_flags active_flags : Nat)
    (passive : Option (List Char)) (active : Nat) (np : FsNode) : FsRes :=
  if passive_flags &&& H.FS_TRANS_SET ≠ 0 ∧ passive_flags &&& H.FS_TRANS_EXCL ≠ 0 ∧
      np.st_mode &&& H.S_IPTRANS ≠ 0 then
    .ret H.EBUSY (np.emit .mutex_unlock)
  else
    let act : FsNode ⊕ FsRes :=
      if active_flags &&& H.FS_TRANS_SET ≠ 0 then
        let error := W.fshelp_set_active np.clock active (active_flags &&& H.FS_TRANS_EXCL)
        let np := np.emit (.fshelp_set_active active (active_flags &&& H.FS_TRANS_EXCL) error)
        if error ≠ 0 then .inr (.ret error (np.emit .mutex_unlock)) else .inl np
      else .inl np
    match act with
    | .inr r => r
    | .inl np =>
      if passive_flags &&& H.FS_TRANS_SET ≠ 0 then
        let newmode : Option Nat :=
          if passive_flags &&& H.FS_TRANS_FORCE = 0 then shortcut_mode H W passive
          else some 0
        match newmode, passive with
        | none, _ => .fault np
        | some 0, _ =>
          let error := W.diskfs_set_translator np.clock passive
          let np := np.emit (.diskfs_set_translator passive (passive.getD []).length error)
          .ret error (np.emit .mutex_unlock)
        | some _, none => .fault np
        | some newmode, some p => set_shortcut H W p newmode np
      else .ret 0 (np.emit .mutex_unlock)

/-- Implement file_set_translator as described in <hurd/fs.defs>.  The node
`np` is `cred->po->np`; `passivelen` is the length of `passive`. -/
def diskfs_S_file_set_translator (H : FsHdr) (W : FsWorld) (cred : Option protid)
    (passive_flags active_flags killtrans_flags : Nat) (passive : Option (List Char))
    (active : Nat) (np : FsNode) : FsRes :=
  match cred with
  | none => .ret H.EOPNOTSUPP np
  | some cred =>
    if passive_flags &&& H.FS_TRANS_SET = 0 ∧ active_flags &&& H.FS_TRANS_SET = 0 then
      .ret 0 np
    else if passive_flags &&& H.FS_TRANS_SET ≠ 0 ∧ W.diskfs_check_readonly = true then
      .ret H.EROFS np
    else if passive = some [] then .fault np
    else if (passive.getD []).getLast? ≠ none ∧ (passive.getD []).getLast? ≠ some NUL then
      .ret H.EINVAL np
    else
      let np := np.emit .mutex_lock
      let error := W.fshelp_isowner cred.user
      if error ≠ 0 then .ret error (np.emit .mutex_unlock)
      else if active_flags &&& H.FS_TRANS_SET ≠ 0 ∧ active_flags &&& H.FS_TRANS_ORPHAN = 0 then
        let fc := W.fshelp_fetch_control np.clock
        let np := np.emit (.fshelp_fetch_control fc.1 fc.2)
        if fc.1 ≠ 0 then .ret fc.1 (np.emit .mutex_unlock)
        else if fc.2 ≠ 0 ∧ active_flags &&& H.FS_TRANS_EXCL = 0 then
          let np := np.emit .mutex_unlock
          let error := W.fsys_goaway np.clock fc.2 killtrans_flags
          let np := np.emit (.fsys_goaway fc.2 killtrans_flags error)
          let np := np.emit (.mach_port_deallocate fc.2)
          if error ≠ 0 ∧ error ≠ H.MIG_SERVER_DIED ∧ error ≠ H.MACH_SEND_INVALID_DEST then
            .ret error np
          else
            set_translators H W passive_flags active_flags passive active (np.emit .mutex_lock)
        else if fc.2 ≠ 0 then
          set_translators H W passive_flags active_flags passive active
            (np.emit (.mach_port_deallocate fc.2))
        else set_translators H W passive_flags active_flags passive active np
      else set_translators H W passive_flags active_flags passive active np

/-- The calls that change or dismiss a translator of the node in a trace: the
go-away request to the active translator, the setting of the active
translator and the setting of the passive one. -/
def translator_calls (t : List FsEffect) : List FsEffect :=
  t.filter fun e => match e with
    | .fsys_goaway .. => true
    | .fshelp_set_active .. => true
    | .diskfs_set_translator .. => true
    | _ => false

/-- Header values of a GNU system for the worked examples of
file_set_translator. -/
def gnuFsHdr : FsHdr :=
  { FS_TRANS_FORCE := 1, FS_TRANS_EXCL := 2, FS_TRANS_SET := 4, FS_TRANS_ORPHAN := 8,
    S_IPTRANS := 0o10000000, S_IFMT := 0o170000, S_IFDIR := 0o40000, S_IFLNK := 0o120000,
    S_IFCHR := 0o20000, S_IFBLK := 0o60000, S_IFIFO := 0o10000, S_IFSOCK := 0o140000,
    EOPNOTSUPP := 0x4000002D, EROFS := 0x4000001E, EINVAL := 0x40000016,
    EBUSY := 0x40000010, EISDIR := 0x40000015,
    MIG_SERVER_DIED := -308, MACH_SEND_INVALID_DEST := 0x10000003,
    _HURD_SYMLINK := "/hurd/symlink".toList, _HURD_CHRDEV := "/hurd/chrdev".toList,
    _HURD_BLKDEV := "/hurd/blkdev".toList, _HURD_FIFO := "/hurd/fifo".toList,
    _HURD_IFSOCK := "/hurd/ifsock".toList }

/-- A filesystem for the worked examples: writable, all shortcuts enabled, no
symlink hook, every helper succeeds, and the node has an active translator
whose control port is 77. -/
def calmFsWorld : FsWorld :=
  { diskfs_check_readonly := false,
    diskfs_shortcut_symlink := true, diskfs_shortcut_chrdev := true,
    diskfs_shortcut_blkdev := true, diskfs_shortcut_fifo := true,
    diskfs_shortcut_ifsock := true,
    fshelp_isowner := fun _ => 0,
    fshelp_fetch_control := fun _ => (0, 77),
    fsys_goaway := fun _ _ _ => 0,
    fshelp_set_active := fun _ _ _ => 0,
    strtol := fun digits => digits.foldl (fun n c => 10 * n + (c.toNat - 48)) 0,
    makedev := fun major minor => (major * 256 + minor).toNat,
    diskfs_validate_rdev_change := fun _ _ => 0,
    diskfs_create_symlink_hook := none,
    diskfs_node_rdwr := fun _ _ => 0,
    diskfs_validate_mode_change := fun _ _ => 0,
    diskfs_set_translator := fun _ _ => 0 }

/-- A regular file with mode 0644 that has a passive translator. -/
def translatedNode : FsNode :=
  { st_mode := 0o100644 ||| 0o10000000, st_rdev := 0, trace := [] }

/-- The filesystem of `calmFsWorld` with an active translator that refuses to
go away: `fsys_goaway` fails with `EBUSY + 1`, an error that is neither
`MIG_SERVER_DIED` nor `MACH_SEND_INVALID_DEST`. -/
def stubbornFsWorld : FsWorld :=
  { calmFsWorld with fsys_goaway := fun _ _ _ => gnuFsHdr.EBUSY + 1 }

/-! ## libdiskfs: `io_rdwr` (src/libdiskfs/rdwr-internal.c)

The inode is passed as a state with its two time stamps and a trace of the
calls made.  An `int` is an integer taken modulo 2^32 into the signed range
after every operation; `__vm_page_size` is a `vm_size_t`, an unsigned 32-bit
integer, so the expressions it occurs in are computed modulo 2^32.  The
pointer `data` is an address, a plain integer.  A protected region
(`catch_exception` ... `end_catch_exception`) either runs to its end or is
left with the error `catch_exception` returns; which it is, is read from the
`RwWorld` record, as are the results of `vm_map`. -/

/-- Values of the Mach headers used by rdwr-internal.c: the page size and the
macro `trunc_page`.  The headers are not among the sources, so they are
parameters of every definition. -/
structure RwHdr where
  vm_page_size : Int
  trunc_page : Int → Int

/-- A value stored in an `int`: 32 bits, two's complement. -/
def int32 (x : Int) : Int := (x + 2147483648) % 4294967296 - 2147483648

/-- A value stored in an unsigned 32-bit integer. -/
def uint32 (x : Int) : Int := x % 4294967296

/-- What `io_rdwr` does, in order; results are recorded with the call. -/
inductive RwEffect where
  | catch_exception (err : Int)
  | end_catch_exception
  | get_filemap (memobj : Nat)
  | mach_port_insert_right (memobj : Nat)
  | vm_map (size : Int) (memobj : Nat) (winoff : Int) (err : Int) (window : Int)
  | register_memory_fault_area (winoff : Int) (window : Int) (size : Int)
  | bcopy (to_file : Bool) (data : Int) (window : Int) (disp : Int) (cc : Int)
  | vm_deallocate (window : Int) (size : Int)
  | unregister_memory_fault_area (window : Int) (size : Int)
  | mach_port_deallocate (memobj : Nat)
  deriving DecidableEq, Repr

/-- The inode (`struct inode`): the time stamps `io_rdwr` writes, and the trace
of the calls made. -/
structure RwNode where
  di_mtime : Int
  di_atime : Int
  trace : List RwEffect
  deriving DecidableEq, Repr

/-- The global `readonly`, the clock, and the answers of the outside: the
error with which the protected region entered after so many effects is left (0
when no memory fault occurs in it), the memory object of the file, and the
error and the address `vm_map` gives after so many effects. -/
structure RwWorld where
  readonly : Int
  wallclock_seconds : Int
  catch_exception : Nat → Int
  get_filemap : Nat
  vm_map : Nat → Int × Int

/-- How `io_rdwr` ends: it returns an error code, an `assert` fails, or the
model ran out of fuel. -/
inductive RwRes where
  | ret (err : Int) (np : RwNode)
  | assert_failed (np : RwNode)
  | timeout (np : RwNode)
  deriving DecidableEq, Repr

/-- Append one effect to the trace of the inode. -/
def RwNode.emit (np : RwNode) (e : RwEffect) : RwNode :=
  { np with trace := np.trace ++ [e] }

/-- Number of effects performed so far. -/
def RwNode.clock (np : RwNode) : Nat := np.trace.length

/-- The end of `io_rdwr` after the loop (lines 99 to 102): the final assertion,
the release of the memory object and the return. -/
def io_rdwr_end (memobj : Nat) (amt err : Int) (np : RwNode) : RwRes :=
  if amt = 0 ∨ err ≠ 0 then .ret err (np.emit (.mach_port_deallocate memobj))
  else .assert_failed np

/-- The loop `while (amt > 0)` of `io_rdwr` (lines 62 to 98), followed by the
end of the function. -/
def io_rdwr_loop (H : RwHdr) (W : RwWorld) (memobj : Nat) (dir : Int) :
    Nat → Int → Int → Int → RwNode → RwRes
  | 0, _, _, _, np => .timeout np
  | fuel + 1, data, offset, amt, np =>
    if amt > 0 then
      let winoff := int32 (H.trunc_page offset)
      let m := W.vm_map np.clock
      let np := np.emit (.vm_map (uint32 (8 * H.vm_page_size)) memobj winoff m.1 m.2)
      if m.1 ≠ 0 then .assert_failed np
      else
        let np := np.emit
          (.register_memory_fault_area winoff m.2 (uint32 (8 * H.vm_page_size)))
        let cc :=
          if uint32 (int32 (int32 (offset - winoff) + amt)) > uint32 (8 * H.vm_page_size) then
            int32 (uint32 (uint32 (8 * H.vm_page_size) - uint32 (int32 (offset - winoff))))
          else amt
        let err := W.catch_exception np.clock
        let np := np.emit (.catch_exception err)
        let np :=
          if err = 0 then
            (np.emit (.bcopy (dir ≠ 0) data m.2 (int32 (offset - winoff)) cc)).emit
              .end_catch_exception
          else np
        let np := np.emit (.vm_deallocate m.2 (uint32 (8 * H.vm_page_size)))
        let np := np.emit (.unregister_memory_fault_area m.2 (uint32 (8 * H.vm_page_size)))
        if err ≠ 0 then io_rdwr_end memobj amt err np
        else io_rdwr_loop H W memobj dir fuel (data + cc) (int32 (offset + cc))
          (int32 (amt - cc)) np
    else io_rdwr_end memobj amt 0 np

/-- Actually read or write a file.  The file size must already permit the
requested access.  NP is the file to read/write.  DATA is a buffer to write
from or fill on read.  OFFSET is the absolute address (-1 not permitted here);
AMT is the size of the read/write to perform; DIR is set for writing and clear
for reading.  The inode must be locked. -/
def io_rdwr (H : RwHdr) (W : RwWorld) (fuel : Nat) (np : RwNode)
    (data offset amt dir : Int) : RwRes :=
  if dir ≠ 0 ∧ W.readonly ≠ 0 then .assert_failed np
  else
    let start : Int × RwNode :=
      if W.readonly = 0 then
        let err := W.catch_exception np.clock
        let np := np.emit (.catch_exception err)
        if err = 0 then
          (0, (if dir ≠ 0 then { np with di_mtime := W.wallclock_seconds }
            else { np with di_atime := W.wallclock_seconds }).emit .end_catch_exception)
        else (err, np)
      else (0, np)
    if start.1 ≠ 0 then .ret start.1 start.2
    else
      let np := start.2
      let memobj := W.get_filemap
      let np := np.emit (.get_filemap memobj)
      let np := np.emit (.mach_port_insert_right memobj)
      io_rdwr_loop H W memobj dir fuel data offset amt np

/-- One round of the copy loop as the trace shows it: the address in the
buffer, the file offset, the file offset and the address of the window mapped,
and the number of bytes copied. -/
structure Copy where
  data : Int
  offset : Int
  winoff : Int
  window : Int
  cc : Int
  deriving DecidableEq, Repr

/-- The effects of one round of the copy loop in which `vm_map` succeeds and no
memory fault occurs. -/
def Copy.effects (H : RwHdr) (memobj : Nat) (dir : Int) (c : Copy) : List RwEffect :=
  [ .vm_map (8 * H.vm_page_size) memobj c.winoff 0 c.window,
    .register_memory_fault_area c.winoff c.window (8 * H.vm_page_size),
    .catch_exception 0,
    .bcopy (dir ≠ 0) c.data c.window (c.offset - c.winoff) c.cc,
    .end_catch_exception,
    .vm_deallocate c.window (8 * H.vm_page_size),
    .unregister_memory_fault_area c.window (8 * H.vm_page_size) ]

/-- The rounds `cs` split the access of `amt` bytes at the file offset `offset`
from the buffer at `data`: the first starts there, each copies at least one
byte and no more than is left, each starts where the one before ended, in the
file and in the buffer, and nothing is left at the end. -/
def chunked : Int → Int → Int → List Copy → Prop
  | _, _, amt, [] => amt = 0
  | data, offset, amt, c :: cs =>
    c.data = data ∧ c.offset = offset ∧ 0 < c.cc ∧ c.cc ≤ amt ∧
    chunked (data + c.cc) (offset + c.cc) (amt - c.cc) cs

/-- Header values for the worked examples of `io_rdwr`: pages of 4096 bytes,
and `trunc_page` as the C library defines it. -/
def gnuRwHdr : RwHdr :=
  { vm_page_size := 4096, trunc_page := fun x => uint32 x / 4096 * 4096 }

/-- A filesystem for the worked examples of `io_rdwr`: writable, no memory
fault occurs, and `vm_map` succeeds with the window at the address 65536. -/
def calmRwWorld : RwWorld :=
  { readonly := 0, wallclock_seconds := 1000, catch_exception := fun _ => 0,
    get_filemap := 9, vm_map := fun _ => (0, 65536) }

/-- The filesystem of `calmRwWorld` with the address space used up: `vm_map`
fails with `KERN_NO_SPACE` (3). -/
def crampedRwWorld : RwWorld :=
  { calmRwWorld with vm_map := fun _ => (3, 0) }

/-- An inode for the worked examples. -/
def someInode : RwNode := { di_mtime := 0, di_atime := 0, trace := [] }

/-- The inode with which a call of `io_rdwr` ended. -/
def RwRes.node : RwRes → RwNode
  | .ret _ np => np
  | .assert_failed np => np
  | .timeout np => np

/-- The mappings and the copies in a trace, in order. -/
def mapped_and_copied (t : List RwEffect) : List RwEffect :=
  t.filter fun e => match e with
    | .bcopy .. => true
    | .vm_map .. => true
    | _ => false

/-- Header values with pages of 2^29 bytes: eight pages are 2^32 bytes, which
is 0 in 32 bits. -/
def hugePageHdr : RwHdr :=
  { vm_page_size := 536870912, trunc_page := fun x => uint32 x / 536870912 * 536870912 }

/-! ## Basic facts about sequencing and the reboot sequence -/

@[simp] theorem Res.bind_ret {α β : Type} (a : α) (s : InitState)
    (k : α → InitState → Res β) : (Res.ret a s).bind k = k a s := rfl

@[simp] theorem Res.bind_exited {α β : Type} (c : Int) (s : InitState)
    (k : α → InitState → Res β) : (Res.exited c s : Res α).bind k = .exited c s := rfl

@[simp] theorem Res.bind_timeout {α β : Type} (s : InitState)
    (k : α → InitState → Res β) : (Res.timeout s : Res α).bind k = .timeout s := rfl

@[simp] theorem Res.bind_fault {α β : Type} (s : InitState)
    (k : α → InitState → Res β) : (Res.fault s : Res α).bind k = .fault s := rfl

@[simp] theorem Res.bind_hang {α β : Type} (s : InitState)
    (k : α → InitState → Res β) : (Res.hang s : Res α).bind k = .hang s := rfl

/-- The reboot of the microkernel ends in `exit (1)`. -/
theorem reboot_mach_exits (H : Hdr) (flags : Int) (s : InitState) :
    reboot_mach H flags s = .exited 1
      (fflush (printf s "init: Would %s Mach with flags %#x\n" [.s (BOOT H flags), .x flags])) :=
  rfl

/-- The block at `procbad` ends in `exit (1)`. -/
theorem procbad_exits (H : Hdr) (flags : Int) (s : InitState) :
    ∃ s1, procbad H flags s = .exited 1 s1 :=
  ⟨_, rfl⟩

/-- The loop over the process ids either runs to its end or ends in `exit (1)`. -/
theorem kill_loop_ends (H : Hdr) (W : World) (flags : Int) (pids : List Int) :
    ∀ (ind : Nat) (s : InitState),
      (∃ s1, kill_loop H W flags ind pids s = .ret () s1) ∨
      (∃ s1, kill_loop H W flags ind pids s = .exited 1 s1) := by
  induction pids with
  | nil => intro ind s; exact Or.inl ⟨s, rfl⟩
  | cons pid rest ih =>
    intro ind s
    unfold kill_loop
    simp only []
    split_ifs
    all_goals first
      | exact ih _ _
      | exact Or.inr ⟨_, rfl⟩

theorem terminated_append (a b : List Effect) :
    terminated (a ++ b) = terminated a ++ terminated b := by
  simp [terminated, List.filterMap_append]

theorem notified_append (a b : List Effect) :
    notified (a ++ b) = notified a ++ notified b := by
  simp [notified, List.filterMap_append]

@[simp] theorem emit_eq (s : InitState) (e : Effect) : emit s e = addTrace s [e] := rfl

@[simp] theorem printf_eq (s : InitState) (fmt : String) (args : List Arg) :
    printf s fmt args = addTrace s [.printf fmt args] := rfl

@[simp] theorem fflush_eq (s : InitState) : fflush s = addTrace s [.fflush] := rfl

@[simp] theorem addTrace_addTrace (s : InitState) (a b : List Effect) :
    addTrace (addTrace s a) b = addTrace s (a ++ b) := by
  simp [addTrace, List.append_assoc]

@[simp] theorem addTrace_nil (s : InitState) : addTrace s [] = s := by
  simp [addTrace]

@[simp] theorem addTrace_trace (s : InitState) (t : List Effect) :
    (addTrace s t).trace = s.trace ++ t := rfl

@[simp] theorem addTrace_procserver (s : InitState) (t : List Effect) :
    (addTrace s t).procserver = s.procserver := rfl

@[simp] theorem addTrace_authserver (s : InitState) (t : List Effect) :
    (addTrace s t).authserver = s.authserver := rfl

@[simp] theorem addTrace_proctask (s : InitState) (t : List Effect) :
    (addTrace s t).proctask = s.proctask := rfl

@[simp] theorem addTrace_ntfy_tasks (s : InitState) (t : List Effect) :
    (addTrace s t).ntfy_tasks = s.ntfy_tasks := rfl

@[simp] theorem addTrace_ess_tasks (s : InitState) (t : List Effect) :
    (addTrace s t).ess_tasks = s.ess_tasks := rfl

@[simp] theorem addTrace_host_priv (s : InitState) (t : List Effect) :
    (addTrace s t).host_priv = s.host_priv := rfl

@[simp] theorem addTrace_startup (s : InitState) (t : List Effect) :
    (addTrace s t).startup = s.startup := rfl

@[simp] theorem addTrace_device_master (s : InitState) (t : List Effect) :
    (addTrace s t).device_master = s.device_master := rfl

@[simp] theorem addTrace_procreply (s : InitState) (t : List Effect) :
    (addTrace s t).procreply = s.procreply := rfl

@[simp] theorem addTrace_authreply (s : InitState) (t : List Effect) :
    (addTrace s t).authreply = s.authreply := rfl

@[simp] theorem addTrace_procreplytype (s : InitState) (t : List Effect) :
    (addTrace s t).procreplytype = s.procreplytype := rfl

@[simp] theorem addTrace_authreplytype (s : InitState) (t : List Effect) :
    (addTrace s t).authreplytype = s.authreplytype := rfl

@[simp] theorem addTrace_bootport (s : InitState) (t : List Effect) :
    (addTrace s t).bootport = s.bootport := rfl

@[simp] theorem addTrace_authtask (s : InitState) (t : List Effect) :
    (addTrace s t).authtask = s.authtask := rfl

@[simp] theorem addTrace_fstask (s : InitState) (t : List Effect) :
    (addTrace s t).fstask = s.fstask := rfl

@[simp] theorem addTrace_init_version (s : InitState) (t : List Effect) :
    (addTrace s t).init_version = s.init_version := rfl

@[simp] theorem addTrace_default_ports (s : InitState) (t : List Effect) :
    (addTrace s t).default_ports = s.default_ports := rfl

@[simp] theorem addTrace_default_dtable (s : InitState) (t : List Effect) :
    (addTrace s t).default_dtable = s.default_dtable := rfl

@[simp] theorem addTrace_global_argv (s : InitState) (t : List Effect) :
    (addTrace s t).global_argv = s.global_argv := rfl

@[simp] theorem addTrace_prompt_for_servers (s : InitState) (t : List Effect) :
    (addTrace s t).prompt_for_servers = s.prompt_for_servers := rfl

@[simp] theorem addTrace_errno (s : InitState) (t : List Effect) :
    (addTrace s t).errno = s.errno := rfl

@[simp] theorem addTrace_stdin (s : InitState) (t : List Effect) :
    (addTrace s t).stdin = s.stdin := rfl

/-- The first loop of `reboot_system` only appends to the trace: it calls every
entry once, in list order, and terminates nothing. -/
theorem notify_loop_appends (H : Hdr) (W : World) (l : List ntfy_task) :
    ∀ (i : Nat) (s : InitState), ∃ t,
      notify_loop H W i l s = addTrace s t ∧
      terminated t = [] ∧ notified t = l.map (fun n => n.notify_port) := by
  induction l with
  | nil => intro i s; exact ⟨[], by simp [notify_loop], rfl, rfl⟩
  | cons n rest ih =>
    intro i s
    unfold notify_loop
    simp only []
    split_ifs with h
    · obtain ⟨t, ht, h1, h2⟩ := ih (i + 1)
        (fflush (printf (emit (fflush (printf s "init: notifying %p\n" [.p n.notify_port]))
          (.startup_dosync n.notify_port (W.startup_dosync i n.notify_port)))
          "init: %p complained: %s\n"
          [.p n.notify_port, .strerror (W.startup_dosync i n.notify_port)]))
      rw [ht]
      refine ⟨_, by simp; rfl, ?_, ?_⟩
      · simpa [terminated] using h1
      · simpa [notified] using h2
    · obtain ⟨t, ht, h1, h2⟩ := ih (i + 1)
        (emit (fflush (printf s "init: notifying %p\n" [.p n.notify_port]))
          (.startup_dosync n.notify_port (W.startup_dosync i n.notify_port)))
      rw [ht]
      refine ⟨_, by simp; rfl, ?_, ?_⟩
      · simpa [terminated] using h1
      · simpa [notified] using h2

/-- When no lookup reports the process registry as dead, the loop over the
process ids runs to its end, changes nothing but the trace and terminates the
victims in enumeration order. -/
theorem kill_loop_victims (H : Hdr) (W : World) (flags : Int) (pids : List Int) :
    ∀ (ind : Nat) (s : InitState),
      (∀ j pid, pids.get? j = some pid →
        (W.proc_pid2task (ind + j) s.procserver pid).1 ≠ H.MACH_SEND_INVALID_DEST ∧
        ((W.proc_pid2task (ind + j) s.procserver pid).1 = 0 →
          (W.proc_pid2task (ind + j) s.procserver pid).2 ≠ W.mach_task_self →
          (W.proc_pid2task (ind + j) s.procserver pid).2 ≠ s.proctask →
          (W.proc_getprocinfo (ind + j) s.procserver pid).1 ≠ H.MACH_SEND_INVALID_DEST)) →
      ∃ t, kill_loop H W flags ind pids s = .ret () (addTrace s t) ∧
        terminated t = (pids.enumFrom ind).filterMap
          (fun p => victim H W s.procserver s.proctask p.1 p.2) := by
  induction pids with
  | nil => intro ind s _; exact ⟨[], by simp [kill_loop], rfl⟩
  | cons pid rest ih =>
    intro ind s hyp
    have h0 := hyp 0 pid rfl
    simp only [Nat.add_zero] at h0
    have hrest : ∀ (t0 : List Effect),
        ∀ j pid1, rest.get? j = some pid1 →
        (W.proc_pid2task (ind + 1 + j) (addTrace s t0).procserver pid1).1
          ≠ H.MACH_SEND_INVALID_DEST ∧
        ((W.proc_pid2task (ind + 1 + j) (addTrace s t0).procserver pid1).1 = 0 →
          (W.proc_pid2task (ind + 1 + j) (addTrace s t0).procserver pid1).2
            ≠ W.mach_task_self →
          (W.proc_pid2task (ind + 1 + j) (addTrace s t0).procserver pid1).2
            ≠ (addTrace s t0).proctask →
          (W.proc_getprocinfo (ind + 1 + j) (addTrace s t0).procserver pid1).1
            ≠ H.MACH_SEND_INVALID_DEST) := by
      intro t0 j pid1 hj
      have := hyp (j + 1) pid1 (by simpa using hj)
      have e : ind + 1 + j = ind + (j + 1) := by omega
      rw [e]; exact this
    have key : ∀ t0, ∃ t,
        kill_loop H W flags (ind + 1) rest (addTrace s t0) = .ret () (addTrace s t) ∧
        terminated t = terminated t0 ++ (rest.enumFrom (ind + 1)).filterMap
          (fun p => victim H W s.procserver s.proctask p.1 p.2) := by
      intro t0
      obtain ⟨t, ht, hv⟩ := ih (ind + 1) (addTrace s t0) (hrest t0)
      refine ⟨t0 ++ t, ?_, ?_⟩
      · rw [ht]; simp
      · rw [terminated_append, hv]; simp
    unfold kill_loop
    simp only [List.enumFrom_cons, List.filterMap_cons, emit_eq, printf_eq, fflush_eq,
      addTrace_addTrace, addTrace_procserver, addTrace_proctask]
    split_ifs with c1 c2 c3 c4 c5 c6
    · exact absurd c1 h0.1
    · have hn : victim H W s.procserver s.proctask ind pid = none := by
        simp [victim, c2]
      exact (key _).imp fun t ht => ⟨ht.1, by rw [ht.2, hn]; simp [terminated]⟩
    · exact absurd c4 (h0.2 (by simpa using c2) c3.1 c3.2)
    · have hn : victim H W s.procserver s.proctask ind pid = none := by
        simp [victim, c5]
      exact (key _).imp fun t ht => ⟨ht.1, by rw [ht.2, hn]; simp [terminated]⟩
    · have c2 : (W.proc_pid2task ind s.procserver pid).1 = 0 := by simpa using c2
      have c5 : (W.proc_getprocinfo ind s.procserver pid).1 = 0 := by simpa using c5
      have hn : victim H W s.procserver s.proctask ind pid
          = some (W.proc_pid2task ind s.procserver pid).2 := by
        simp [victim, c2, c3.1, c3.2, c5, c6]
      exact (key _).imp fun t ht => ⟨ht.1, by rw [ht.2, hn]; simp [terminated]⟩
    · have hn : victim H W s.procserver s.proctask ind pid = none := by
        simp [victim, c6]
      exact (key _).imp fun t ht => ⟨ht.1, by rw [ht.2, hn]; simp [terminated]⟩
    · have hn : victim H W s.procserver s.proctask ind pid = none := by
        simp only [victim]
        rw [if_neg]
        intro hh
        exact c3 ⟨hh.2.1, hh.2.2.1⟩
      exact (key _).imp fun t ht => ⟨ht.1, by rw [ht.2, hn]; simp [terminated]⟩

/-- Every run of `reboot_system` ends in `exit (1)`, whatever the world
answers. -/
theorem reboot_system_exits (H : Hdr) (W : World) (flags : Int) (s : InitState) :
    ∃ s1, reboot_system H W flags s = .exited 1 s1 := by
  unfold reboot_system
  simp only []
  generalize notify_loop H W 0 s.ntfy_tasks s = s0
  split_ifs with h
  · exact ⟨_, rfl⟩
  · simp only [Res.bind_ret]
    rcases kill_loop_ends H W flags (W.proc_getallpids s0.procserver).2 0
      (emit s0 (.proc_getallpids s0.procserver
          (W.proc_getallpids s0.procserver).1 (W.proc_getallpids s0.procserver).2)) with
      ⟨s1, h1⟩ | ⟨s1, h1⟩
    · rw [h1]; exact ⟨_, rfl⟩
    · rw [h1]; exact ⟨_, rfl⟩

/-! ## The essential-task loop and the notification list -/

/-- When no essential task has the dead name, the first loop of
`do_mach_notify_dead_name` does nothing. -/
theorem ess_loop_no_match (H : Hdr) (W : World) (name : Nat) (l : List ess_task)
    (s : InitState) (h : ∀ et ∈ l, et.task_port ≠ name) :
    ess_loop H W name l s = .ret () s := by
  induction l with
  | nil => rfl
  | cons et rest ih =>
    unfold ess_loop
    have h1 : et.task_port ≠ name := h et (List.mem_cons_self _ _)
    rw [if_neg h1]
    exact ih (fun x hx => h x (List.mem_cons_of_mem _ hx))

/-- When an essential task has the dead name, the first loop of
`do_mach_notify_dead_name` runs the crash sequence for the first such entry and
the process exits. -/
theorem ess_loop_match (H : Hdr) (W : World) (name : Nat) (l : List ess_task)
    (s : InitState) (h : ∃ et ∈ l, et.task_port = name) :
    ∃ et ∈ l, et.task_port = name ∧ ∃ s1 : InitState,
      reboot_system H W (CRASH_FLAGS H)
        (fflush (printf s "Init crashing system; essential task %s died\n" [.s et.name]))
        = .exited 1 s1 ∧
      ess_loop H W name l s = .exited 1 s1 := by
  induction l with
  | nil => obtain ⟨et, hm, _⟩ := h; cases hm
  | cons et rest ih =>
    unfold ess_loop
    by_cases h1 : et.task_port = name
    · obtain ⟨s1, hs1⟩ := reboot_system_exits H W (CRASH_FLAGS H)
        (fflush (printf s "Init crashing system; essential task %s died\n" [.s et.name]))
      refine ⟨et, List.mem_cons_self _ _, h1, s1, hs1, ?_⟩
      rw [if_pos h1]
      simp only [crash_system]
      rw [hs1]
      rfl
    · rw [if_neg h1]
      obtain ⟨x, hx, hxn⟩ := h
      have hx1 : x ∈ rest := by
        rcases List.mem_cons.mp hx with e | e
        · exact absurd (e ▸ hxn) h1
        · exact e
      obtain ⟨y, hy, hyn, s1, hs1, hl⟩ := ih ⟨x, hx1, hxn⟩
      exact ⟨y, List.mem_cons_of_mem _ hy, hyn, s1, hs1, hl⟩

/-- When no entry of the notification list has the name, nothing is unlinked. -/
theorem ntfy_unlink_none (name : Nat) (l : List ntfy_task)
    (h : ∀ nt ∈ l, nt.notify_port ≠ name) : ntfy_unlink name l = none := by
  induction l with
  | nil => rfl
  | cons nt rest ih =>
    unfold ntfy_unlink
    rw [if_neg (h nt (List.mem_cons_self _ _))]
    rw [ih (fun x hx => h x (List.mem_cons_of_mem _ hx))]
    rfl

/-- The second loop of `do_mach_notify_dead_name` unlinks the first entry with
the name and keeps the others in their order. -/
theorem ntfy_unlink_first (name : Nat) (l : List ntfy_task)
    (h : ∃ nt ∈ l, nt.notify_port = name) :
    ∃ pre nt post, l = pre ++ nt :: post ∧ nt.notify_port = name ∧
      (∀ x ∈ pre, x.notify_port ≠ name) ∧ ntfy_unlink name l = some (pre ++ post) := by
  induction l with
  | nil => obtain ⟨nt, hm, _⟩ := h; cases hm
  | cons a rest ih =>
    unfold ntfy_unlink
    by_cases h1 : a.notify_port = name
    · refine ⟨[], a, rest, rfl, h1, ?_, ?_⟩
      · intro x hx; cases hx
      · rw [if_pos h1]; rfl
    · obtain ⟨x, hx, hxn⟩ := h
      have hx1 : x ∈ rest := by
        rcases List.mem_cons.mp hx with e | e
        · exact absurd (e ▸ hxn) h1
        · exact e
      obtain ⟨pre, nt, post, hl, hn, hpre, hu⟩ := ih ⟨x, hx1, hxn⟩
      refine ⟨a :: pre, nt, post, by rw [hl]; rfl, hn, ?_, ?_⟩
      · intro y hy
        rcases List.mem_cons.mp hy with e | e
        · rw [e]; exact h1
        · exact hpre y e
      · rw [if_neg h1, hu]; rfl

/-! ## Claims -/

/-- C3: with a credential different from `host_priv`, `S_startup_essential_task`
returns EPERM and leaves the whole state as it was: no new entry in the list
of essential tasks, no notification requested, no other effect. -/
theorem essential_task_rejects_credential (H : Hdr) (W : World) (s : InitState)
    (server task excpt : Nat) (name : List Char) (credential : Nat)
    (h : credential ≠ s.host_priv) :
    S_startup_essential_task H W s server task excpt name credential = .ret H.EPERM s := by
  unfold S_startup_essential_task
  rw [if_pos h]

/-- Worked example for C3: credential 9 against `host_priv` 2. -/
theorem essential_task_rejects_credential_witness :
    (9 : Nat) ≠ bootState.host_priv ∧
    S_startup_essential_task gnuHdr calmWorld bootState 4 30 0 "fsck".toList 9
      = .ret gnuHdr.EPERM bootState :=
  ⟨by decide, essential_task_rejects_credential gnuHdr calmWorld bootState 4 30 0
    "fsck".toList 9 (by decide)⟩

/-- C4: when the dead name is the task port of an entry of the list of
essential tasks, `do_mach_notify_dead_name` runs `reboot_system` with
`CRASH_FLAGS` (after the message naming the first such entry) and ends in
process exit instead of returning, for every world and whatever the
notification list holds. -/
theorem dead_name_of_essential_task_crashes (H : Hdr) (W : World) (s : InitState)
    (notify name : Nat) (h : ∃ et ∈ s.ess_tasks, et.task_port = name) :
    ∃ et ∈ s.ess_tasks, et.task_port = name ∧ ∃ s1 : InitState,
      reboot_system H W (CRASH_FLAGS H)
        (fflush (printf s "Init crashing system; essential task %s died\n" [.s et.name]))
        = .exited 1 s1 ∧
      do_mach_notify_dead_name H W s notify name = .exited 1 s1 := by
  obtain ⟨et, het, hn, s1, hs1, hl⟩ := ess_loop_match H W name s.ess_tasks s h
  refine ⟨et, het, hn, s1, hs1, ?_⟩
  unfold do_mach_notify_dead_name
  rw [hl]
  rfl

/-- Worked example for C4: the essential task 30 of `busyState` dies. -/
theorem dead_name_of_essential_task_crashes_witness :
    (∃ et ∈ busyState.ess_tasks, et.task_port = 30) ∧
    ∃ et ∈ busyState.ess_tasks, et.task_port = 30 ∧ ∃ s1 : InitState,
      reboot_system gnuHdr calmWorld (CRASH_FLAGS gnuHdr)
        (fflush (printf busyState "Init crashing system; essential task %s died\n"
          [.s et.name])) = .exited 1 s1 ∧
      do_mach_notify_dead_name gnuHdr calmWorld busyState 4 30 = .exited 1 s1 :=
  ⟨⟨⟨30, "fsck".toList⟩, List.mem_cons_self _ _, rfl⟩,
    dead_name_of_essential_task_crashes gnuHdr calmWorld busyState 4 30
      ⟨⟨30, "fsck".toList⟩, List.mem_cons_self _ _, rfl⟩⟩

/-- C5: when the dead name is the task port of no essential task and the
notify port of at least one entry of the notification list,
`do_mach_notify_dead_name` returns 0, unlinks the first such entry and keeps
the others in order, releases the name once and changes nothing else (the
list of essential tasks stays, the crash sequence does not run); when the name
is in neither list the state stays as it was. -/
theorem dead_name_of_notified_task_unlinks (H : Hdr) (W : World) (s : InitState)
    (notify name : Nat) (hess : ∀ et ∈ s.ess_tasks, et.task_port ≠ name) :
    ((∃ nt ∈ s.ntfy_tasks, nt.notify_port = name) →
      ∃ pre nt post, s.ntfy_tasks = pre ++ nt :: post ∧ nt.notify_port = name ∧
        (∀ x ∈ pre, x.notify_port ≠ name) ∧
        do_mach_notify_dead_name H W s notify name
          = .ret 0 { addTrace s [.mach_port_deallocate name] with ntfy_tasks := pre ++ post }) ∧
    ((∀ nt ∈ s.ntfy_tasks, nt.notify_port ≠ name) →
      do_mach_notify_dead_name H W s notify name = .ret 0 s) := by
  constructor
  · intro h
    obtain ⟨pre, nt, post, hl, hn, hpre, hu⟩ := ntfy_unlink_first name s.ntfy_tasks h
    refine ⟨pre, nt, post, hl, hn, hpre, ?_⟩
    unfold do_mach_notify_dead_name
    rw [ess_loop_no_match H W name s.ess_tasks s hess]
    simp only [Res.bind_ret, hu]
    rfl
  · intro h
    unfold do_mach_notify_dead_name
    rw [ess_loop_no_match H W name s.ess_tasks s hess]
    simp only [Res.bind_ret, ntfy_unlink_none name s.ntfy_tasks h]

/-- Worked example for C5: port 41, the second notified task of `busyState`, dies. -/
theorem dead_name_of_notified_task_unlinks_witness :
    (∀ et ∈ busyState.ess_tasks, et.task_port ≠ 41) ∧
    (∃ nt ∈ busyState.ntfy_tasks, nt.notify_port = 41) ∧
    ∃ pre nt post, busyState.ntfy_tasks = pre ++ nt :: post ∧ nt.notify_port = 41 ∧
      (∀ x ∈ pre, x.notify_port ≠ 41) ∧
      do_mach_notify_dead_name gnuHdr calmWorld busyState 4 41
        = .ret 0 { addTrace busyState [.mach_port_deallocate 41] with
            ntfy_tasks := pre ++ post } :=
  ⟨by decide, ⟨⟨41⟩, by decide, rfl⟩,
    (dead_name_of_notified_task_unlinks gnuHdr calmWorld busyState 4 41 (by decide)).1
      ⟨⟨41⟩, by decide, rfl⟩⟩

/-- C6: `S_startup_reboot` returns exactly when the credential differs from
`host_priv`; it then returns EPERM and leaves the whole state as it was (no
notification sent, no task terminated).  With the matching credential it runs
`reboot_system` with the caller's flags and the process exits. -/
theorem startup_reboot_checks_credential (H : Hdr) (W : World) (s : InitState)
    (server refpt : Nat) (code : Int) :
    (refpt ≠ s.host_priv → S_startup_reboot H W s server refpt code = .ret H.EPERM s) ∧
    (refpt = s.host_priv → ∃ s1 : InitState, reboot_system H W code s = .exited 1 s1 ∧
      S_startup_reboot H W s server refpt code = .exited 1 s1) ∧
    ((∃ r s1, S_startup_reboot H W s server refpt code = .ret r s1) ↔ refpt ≠ s.host_priv) := by
  have hbad : refpt ≠ s.host_priv → S_startup_reboot H W s server refpt code = .ret H.EPERM s := by
    intro h
    unfold S_startup_reboot
    rw [if_pos h]
  have hgood : refpt = s.host_priv → ∃ s1 : InitState, reboot_system H W code s = .exited 1 s1 ∧
      S_startup_reboot H W s server refpt code = .exited 1 s1 := by
    intro h
    obtain ⟨s1, hs1⟩ := reboot_system_exits H W code s
    refine ⟨s1, hs1, ?_⟩
    unfold S_startup_reboot
    rw [if_neg (not_not.mpr h), hs1]
    rfl
  refine ⟨hbad, hgood, ?_, ?_⟩
  · rintro ⟨r, s1, hr⟩ heq
    obtain ⟨s2, _, h2⟩ := hgood heq
    rw [h2] at hr
    cases hr
  · intro h
    exact ⟨_, _, hbad h⟩

/-- Worked example for C6: credential 9 is refused, credential 2 reboots with code 8. -/
theorem startup_reboot_checks_credential_witness :
    ((9 : Nat) ≠ busyState.host_priv ∧
      S_startup_reboot gnuHdr calmWorld busyState 4 9 0 = .ret gnuHdr.EPERM busyState) ∧
    ((2 : Nat) = busyState.host_priv ∧ ∃ s1 : InitState,
      reboot_system gnuHdr calmWorld 8 busyState = .exited 1 s1 ∧
      S_startup_reboot gnuHdr calmWorld busyState 4 2 8 = .exited 1 s1) :=
  ⟨⟨by decide, (startup_reboot_checks_credential gnuHdr calmWorld busyState 4 9 0).1 (by decide)⟩,
    ⟨by decide, (startup_reboot_checks_credential gnuHdr calmWorld busyState 4 2 8).2.1
      (by decide)⟩⟩

/-- C8: in `reboot_system`, when neither the enumeration nor a lookup for an
enumerated process reports the process registry as dead, nothing but the trace
changes, the tasks terminated are the victims in enumeration order (lookups
succeeded, task neither this server nor the process registry, status without
the no-parent mark) followed by the task of the process registry, which is
not among the victims, and the process exits. -/
theorem reboot_system_kills_victims_then_proc (H : Hdr) (W : World) (flags : Int)
    (s : InitState)
    (hall : (W.proc_getallpids s.procserver).1 ≠ H.MACH_SEND_INVALID_DEST)
    (hlook : ∀ ind pid, (W.proc_getallpids s.procserver).2.get? ind = some pid →
      (W.proc_pid2task ind s.procserver pid).1 ≠ H.MACH_SEND_INVALID_DEST ∧
      ((W.proc_pid2task ind s.procserver pid).1 = 0 →
        (W.proc_pid2task ind s.procserver pid).2 ≠ W.mach_task_self →
        (W.proc_pid2task ind s.procserver pid).2 ≠ s.proctask →
        (W.proc_getprocinfo ind s.procserver pid).1 ≠ H.MACH_SEND_INVALID_DEST)) :
    ∃ t, reboot_system H W flags s = .exited 1 (addTrace s t) ∧
      terminated t = (W.proc_getallpids s.procserver).2.enum.filterMap
        (fun p => victim H W s.procserver s.proctask p.1 p.2) ++ [s.proctask] ∧
      s.proctask ∉ (W.proc_getallpids s.procserver).2.enum.filterMap
        (fun p => victim H W s.procserver s.proctask p.1 p.2) ∧
      W.mach_task_self ∉ (W.proc_getallpids s.procserver).2.enum.filterMap
        (fun p => victim H W s.procserver s.proctask p.1 p.2) := by
  obtain ⟨t1, ht1, hk1, _⟩ := notify_loop_appends H W s.ntfy_tasks 0 s
  obtain ⟨t2, ht2, hk2⟩ := kill_loop_victims H W flags (W.proc_getallpids s.procserver).2 0
    (addTrace s (t1 ++ [.proc_getallpids s.procserver (W.proc_getallpids s.procserver).1
      (W.proc_getallpids s.procserver).2]))
    (by intro j pid hj; simpa using hlook j pid hj)
  refine ⟨t1 ++ [.proc_getallpids s.procserver (W.proc_getallpids s.procserver).1
      (W.proc_getallpids s.procserver).2] ++ t2 ++ [.printf "Killing proc server\n" [],
      .fflush, .task_terminate s.proctask, .printf "Init exiting\n" [], .fflush], ?_, ?_, ?_, ?_⟩
  · unfold reboot_system
    simp only [ht1, emit_eq, printf_eq, fflush_eq, addTrace_addTrace, addTrace_procserver,
      addTrace_proctask, if_neg hall, Res.bind_ret, ht2, exit]
    simp
  · simp only [terminated_append, hk1, hk2, addTrace_procserver, addTrace_proctask]
    simp [terminated, List.enum]
  · intro hm
    obtain ⟨p, _, hp⟩ := List.mem_filterMap.mp hm
    unfold victim at hp
    split_ifs at hp with c
    exact c.2.2.1 (Option.some.inj hp)
  · intro hm
    obtain ⟨p, _, hp⟩ := List.mem_filterMap.mp hm
    unfold victim at hp
    split_ifs at hp with c
    exact c.2.1 (Option.some.inj hp)

/-! ## What the launch sequence leaves alone -/

theorem sameCore_refl (s : InitState) : sameCore s s := by
  cases s; simp [sameCore]

theorem sameCore_trans {a b c : InitState} (h1 : sameCore a b) (h2 : sameCore b c) :
    sameCore a c := by
  cases a; cases b; cases c
  simp only [sameCore, InitState.mk.injEq] at *
  simp_all

theorem After.refl (s : InitState) : After s [] s :=
  ⟨sameCore_refl s, [], by simp, by simp⟩

theorem After.trans {s s1 s2 : InitState} {p : List Effect} (h1 : After s p s1)
    (h2 : After s1 [] s2) : After s p s2 := by
  obtain ⟨c1, t1, e1, n1⟩ := h1
  obtain ⟨c2, t2, e2, n2⟩ := h2
  refine ⟨sameCore_trans c1 c2, t1 ++ t2, ?_, ?_⟩
  · rw [e2, e1]; simp
  · intro e he
    rcases List.mem_append.mp he with h | h
    · exact n1 e h
    · exact n2 e h

theorem After.emit {s s1 : InitState} {p : List Effect} (h : After s p s1) (e : Effect)
    (he : isReply e = false) : After s p (emit s1 e) := by
  refine After.trans h ⟨?_, [e], by simp, ?_⟩
  · cases s1; simp [sameCore, addTrace]
  · intro x hx
    rw [List.mem_singleton.mp hx]; exact he

theorem After.printf {s s1 : InitState} {p : List Effect} (h : After s p s1) (fmt : String)
    (args : List Arg) : After s p (printf s1 fmt args) :=
  After.emit h _ rfl

theorem After.fflush {s s1 : InitState} {p : List Effect} (h : After s p s1) :
    After s p (fflush s1) :=
  After.emit h _ rfl

theorem After.stdin {s s1 : InitState} {p : List Effect} (h : After s p s1) (inp : List Char) :
    After s p { s1 with stdin := inp } := by
  refine After.trans h ⟨?_, [], by simp, by simp⟩
  cases s1; simp [sameCore]

theorem After.errno {s s1 : InitState} {p : List Effect} (h : After s p s1) (e : Int) :
    After s p { s1 with errno := e } := by
  refine After.trans h ⟨?_, [], by simp, by simp⟩
  cases s1; simp [sameCore]

theorem After.default_ports {s s1 : InitState} {p : List Effect} (h : After s p s1)
    (l : List Nat) : After s p { s1 with default_ports := l } := by
  refine After.trans h ⟨?_, [], by simp, by simp⟩
  cases s1; simp [sameCore]

theorem After.getchar {s s1 : InitState} {p : List Effect} (h : After s p s1) :
    After s p (getchar s1) :=
  After.stdin h _

theorem After.ite {s : InitState} {p : List Effect} {c : Prop} [Decidable c] {a b : InitState}
    (ha : After s p a) (hb : After s p b) : After s p (if c then a else b) := by
  split_ifs <;> assumption

/-- The lookup loop of `run_for_real` sends no reply and keeps the globals. -/
theorem run_for_real_loop_frame (W : World) (filename : List Char) :
    ∀ (fuel : Nat) (aliased : Bool) (buf : List Char) (s : InitState),
      After s [] (run_for_real_loop W filename fuel aliased buf s).state := by
  intro fuel
  induction fuel with
  | zero => intro a b s; exact After.refl s
  | succ n ih =>
    intro a b s
    unfold run_for_real_loop
    simp only []
    rw [apply_ite Res.state]
    refine After.ite ?_ ?_
    · refine After.trans ?_ (ih _ _ _)
      repeat first
        | exact After.refl _
        | refine After.emit ?_ _ rfl
        | refine After.stdin ?_ _
    · simp only [Res.state]
      repeat first
        | exact After.refl _
        | refine After.emit ?_ _ rfl
        | refine After.stdin ?_ _

/-- The launcher `run_for_real` sends no reply and keeps the globals. -/
theorem run_for_real_frame (H : Hdr) (W : World) (fuel : Nat) (filename args : List Char)
    (arglen : Nat) (s : InitState) :
    After s [] (run_for_real H W fuel filename args arglen s).state := by
  have hl := run_for_real_loop_frame W (cstr filename) fuel false [] s
  unfold run_for_real
  cases hr : run_for_real_loop W (cstr filename) fuel false [] s with
  | ret nf s1 =>
    rw [hr] at hl
    simp only [Res.bind_ret, Res.state]
    refine After.trans hl ?_
    refine After.emit ?_ _ rfl
    refine After.emit ?_ _ rfl
    refine After.emit ?_ _ rfl
    refine After.emit ?_ _ rfl
    refine After.getchar ?_
    refine After.printf ?_ _ _
    refine After.default_ports ?_ _
    refine After.emit ?_ _ rfl
    refine After.emit ?_ _ rfl
    refine After.emit ?_ _ rfl
    exact After.refl _
  | exited c s1 => rw [hr] at hl; exact hl
  | hang s1 => rw [hr] at hl; exact hl
  | fault s1 => rw [hr] at hl; exact hl
  | timeout s1 => rw [hr] at hl; exact hl

theorem After.bind {α β : Type} {s : InitState} {p : List Effect} {r : Res α}
    {k : α → InitState → Res β} (h : After s p r.state)
    (hk : ∀ a s1, After s1 [] (k a s1).state) : After s p (r.bind k).state := by
  cases r with
  | ret a s1 => exact After.trans h (hk a s1)
  | exited c s1 => exact h
  | hang s1 => exact h
  | fault s1 => exact h
  | timeout s1 => exact h

/-- The state in which `launch_system` ends, whether it returns or runs out of
fuel: the globals are kept, the trace has grown by the five effects of
`launch_head` followed by effects that are no replies. -/
theorem launch_system_frame (H : Hdr) (W : World) (fuel : Nat) (s : InitState) :
    After s (launch_head W s) (launch_system H W fuel s).state := by
  have h5 : After s (launch_head W s) (addTrace s (launch_head W s)) :=
    ⟨by cases s; simp [sameCore, addTrace], [], by simp, by simp⟩
  unfold launch_system
  lift_lets
  intro s1 s2 s3 authproc s4 s5 s6 s7 s8 s9 s10 fsproc s11
  refine After.bind ?_ ?_
  · refine After.trans ?_ (run_for_real_frame _ _ _ _ _ _ _)
    have e5 : s5 = addTrace s (launch_head W s) := by
      simp [s5, s4, authproc, s3, s2, s1, launch_head, clock]
    rw [← e5] at h5
    refine After.emit ?_ _ rfl
    refine After.emit ?_ _ rfl
    refine After.default_ports ?_ _
    refine After.emit ?_ _ rfl
    refine After.emit ?_ _ rfl
    refine After.emit ?_ _ rfl
    exact h5
  · intro _ s1
    refine After.bind (run_for_real_frame _ _ _ _ _ _ _) ?_
    intro _ s2
    lift_lets
    intro a1 a2 old a3 a4 e a5 a6 a7
    simp only [Res.state]
    refine After.ite ?_ ?_
    · refine After.emit ?_ _ rfl
      refine After.errno ?_ _
      refine After.emit ?_ _ rfl
      refine After.ite ?_ ?_
      · refine After.emit ?_ _ rfl
        refine After.emit ?_ _ rfl
        refine After.emit ?_ _ rfl
        refine After.emit ?_ _ rfl
        exact After.refl _
      · refine After.emit ?_ _ rfl
        refine After.emit ?_ _ rfl
        refine After.emit ?_ _ rfl
        exact After.refl _
    · refine After.errno ?_ _
      refine After.emit ?_ _ rfl
      refine After.ite ?_ ?_
      · refine After.emit ?_ _ rfl
        refine After.emit ?_ _ rfl
        refine After.emit ?_ _ rfl
        refine After.emit ?_ _ rfl
        exact After.refl _
      · refine After.emit ?_ _ rfl
        refine After.emit ?_ _ rfl
        refine After.emit ?_ _ rfl
        exact After.refl _

/-- What `After` says field by field. -/
theorem After.fields {s s1 : InitState} {p : List Effect} (h : After s p s1) :
    s1.ess_tasks = s.ess_tasks ∧ s1.ntfy_tasks = s.ntfy_tasks ∧
    (s1.procserver = s.procserver ∧ s1.procreply = s.procreply ∧
      s1.procreplytype = s.procreplytype) ∧
    (s1.authserver = s.authserver ∧ s1.authreply = s.authreply ∧
      s1.authreplytype = s.authreplytype) ∧
    s1.host_priv = s.host_priv ∧ s1.startup = s.startup ∧
    ∃ t, s1.trace = s.trace ++ t := by
  obtain ⟨c, t, e, _⟩ := h
  have c : { s1 with default_ports := s.default_ports, errno := s.errno, stdin := s.stdin,
                     trace := s.trace } = s := c
  have f1 := congrArg InitState.ess_tasks c
  have f2 := congrArg InitState.ntfy_tasks c
  have f3 := congrArg InitState.procserver c
  have f4 := congrArg InitState.procreply c
  have f5 := congrArg InitState.procreplytype c
  have f6 := congrArg InitState.authserver c
  have f7 := congrArg InitState.authreply c
  have f8 := congrArg InitState.authreplytype c
  have f9 := congrArg InitState.host_priv c
  have f10 := congrArg InitState.startup c
  refine ⟨f1, f2, ⟨f3, f4, f5⟩, ⟨f6, f7, f8⟩, f9, f10, p ++ t, ?_⟩
  rw [e]; simp

/-- A sequence that ends with a `return` and returns has run its first part to
the end. -/
theorem Res.bind_ret_eq {α : Type} {r : Res α} {c d : Int} {s1 : InitState}
    (h : (r.bind fun _ s => Res.ret c s) = Res.ret d s1) : r.state = s1 ∧ c = d := by
  cases r with
  | ret a s => simp only [Res.bind_ret, Res.ret.injEq] at h; exact ⟨h.2, h.1⟩
  | exited c s => cases h
  | hang s => cases h
  | fault s => cases h
  | timeout s => cases h

/-- The state after a sequence that ends with a `return` is the state after
its first part. -/
theorem Res.state_bind_ret {α : Type} (r : Res α) (c : Int) :
    (r.bind fun _ s => Res.ret c s).state = r.state := by
  cases r <;> rfl

/-- The essential-task loop returns only when it has done nothing. -/
theorem ess_loop_ret (H : Hdr) (W : World) (name : Nat) (l : List ess_task) (s s1 : InitState)
    (h : ess_loop H W name l s = .ret () s1) : s1 = s := by
  by_cases hm : ∃ et ∈ l, et.task_port = name
  · obtain ⟨_, _, _, s2, _, h2⟩ := ess_loop_match H W name l s hm
    rw [h2] at h; cases h
  · have hn : ∀ et ∈ l, et.task_port ≠ name := fun et he hp => hm ⟨et, he, hp⟩
    rw [ess_loop_no_match H W name l s hn] at h
    cases h; rfl

/-- With a credential different from `host_priv` the essential-task handler
returns EPERM at once. -/
theorem essential_task_eperm {H : Hdr} {W : World} (s : InitState)
    {server task excpt : Nat} {name : List Char} {credential : Nat}
    (h : credential ≠ s.host_priv) :
    S_startup_essential_task H W s server task excpt name credential = .ret H.EPERM s := by
  unfold S_startup_essential_task
  rw [if_pos h]

/-- The essential-task handler when the credential matches and both
allocations succeed: the new entry is put in front of the list, the dead-name
notification is requested on the task, a previous notification port and the
credential are released. -/
theorem essential_task_success (H : Hdr) (W : World) (s : InitState)
    (server task excpt : Nat) (name : List Char) (credential : Nat)
    (hc : credential = s.host_priv) (hm : W.malloc_ok (clock s) = true)
    (hs : W.strdup_ok (clock s) = true) :
    S_startup_essential_task H W s server task excpt name credential =
      .ret 0 { addTrace s
          ([.mach_port_request_notification task s.startup
              (W.mach_port_request_notification (clock s) task)] ++
            (if W.mach_port_request_notification (clock s) task ≠ 0 then
              [.mach_port_deallocate (W.mach_port_request_notification (clock s) task)]
             else []) ++
            [.mach_port_deallocate credential]) with
        ess_tasks := { task_port := task, name := name } :: s.ess_tasks } := by
  unfold S_startup_essential_task
  rw [if_neg (not_not.mpr hc), if_neg (by simp [hm]), if_neg (by simp [hs])]
  simp only [clock]
  split_ifs with h
  · simp [addTrace]
  · simp [addTrace]

/-- A handler that leaves the state as it is. -/
theorem step_same (s : InitState) :
    (∃ t, s.trace = s.trace ++ t) ∧
    (s.procserver ≠ 0 → s.procserver = s.procserver ∧ s.procreply = s.procreply ∧
      s.procreplytype = s.procreplytype) ∧
    (s.authserver ≠ 0 → s.authserver = s.authserver ∧ s.authreply = s.authreply ∧
      s.authreplytype = s.authreplytype) ∧
    (∀ et ∈ s.ess_tasks, et ∈ s.ess_tasks ∨ watched s.trace et.task_port) :=
  ⟨⟨[], by simp⟩, fun _ => ⟨rfl, rfl, rfl⟩, fun _ => ⟨rfl, rfl, rfl⟩, fun _ he => Or.inl he⟩

/-- One message handled by the server, when the handler returns: the trace
grows, a filled slot of a foundational server keeps its endpoint and reply
token, and every new essential task has a dead-name request in the trace. -/
theorem demuxer_step (H : Hdr) (W : World) (fuel : Nat) (m : Msg) (s : InitState) (r : Int)
    (s1 : InitState) (h : demuxer H W fuel m s = .ret r s1) :
    (∃ t, s1.trace = s.trace ++ t) ∧
    (s.procserver ≠ 0 → s1.procserver = s.procserver ∧ s1.procreply = s.procreply ∧
      s1.procreplytype = s.procreplytype) ∧
    (s.authserver ≠ 0 → s1.authserver = s.authserver ∧ s1.authreply = s.authreply ∧
      s1.authreplytype = s.authreplytype) ∧
    (∀ et ∈ s1.ess_tasks, et ∈ s.ess_tasks ∨ watched s1.trace et.task_port) := by
  cases m with
  | startup_procinit server reply ty proc =>
    simp only [demuxer, S_startup_procinit] at h
    split_ifs at h with h1 h2
    · cases h; exact step_same _
    · obtain ⟨hs, _⟩ := Res.bind_ret_eq h
      subst hs
      obtain ⟨he, _, _, ha, _, _, t, ht⟩ := After.fields (launch_system_frame H W fuel
        { s with procserver := proc, procreply := reply, procreplytype := ty })
      exact ⟨⟨_, ht⟩, fun hp => absurd (not_not.mp h1) hp, fun _ => ha,
        fun et hm => Or.inl (he ▸ hm)⟩
    · simp only [Res.bind_ret, Res.ret.injEq] at h
      obtain ⟨_, hs⟩ := h
      subst hs
      exact ⟨⟨[], by simp⟩, fun hp => absurd (not_not.mp h1) hp, fun _ => ⟨rfl, rfl, rfl⟩,
        fun et hm => Or.inl hm⟩
  | startup_authinit server reply ty auth =>
    simp only [demuxer, S_startup_authinit] at h
    split_ifs at h with h1 h2
    · cases h; exact step_same _
    · obtain ⟨hs, _⟩ := Res.bind_ret_eq h
      subst hs
      obtain ⟨he, _, hp, _, _, _, t, ht⟩ := After.fields (launch_system_frame H W fuel
        { s with authserver := auth, authreply := reply, authreplytype := ty })
      exact ⟨⟨_, ht⟩, fun _ => hp, fun ha => absurd (not_not.mp h1) ha,
        fun et hm => Or.inl (he ▸ hm)⟩
    · simp only [Res.bind_ret, Res.ret.injEq] at h
      obtain ⟨_, hs⟩ := h
      subst hs
      exact ⟨⟨[], by simp⟩, fun _ => ⟨rfl, rfl, rfl⟩, fun ha => absurd (not_not.mp h1) ha,
        fun et hm => Or.inl hm⟩
  | startup_essential_task server task excpt name cred =>
    simp only [demuxer] at h
    by_cases hc : cred = s.host_priv
    · by_cases hm : W.malloc_ok (clock s) = true ∧ W.strdup_ok (clock s) = true
      · rw [essential_task_success H W s server task excpt name cred hc hm.1 hm.2] at h
        simp only [Res.ret.injEq] at h
        obtain ⟨_, hs⟩ := h
        subst hs
        refine ⟨⟨_, rfl⟩, fun _ => ⟨rfl, rfl, rfl⟩, fun _ => ⟨rfl, rfl, rfl⟩, ?_⟩
        intro et hm
        rcases List.mem_cons.mp hm with e | e
        · right; subst e
          refine ⟨s.startup, W.mach_port_request_notification (clock s) task, ?_⟩
          simp [addTrace]
        · exact Or.inl e
      · have : S_startup_essential_task H W s server task excpt name cred = .ret H.ENOMEM s := by
          unfold S_startup_essential_task
          rw [if_neg (not_not.mpr hc)]
          by_cases h2 : W.malloc_ok (clock s) = false
          · rw [if_pos h2]
          · rw [if_neg h2]
            have h3 : W.strdup_ok (clock s) = false := by
              by_contra h3
              exact hm ⟨by simpa using h2, by simpa using h3⟩
            rw [if_pos h3]
        rw [this] at h
        cases h; exact step_same _
    · rw [essential_task_eperm s hc] at h
      cases h; exact step_same _
  | startup_request_notification server notify =>
    simp only [demuxer, S_startup_request_notification] at h
    split_ifs at h with h1 h2
    all_goals
      simp only [Res.ret.injEq] at h
      obtain ⟨_, hs⟩ := h
      subst hs
      exact ⟨⟨_, by simp [addTrace]; rfl⟩, fun _ => ⟨rfl, rfl, rfl⟩, fun _ => ⟨rfl, rfl, rfl⟩,
        fun et hm => Or.inl hm⟩
  | startup_reboot server refpt code =>
    have h6 := reboot_system_exits H W code s
    simp only [demuxer, S_startup_reboot] at h
    split_ifs at h with h1
    · cases h; exact step_same _
    · obtain ⟨s2, h2⟩ := h6
      rw [h2] at h; cases h
  | mach_notify_dead_name notify name =>
    simp only [demuxer, do_mach_notify_dead_name] at h
    cases hl : ess_loop H W name s.ess_tasks s with
    | ret u s2 =>
      have e2 := ess_loop_ret H W name s.ess_tasks s s2 hl
      subst e2
      rw [hl] at h
      simp only [Res.bind_ret] at h
      split at h
      · simp only [Res.ret.injEq] at h
        obtain ⟨_, hs⟩ := h
        subst hs
        exact ⟨⟨_, by simp [addTrace]; rfl⟩, fun _ => ⟨rfl, rfl, rfl⟩,
          fun _ => ⟨rfl, rfl, rfl⟩, fun et hm => Or.inl hm⟩
      · cases h; exact step_same _
    | exited c s2 => rw [hl] at h; cases h
    | hang s2 => rw [hl] at h; cases h
    | fault s2 => rw [hl] at h; cases h
    | timeout s2 => rw [hl] at h; cases h
  | mach_notify_port_destroyed notify rights => cases h; exact step_same _
  | mach_notify_send_once notify => cases h; exact step_same _
  | mach_notify_no_senders port mscount => cases h; exact step_same _
  | mach_notify_port_deleted notify name => cases h; exact step_same _
  | mach_notify_msg_accepted notify name => cases h; exact step_same _

/-- A returning sequence of messages: the trace grows, filled slots keep their
endpoint and reply token, and essential tasks stay watched. -/
theorem serve_steps (H : Hdr) (W : World) (msgs : List (Nat × Msg)) :
    ∀ (s s1 : InitState), serve H W msgs s = some s1 →
    (∃ t, s1.trace = s.trace ++ t) ∧
    (s.procserver ≠ 0 → s1.procserver = s.procserver ∧ s1.procreply = s.procreply ∧
      s1.procreplytype = s.procreplytype) ∧
    (s.authserver ≠ 0 → s1.authserver = s.authserver ∧ s1.authreply = s.authreply ∧
      s1.authreplytype = s.authreplytype) ∧
    ((∀ et ∈ s.ess_tasks, watched s.trace et.task_port) →
      ∀ et ∈ s1.ess_tasks, watched s1.trace et.task_port) := by
  induction msgs with
  | nil =>
    intro s s1 h
    simp only [serve, Option.some.injEq] at h
    subst h
    exact ⟨⟨[], by simp⟩, fun _ => ⟨rfl, rfl, rfl⟩, fun _ => ⟨rfl, rfl, rfl⟩, fun h => h⟩
  | cons fm rest ih =>
    intro s s1 h
    obtain ⟨fuel, m⟩ := fm
    simp only [serve] at h
    cases hd : demuxer H W fuel m s with
    | ret r s2 =>
      rw [hd] at h
      simp only [] at h
      obtain ⟨⟨t1, ht1⟩, hp1, ha1, he1⟩ := demuxer_step H W fuel m s r s2 hd
      obtain ⟨⟨t2, ht2⟩, hp2, ha2, he2⟩ := ih s2 s1 h
      refine ⟨⟨t1 ++ t2, by rw [ht2, ht1]; simp⟩, ?_, ?_, ?_⟩
      · intro hp
        obtain ⟨a, b, c⟩ := hp1 hp
        obtain ⟨a2, b2, c2⟩ := hp2 (a ▸ hp)
        exact ⟨a2.trans a, b2.trans b, c2.trans c⟩
      · intro ha
        obtain ⟨a, b, c⟩ := ha1 ha
        obtain ⟨a2, b2, c2⟩ := ha2 (a ▸ ha)
        exact ⟨a2.trans a, b2.trans b, c2.trans c⟩
      · intro hinv
        apply he2
        intro et hm
        rcases he1 et hm with h0 | h0
        · obtain ⟨n, pv, hw⟩ := hinv et h0
          exact ⟨n, pv, by rw [ht1]; exact List.mem_append_left _ hw⟩
        · exact h0
    | exited c s2 => rw [hd] at h; cases h
    | hang s2 => rw [hd] at h; cases h
    | fault s2 => rw [hd] at h; cases h
    | timeout s2 => rw [hd] at h; cases h

/-- A first registration of the process registry that returns has filled the
slot with what it was given. -/
theorem procinit_stores (H : Hdr) (W : World) (fuel : Nat) (s : InitState)
    (server reply : Nat) (ty : Int) (proc : Nat) (r : Int) (s1 : InitState)
    (h0 : s.procserver = 0)
    (h : S_startup_procinit H W fuel s server reply ty proc = .ret r s1) :
    s1.procserver = proc ∧ s1.procreply = reply ∧ s1.procreplytype = ty := by
  simp only [S_startup_procinit] at h
  rw [if_neg (not_not.mpr h0)] at h
  obtain ⟨hs, _⟩ := Res.bind_ret_eq h
  subst hs
  split_ifs with h2
  · obtain ⟨_, _, hp, _⟩ := After.fields (launch_system_frame H W fuel
      { s with procserver := proc, procreply := reply, procreplytype := ty })
    exact hp
  · exact ⟨rfl, rfl, rfl⟩

/-- A first registration of the auth server that returns has filled the slot
with what it was given. -/
theorem authinit_stores (H : Hdr) (W : World) (fuel : Nat) (s : InitState)
    (server reply : Nat) (ty : Int) (auth : Nat) (r : Int) (s1 : InitState)
    (h0 : s.authserver = 0)
    (h : S_startup_authinit H W fuel s server reply ty auth = .ret r s1) :
    s1.authserver = auth ∧ s1.authreply = reply ∧ s1.authreplytype = ty := by
  simp only [S_startup_authinit] at h
  rw [if_neg (not_not.mpr h0)] at h
  obtain ⟨hs, _⟩ := Res.bind_ret_eq h
  subst hs
  split_ifs with h2
  · obtain ⟨_, _, _, ha, _⟩ := After.fields (launch_system_frame H W fuel
      { s with authserver := auth, authreply := reply, authreplytype := ty })
    exact ha
  · exact ⟨rfl, rfl, rfl⟩

/-- C1, amended: once a registration has put a non-null endpoint in the slot of
a foundational server, every later `S_startup_procinit` (resp.
`S_startup_authinit`), after any sequence of messages, returns EPERM and
leaves the whole state as it was, so that `launch_system` does not run, and
the slot still holds the endpoint and the reply token of the first
registration. -/
theorem later_registration_fails (H : Hdr) (W : World) :
    (∀ (fuel0 : Nat) (s0 : InitState) (server reply : Nat) (ty : Int) (proc : Nat) (r : Int)
        (s1 : InitState) (msgs : List (Nat × Msg)) (s2 : InitState)
        (fuel server2 reply2 : Nat) (ty2 : Int) (proc2 : Nat),
      s0.procserver = 0 → proc ≠ 0 →
      S_startup_procinit H W fuel0 s0 server reply ty proc = .ret r s1 →
      serve H W msgs s1 = some s2 →
      S_startup_procinit H W fuel s2 server2 reply2 ty2 proc2 = .ret H.EPERM s2 ∧
      s2.procserver = proc ∧ s2.procreply = reply ∧ s2.procreplytype = ty) ∧
    (∀ (fuel0 : Nat) (s0 : InitState) (server reply : Nat) (ty : Int) (auth : Nat) (r : Int)
        (s1 : InitState) (msgs : List (Nat × Msg)) (s2 : InitState)
        (fuel server2 reply2 : Nat) (ty2 : Int) (auth2 : Nat),
      s0.authserver = 0 → auth ≠ 0 →
      S_startup_authinit H W fuel0 s0 server reply ty auth = .ret r s1 →
      serve H W msgs s1 = some s2 →
      S_startup_authinit H W fuel s2 server2 reply2 ty2 auth2 = .ret H.EPERM s2 ∧
      s2.authserver = auth ∧ s2.authreply = reply ∧ s2.authreplytype = ty) := by
  constructor
  · intro fuel0 s0 server reply ty proc r s1 msgs s2 fuel server2 reply2 ty2 proc2 h0 hp h1 h2
    obtain ⟨a, b, c⟩ := procinit_stores H W fuel0 s0 server reply ty proc r s1 h0 h1
    obtain ⟨_, hk, _, _⟩ := serve_steps H W msgs s1 s2 h2
    obtain ⟨a2, b2, c2⟩ := hk (a ▸ hp)
    refine ⟨?_, a2.trans a, b2.trans b, c2.trans c⟩
    unfold S_startup_procinit
    rw [if_pos (by rw [a2, a]; exact hp)]
  · intro fuel0 s0 server reply ty auth r s1 msgs s2 fuel server2 reply2 ty2 auth2 h0 hp h1 h2
    obtain ⟨a, b, c⟩ := authinit_stores H W fuel0 s0 server reply ty auth r s1 h0 h1
    obtain ⟨_, _, hk, _⟩ := serve_steps H W msgs s1 s2 h2
    obtain ⟨a2, b2, c2⟩ := hk (a ▸ hp)
    refine ⟨?_, a2.trans a, b2.trans b, c2.trans c⟩
    unfold S_startup_authinit
    rw [if_pos (by rw [a2, a]; exact hp)]

/-- C10: with the credential `host_priv` and both allocations succeeding,
`S_startup_essential_task` returns 0, puts one new entry with the task and the
name in front of the list of essential tasks and requests a dead-name
notification on the task; hence in every state the message loop reaches from
a state where all essential tasks are watched (such as the empty list), every
entry of the list has a dead-name request on its task port in the trace. -/
theorem essential_task_entry_is_watched (H : Hdr) (W : World) :
    (∀ (s : InitState) (server task excpt : Nat) (name : List Char) (credential : Nat),
      credential = s.host_priv → W.malloc_ok (clock s) = true →
      W.strdup_ok (clock s) = true →
      ∃ t, S_startup_essential_task H W s server task excpt name credential =
          .ret 0 { addTrace s t with
            ess_tasks := { task_port := task, name := name } :: s.ess_tasks } ∧
        Effect.mach_port_request_notification task s.startup
          (W.mach_port_request_notification (clock s) task) ∈ t) ∧
    (∀ (msgs : List (Nat × Msg)) (s s1 : InitState),
      (∀ et ∈ s.ess_tasks, watched s.trace et.task_port) →
      serve H W msgs s = some s1 →
      ∀ et ∈ s1.ess_tasks, watched s1.trace et.task_port) := by
  constructor
  · intro s server task excpt name credential hc hm hs
    exact ⟨_, essential_task_success H W s server task excpt name credential hc hm hs,
      by simp⟩
  · intro msgs s s1 hinv h
    exact (serve_steps H W msgs s s1 h).2.2.2 hinv

/-- Worked example for the amended C1: the process registry registers port 22, a notification request follows, a second registration is refused. -/
theorem later_registration_fails_witness :
    bootState.procserver = 0 ∧ (22 : Nat) ≠ 0 ∧
    S_startup_procinit gnuHdr calmWorld 1 bootState 4 70 17 22 = .ret gnuHdr.MIG_NO_REPLY
      { bootState with procserver := 22, procreply := 70, procreplytype := 17 } ∧
    serve gnuHdr calmWorld [(1, .startup_request_notification 4 40)]
      { bootState with procserver := 22, procreply := 70, procreplytype := 17 }
      = some { bootState with
          procserver := 22, procreply := 70, procreplytype := 17,
          ntfy_tasks := [{ notify_port := 40 }],
          trace := [.mach_port_request_notification 40 4 0] } ∧
    S_startup_procinit gnuHdr calmWorld 1
      { bootState with
          procserver := 22, procreply := 70, procreplytype := 17,
          ntfy_tasks := [{ notify_port := 40 }],
          trace := [.mach_port_request_notification 40 4 0] } 4 71 18 33
      = .ret gnuHdr.EPERM
          { bootState with
              procserver := 22, procreply := 70, procreplytype := 17,
              ntfy_tasks := [{ notify_port := 40 }],
              trace := [.mach_port_request_notification 40 4 0] } :=
  ⟨rfl, by decide, rfl, rfl,
    ((later_registration_fails gnuHdr calmWorld).1 1 bootState 4 70 17 22 _ _
      [(1, .startup_request_notification 4 40)] _ 1 4 71 18 33 rfl (by decide) rfl rfl).1⟩

/-- C1 as stated fails when the first registration supplied `MACH_PORT_NULL`:
the auth server registers, the process registry registers with a null port
(which runs `launch_system`), and the second `S_startup_procinit` is accepted,
runs `launch_system` a second time and replaces the stored endpoint and reply
token. -/
theorem registration_after_null_accepted :
    S_startup_procinit gnuHdr calmWorld 1 bootState 4 70 17 0
      = .ret gnuHdr.MIG_NO_REPLY { bootState with procreply := 70, procreplytype := 17 } ∧
    S_startup_procinit gnuHdr calmWorld 1 { bootState with procreply := 70, procreplytype := 17 }
        4 71 18 22
      = .ret gnuHdr.MIG_NO_REPLY
          { bootState with procserver := 22, procreply := 71, procreplytype := 18 } ∧
    gnuHdr.MIG_NO_REPLY ≠ gnuHdr.EPERM ∧
    ∃ s3, serve gnuHdr calmWorld [(1, .startup_authinit 4 72 18 23),
        (1, .startup_procinit 4 70 17 0), (1, .startup_procinit 4 71 18 22)] bootState = some s3 ∧
      launches s3.trace = 2 ∧ s3.procserver = 22 ∧ s3.procreply = 71 :=
  ⟨rfl, rfl, by decide, _, rfl, by decide, rfl, rfl⟩

/-- Worked example for C10: task 30 is registered as essential from `bootState`, then an unrelated name dies. -/
theorem essential_task_entry_is_watched_witness :
    ((2 : Nat) = bootState.host_priv ∧ calmWorld.malloc_ok (clock bootState) = true ∧
      calmWorld.strdup_ok (clock bootState) = true ∧
      ∃ t, S_startup_essential_task gnuHdr calmWorld bootState 4 30 0 "fsck".toList 2 =
          .ret 0 { addTrace bootState t with
            ess_tasks := { task_port := 30, name := "fsck".toList } :: bootState.ess_tasks } ∧
        Effect.mach_port_request_notification 30 bootState.startup
          (calmWorld.mach_port_request_notification (clock bootState) 30) ∈ t) ∧
    ((∀ et ∈ bootState.ess_tasks, watched bootState.trace et.task_port) ∧
      serve gnuHdr calmWorld [(1, .startup_essential_task 4 30 0 "fsck".toList 2),
        (1, .mach_notify_dead_name 4 99)] bootState
        = some { bootState with
            ess_tasks := [{ task_port := 30, name := "fsck".toList }],
            trace := [.mach_port_request_notification 30 4 0, .mach_port_deallocate 2] } ∧
      ∀ et ∈ [({ task_port := 30, name := "fsck".toList } : ess_task)],
        watched [.mach_port_request_notification 30 4 0, .mach_port_deallocate 2]
          et.task_port) :=
  ⟨⟨rfl, rfl, rfl,
      (essential_task_entry_is_watched gnuHdr calmWorld).1 bootState 4 30 0 "fsck".toList 2
        rfl rfl rfl⟩,
    ⟨(fun _ h => nomatch h), rfl,
      (essential_task_entry_is_watched gnuHdr calmWorld).2
        [(1, .startup_essential_task 4 30 0 "fsck".toList 2), (1, .mach_notify_dead_name 4 99)]
        bootState _ (fun _ h => nomatch h) rfl⟩⟩

/-- Worked example for C8: the pids 1, 2 and 3 are this server, the process registry and a worker; the worker (task 30) is terminated, then the process registry (task 20). -/
theorem reboot_system_kills_victims_then_proc_witness :
    (calmWorld.proc_getallpids busyState.procserver).1 ≠ gnuHdr.MACH_SEND_INVALID_DEST ∧
    (calmWorld.proc_getallpids busyState.procserver).2 = [1, 2, 3] ∧
    (calmWorld.proc_pid2task 0 busyState.procserver 1).2 = calmWorld.mach_task_self ∧
    (calmWorld.proc_pid2task 1 busyState.procserver 2).2 = busyState.proctask ∧
    (calmWorld.proc_pid2task 2 busyState.procserver 3).2 = 30 ∧
    ∃ t, reboot_system gnuHdr calmWorld 0 busyState = .exited 1 (addTrace busyState t) ∧
      terminated t = [30, 20] := by
  refine ⟨by decide, rfl, rfl, rfl, rfl, ?_⟩
  obtain ⟨t, h1, h2, _⟩ := reboot_system_kills_victims_then_proc gnuHdr calmWorld 0 busyState
    (by decide)
    (fun ind pid _ => ⟨by simp [calmWorld, gnuHdr], fun _ _ _ => by simp [calmWorld, gnuHdr]⟩)
  refine ⟨t, h1, ?_⟩
  rw [h2]
  decide

/-! ## The launch sequence at the rendezvous -/

theorem launches_append (a b : List Effect) : launches (a ++ b) = launches a + launches b := by
  simp [launches, List.countP_append]

/-- Effects that are no replies do not count as launches. -/
theorem launches_no_reply (t : List Effect) (h : ∀ e ∈ t, isReply e = false) :
    launches t = 0 := by
  unfold launches
  rw [List.countP_eq_zero]
  intro e he
  have := h e he
  cases e <;> simp_all [isReply]

/-- When every path lookup succeeds, the lookup loop of `run_for_real` returns
in its first round. -/
theorem run_for_real_returns (H : Hdr) (W : World) (hw : ∀ k path, W.path_lookup k path ≠ 0)
    (fuel : Nat) (filename args : List Char) (arglen : Nat) (s : InitState) :
    ∃ s1, run_for_real H W (fuel + 1) filename args arglen s = .ret () s1 := by
  unfold run_for_real run_for_real_loop
  simp only []
  rw [if_neg (hw _ _)]
  exact ⟨_, rfl⟩

/-- When every path lookup succeeds, `launch_system` returns with any fuel
but zero. -/
theorem launch_system_returns (H : Hdr) (W : World) (hw : ∀ k path, W.path_lookup k path ≠ 0)
    (fuel : Nat) (s : InitState) :
    ∃ s1, launch_system H W (fuel + 1) s = .ret () s1 := by
  unfold launch_system
  lift_lets
  intro s1 s2 s3 authproc s4 s5 s6 s7 s8 s9 s10 fsproc s11
  obtain ⟨a, ha⟩ := run_for_real_returns H W hw fuel shell shell shell.length s11
  rw [ha]
  simp only [Res.bind_ret]
  obtain ⟨b, hb⟩ := run_for_real_returns H W hw fuel pipes pipes pipes.length a
  rw [hb]
  exact ⟨_, rfl⟩

/-- C2: from a state with both slots empty and for non-null ports, the first
registration, of either server, returns without any effect, the second one runs
`launch_system` on the state with both slots filled, which is the same state in
both orders, so that both orders end alike; the launch sequence has then been
started once, and it returns whenever every path lookup succeeds. -/
theorem registration_order_irrelevant (H : Hdr) (W : World) (fuel1 fuel : Nat) (s : InitState)
    (server1 reply_p : Nat) (ty_p : Int) (proc server2 reply_a : Nat) (ty_a : Int) (auth : Nat)
    (hp : s.procserver = 0) (ha : s.authserver = 0) (hproc : proc ≠ 0) (hauth : auth ≠ 0) :
    S_startup_procinit H W fuel1 s server1 reply_p ty_p proc = .ret H.MIG_NO_REPLY
      { s with procserver := proc, procreply := reply_p, procreplytype := ty_p } ∧
    S_startup_authinit H W fuel1 s server2 reply_a ty_a auth = .ret H.MIG_NO_REPLY
      { s with authserver := auth, authreply := reply_a, authreplytype := ty_a } ∧
    S_startup_authinit H W fuel
        { s with procserver := proc, procreply := reply_p, procreplytype := ty_p }
        server2 reply_a ty_a auth
      = (launch_system H W fuel (registered s proc reply_p ty_p auth reply_a ty_a)).bind
          (fun _ s1 => .ret H.MIG_NO_REPLY s1) ∧
    S_startup_procinit H W fuel
        { s with authserver := auth, authreply := reply_a, authreplytype := ty_a }
        server1 reply_p ty_p proc
      = (launch_system H W fuel (registered s proc reply_p ty_p auth reply_a ty_a)).bind
          (fun _ s1 => .ret H.MIG_NO_REPLY s1) ∧
    launches (launch_system H W fuel
      (registered s proc reply_p ty_p auth reply_a ty_a)).state.trace = launches s.trace + 1 ∧
    ((∀ k path, W.path_lookup k path ≠ 0) → 0 < fuel →
      ∃ s1, launch_system H W fuel (registered s proc reply_p ty_p auth reply_a ty_a)
        = .ret () s1) := by
  refine ⟨?_, ?_, ?_, ?_, ?_, ?_⟩
  · unfold S_startup_procinit
    rw [if_neg (not_not.mpr hp)]
    simp only []
    rw [if_neg (not_not.mpr ha)]
    rfl
  · unfold S_startup_authinit
    rw [if_neg (not_not.mpr ha)]
    simp only []
    rw [if_neg (not_not.mpr hp)]
    rfl
  · unfold S_startup_authinit
    rw [if_neg (not_not.mpr ha)]
    simp only []
    rw [if_pos hproc]
    rfl
  · unfold S_startup_procinit
    rw [if_neg (not_not.mpr hp)]
    simp only []
    rw [if_pos hauth]
    rfl
  · obtain ⟨_, t, ht, hn⟩ := launch_system_frame H W fuel
      (registered s proc reply_p ty_p auth reply_a ty_a)
    rw [ht, launches_append, launches_append, launches_no_reply t hn]
    rfl
  · intro hw hf
    obtain ⟨n, rfl⟩ := Nat.exists_eq_succ_of_ne_zero (Nat.pos_iff_ne_zero.mp hf)
    exact launch_system_returns H W hw n _

/-- Worked example for C2: ports 22 and 23 register from `bootState`. -/
theorem registration_order_irrelevant_witness :
    (bootState.procserver = 0 ∧ bootState.authserver = 0 ∧ (22 : Nat) ≠ 0 ∧ (23 : Nat) ≠ 0) ∧
    (S_startup_procinit gnuHdr calmWorld 1 bootState 4 70 17 22 = .ret gnuHdr.MIG_NO_REPLY
      { bootState with procserver := 22, procreply := 70, procreplytype := 17 } ∧
    S_startup_authinit gnuHdr calmWorld 1 bootState 4 71 18 23 = .ret gnuHdr.MIG_NO_REPLY
      { bootState with authserver := 23, authreply := 71, authreplytype := 18 } ∧
    S_startup_authinit gnuHdr calmWorld 1
        { bootState with procserver := 22, procreply := 70, procreplytype := 17 } 4 71 18 23
      = (launch_system gnuHdr calmWorld 1 (registered bootState 22 70 17 23 71 18)).bind
          (fun _ s1 => .ret gnuHdr.MIG_NO_REPLY s1) ∧
    S_startup_procinit gnuHdr calmWorld 1
        { bootState with authserver := 23, authreply := 71, authreplytype := 18 } 4 70 17 22
      = (launch_system gnuHdr calmWorld 1 (registered bootState 22 70 17 23 71 18)).bind
          (fun _ s1 => .ret gnuHdr.MIG_NO_REPLY s1) ∧
    launches (launch_system gnuHdr calmWorld 1
      (registered bootState 22 70 17 23 71 18)).state.trace = launches bootState.trace + 1 ∧
    ((∀ k path, calmWorld.path_lookup k path ≠ 0) → 0 < 1 →
      ∃ s1, launch_system gnuHdr calmWorld 1 (registered bootState 22 70 17 23 71 18)
        = .ret () s1)) :=
  ⟨⟨rfl, rfl, by decide, by decide⟩,
    registration_order_irrelevant gnuHdr calmWorld 1 1 bootState 4 70 17 22 4 71 18 23
      rfl rfl (by decide) (by decide)⟩

/-- C7, amended: from a state with both slots empty, when the process registry
registers first with a non-null port and the auth server second, the first
call sends nothing and the second one starts the launch sequence, whose first
five effects are the reply on the reply port of the process registry (with
this task, the auth port just registered, `host_priv` and `device_master`),
the two child declarations, the lookup of the auth task and the reply on the
reply port of the auth server with the port that lookup handed back; no other
reply is sent. -/
theorem proc_then_auth_replies (H : Hdr) (W : World) (fuel1 fuel : Nat) (s : InitState)
    (server1 reply_p : Nat) (ty_p : Int) (proc server2 reply_a : Nat) (ty_a : Int) (auth : Nat)
    (hp : s.procserver = 0) (ha : s.authserver = 0) (hproc : proc ≠ 0) :
    S_startup_procinit H W fuel1 s server1 reply_p ty_p proc = .ret H.MIG_NO_REPLY
      { s with procserver := proc, procreply := reply_p, procreplytype := ty_p } ∧
    ∃ t, (S_startup_authinit H W fuel
          { s with procserver := proc, procreply := reply_p, procreplytype := ty_p }
          server2 reply_a ty_a auth).state.trace
        = s.trace ++
          [ .startup_procinit_reply reply_p ty_p 0 W.mach_task_self auth s.host_priv
              s.device_master,
            .proc_child proc s.fstask,
            .proc_child proc s.authtask,
            .proc_task2proc proc s.authtask
              (W.proc_task2proc (s.trace.length + 3) proc s.authtask).1
              (W.proc_task2proc (s.trace.length + 3) proc s.authtask).2,
            .startup_authinit_reply reply_a ty_a 0
              (W.proc_task2proc (s.trace.length + 3) proc s.authtask).2 ] ++ t ∧
      ∀ e ∈ t, isReply e = false := by
  constructor
  · unfold S_startup_procinit
    rw [if_neg (not_not.mpr hp)]
    simp only []
    rw [if_neg (not_not.mpr ha)]
    rfl
  · obtain ⟨_, t, ht, hn⟩ := launch_system_frame H W fuel
      (registered s proc reply_p ty_p auth reply_a ty_a)
    refine ⟨t, ?_, hn⟩
    unfold S_startup_authinit
    rw [if_neg (not_not.mpr ha)]
    simp only []
    rw [if_pos hproc, Res.state_bind_ret]
    exact ht

/-- Worked example for the amended C7: port 22 registers as process registry, then port 23 as auth server. -/
theorem proc_then_auth_replies_witness :
    (bootState.procserver = 0 ∧ bootState.authserver = 0 ∧ (22 : Nat) ≠ 0) ∧
    S_startup_procinit gnuHdr calmWorld 1 bootState 4 70 17 22 = .ret gnuHdr.MIG_NO_REPLY
      { bootState with procserver := 22, procreply := 70, procreplytype := 17 } ∧
    ∃ t, (S_startup_authinit gnuHdr calmWorld 1
          { bootState with procserver := 22, procreply := 70, procreplytype := 17 }
          4 71 18 23).state.trace
        = bootState.trace ++
          [ .startup_procinit_reply 70 17 0 calmWorld.mach_task_self 23 bootState.host_priv
              bootState.device_master,
            .proc_child 22 bootState.fstask,
            .proc_child 22 bootState.authtask,
            .proc_task2proc 22 bootState.authtask
              (calmWorld.proc_task2proc (bootState.trace.length + 3) 22 bootState.authtask).1
              (calmWorld.proc_task2proc (bootState.trace.length + 3) 22 bootState.authtask).2,
            .startup_authinit_reply 71 18 0
              (calmWorld.proc_task2proc (bootState.trace.length + 3) 22 bootState.authtask).2 ]
          ++ t ∧
      ∀ e ∈ t, isReply e = false :=
  ⟨⟨rfl, rfl, by decide⟩,
    proc_then_auth_replies gnuHdr calmWorld 1 1 bootState 4 70 17 22 4 71 18 23
      rfl rfl (by decide)⟩

/-- C7 as stated fails when the process registry registers `MACH_PORT_NULL`:
the registration of the auth server that follows does not start the launch
sequence, and no reply is sent. -/
theorem null_proc_then_auth_sends_nothing :
    S_startup_procinit gnuHdr calmWorld 1 bootState 4 70 17 0 = .ret gnuHdr.MIG_NO_REPLY
      { bootState with procreply := 70, procreplytype := 17 } ∧
    S_startup_authinit gnuHdr calmWorld 1
        { bootState with procreply := 70, procreplytype := 17 } 4 71 18 23
      = .ret gnuHdr.MIG_NO_REPLY
        { bootState with
            procreply := 70, procreplytype := 17,
            authserver := 23, authreply := 71, authreplytype := 18,
            trace := [] } ∧
    launches (S_startup_authinit gnuHdr calmWorld 1
        { bootState with procreply := 70, procreplytype := 17 } 4 71 18 23).state.trace = 0 :=
  ⟨rfl, rfl, by decide⟩

/-! ## The notification list -/

/-- In `S_startup_request_notification` the result of `malloc` is used
unchecked: when the allocation fails the handler writes through a null
pointer, whatever the state and the port. -/
theorem request_notification_unchecked (W : World) (s : InitState) (server notify : Nat)
    (h : ∀ k, W.malloc_ok k = false) :
    ∃ s1, S_startup_request_notification W s server notify = .fault s1 := by
  unfold S_startup_request_notification
  simp only []
  rw [if_pos (h _)]
  exact ⟨_, rfl⟩

/-- C9 at the failing input: with the memory used up, a request for
notification on port 50 ends in a write through a null pointer instead of
returning 0, and the notification list gets no entry; the sibling handler
`S_startup_essential_task` checks its allocation and returns ENOMEM. -/
theorem request_notification_null_deref :
    S_startup_request_notification fullWorld busyState 4 50
      = .fault { busyState with trace := [.mach_port_request_notification 50 4 0] } ∧
    S_startup_essential_task gnuHdr fullWorld busyState 4 30 0 "fsck".toList 2
      = .ret gnuHdr.ENOMEM busyState :=
  ⟨rfl, rfl⟩

/-- When every allocation succeeds, two requests for notification on the same
port give two entries in front of the list; a death notification for the port
unlinks one of them and releases the port once, a second one unlinks the
other, and the list is the old one again. -/
theorem duplicate_notifications_independent (H : Hdr) (W : World) (s : InitState)
    (server n notify1 notify2 : Nat) (hm : ∀ k, W.malloc_ok k = true)
    (hess : ∀ et ∈ s.ess_tasks, et.task_port ≠ n) :
    ∃ t1 t2,
      S_startup_request_notification W s server n
        = .ret 0 { addTrace s t1 with ntfy_tasks := { notify_port := n } :: s.ntfy_tasks } ∧
      S_startup_request_notification W
          { addTrace s t1 with ntfy_tasks := { notify_port := n } :: s.ntfy_tasks } server n
        = .ret 0 { addTrace s (t1 ++ t2) with
            ntfy_tasks := { notify_port := n } :: { notify_port := n } :: s.ntfy_tasks } ∧
      do_mach_notify_dead_name H W
          { addTrace s (t1 ++ t2) with
            ntfy_tasks := { notify_port := n } :: { notify_port := n } :: s.ntfy_tasks }
          notify1 n
        = .ret 0 { addTrace s (t1 ++ t2 ++ [.mach_port_deallocate n]) with
            ntfy_tasks := { notify_port := n } :: s.ntfy_tasks } ∧
      do_mach_notify_dead_name H W
          { addTrace s (t1 ++ t2 ++ [.mach_port_deallocate n]) with
            ntfy_tasks := { notify_port := n } :: s.ntfy_tasks }
          notify2 n
        = .ret 0 (addTrace s (t1 ++ t2 ++ [.mach_port_deallocate n, .mach_port_deallocate n])) := by
  have hreq : ∀ (s0 : InitState), ∃ t, S_startup_request_notification W s0 server n
      = .ret 0 { addTrace s0 t with ntfy_tasks := { notify_port := n } :: s0.ntfy_tasks } := by
    intro s0
    unfold S_startup_request_notification
    simp only []
    rw [if_neg (by simp [hm])]
    split_ifs with h
    · exact ⟨_, by simp only [emit_eq, addTrace_addTrace]; rfl⟩
    · exact ⟨_, by simp only [emit_eq]; rfl⟩
  have hdead : ∀ (s0 : InitState) (notify : Nat) (rest : List ntfy_task),
      s0.ess_tasks = s.ess_tasks → s0.ntfy_tasks = { notify_port := n } :: rest →
      do_mach_notify_dead_name H W s0 notify n
        = .ret 0 { addTrace s0 [.mach_port_deallocate n] with ntfy_tasks := rest } := by
    intro s0 notify rest he hn
    unfold do_mach_notify_dead_name
    rw [ess_loop_no_match H W n s0.ess_tasks s0 (he ▸ hess)]
    simp only [Res.bind_ret, hn, ntfy_unlink, if_true]
    rfl
  obtain ⟨t1, h1⟩ := hreq s
  obtain ⟨t2, h2⟩ := hreq
    { addTrace s t1 with ntfy_tasks := { notify_port := n } :: s.ntfy_tasks }
  refine ⟨t1, t2, h1, ?_, ?_, ?_⟩
  · rw [h2]; simp [addTrace]
  · have d1 := hdead
      { addTrace s (t1 ++ t2) with
        ntfy_tasks := { notify_port := n } :: { notify_port := n } :: s.ntfy_tasks }
      notify1 ({ notify_port := n } :: s.ntfy_tasks) rfl rfl
    rw [d1]; simp [addTrace]
  · have d2 := hdead
      { addTrace s (t1 ++ t2 ++ [.mach_port_deallocate n]) with
        ntfy_tasks := { notify_port := n } :: s.ntfy_tasks }
      notify2 s.ntfy_tasks rfl rfl
    rw [d2]; simp [addTrace]

/-- Worked example: port 50 is registered twice on `busyState` and dies twice. -/
theorem duplicate_notifications_independent_witness :
    ((∀ k, calmWorld.malloc_ok k = true) ∧ ∀ et ∈ busyState.ess_tasks, et.task_port ≠ 50) ∧
    ∃ t1 t2,
      S_startup_request_notification calmWorld busyState 4 50
        = .ret 0 { addTrace busyState t1 with
            ntfy_tasks := { notify_port := 50 } :: busyState.ntfy_tasks } ∧
      S_startup_request_notification calmWorld
          { addTrace busyState t1 with
            ntfy_tasks := { notify_port := 50 } :: busyState.ntfy_tasks } 4 50
        = .ret 0 { addTrace busyState (t1 ++ t2) with
            ntfy_tasks := { notify_port := 50 } :: { notify_port := 50 } ::
              busyState.ntfy_tasks } ∧
      do_mach_notify_dead_name gnuHdr calmWorld
          { addTrace busyState (t1 ++ t2) with
            ntfy_tasks := { notify_port := 50 } :: { notify_port := 50 } ::
              busyState.ntfy_tasks }
          4 50
        = .ret 0 { addTrace busyState (t1 ++ t2 ++ [.mach_port_deallocate 50]) with
            ntfy_tasks := { notify_port := 50 } :: busyState.ntfy_tasks } ∧
      do_mach_notify_dead_name gnuHdr calmWorld
          { addTrace busyState (t1 ++ t2 ++ [.mach_port_deallocate 50]) with
            ntfy_tasks := { notify_port := 50 } :: busyState.ntfy_tasks }
          4 50
        = .ret 0 (addTrace busyState
            (t1 ++ t2 ++ [.mach_port_deallocate 50, .mach_port_deallocate 50])) :=
  ⟨⟨fun _ => rfl, by decide⟩,
    duplicate_notifications_independent gnuHdr calmWorld busyState 4 50 4 4 (fun _ => rfl)
      (by decide)⟩

/-! ## Allocation failure in the essential-task handler -/

/-- C11: with the credential `host_priv`, when the allocation of the entry or
the copy of the name fails, `S_startup_essential_task` returns ENOMEM and the
whole state is as before the call: the list of essential tasks is unchanged
and no notification has been requested. -/
theorem essential_task_out_of_memory (H : Hdr) (W : World) (s : InitState)
    (server task excpt : Nat) (name : List Char) (credential : Nat)
    (hc : credential = s.host_priv)
    (hm : W.malloc_ok (clock s) = false ∨ W.strdup_ok (clock s) = false) :
    S_startup_essential_task H W s server task excpt name credential = .ret H.ENOMEM s := by
  unfold S_startup_essential_task
  rw [if_neg (not_not.mpr hc)]
  by_cases h2 : W.malloc_ok (clock s) = false
  · rw [if_pos h2]
  · rw [if_neg h2]
    rcases hm with h | h
    · exact absurd h h2
    · rw [if_pos h]

/-- Worked example for C11: the memory is used up, task 30 is not recorded. -/
theorem essential_task_out_of_memory_witness :
    ((2 : Nat) = busyState.host_priv ∧
      (fullWorld.malloc_ok (clock busyState) = false ∨
        fullWorld.strdup_ok (clock busyState) = false)) ∧
    S_startup_essential_task gnuHdr fullWorld busyState 4 31 0 "ext2fs".toList 2
      = .ret gnuHdr.ENOMEM busyState :=
  ⟨⟨rfl, Or.inl rfl⟩,
    essential_task_out_of_memory gnuHdr fullWorld busyState 4 31 0 "ext2fs".toList 2 rfl
      (Or.inl rfl)⟩

/-! ## The broadcast before the reboot -/

theorem queried_append (a b : List Effect) : queried (a ++ b) = queried a ++ queried b := by
  simp [queried, List.filterMap_append]

theorem complaints_append (a b : List Effect) :
    complaints (a ++ b) = complaints a ++ complaints b := by
  simp [complaints, List.filterMap_append]

/-- The first loop of `reboot_system` in full: every entry is called once, in
list order, a complaint is printed exactly for the answers that are errors
other than the invalid-destination one, no process is looked up and none is
terminated. -/
theorem notify_loop_trace (H : Hdr) (W : World) (l : List ntfy_task) :
    ∀ (i : Nat) (s : InitState), ∃ t,
      notify_loop H W i l s = addTrace s t ∧
      terminated t = [] ∧ queried t = [] ∧
      notified t = l.map (fun n => n.notify_port) ∧
      complaints t = (l.enumFrom i).filterMap (fun p => complained H W p.1 p.2) := by
  induction l with
  | nil => intro i s; exact ⟨[], by simp [notify_loop], rfl, rfl, rfl, rfl⟩
  | cons n rest ih =>
    intro i s
    unfold notify_loop
    simp only [List.enumFrom_cons, List.filterMap_cons]
    split_ifs with h
    · obtain ⟨t, ht, h1, h2, h3, h4⟩ := ih (i + 1)
        (fflush (printf (emit (fflush (printf s "init: notifying %p\n" [.p n.notify_port]))
          (.startup_dosync n.notify_port (W.startup_dosync i n.notify_port)))
          "init: %p complained: %s\n"
          [.p n.notify_port, .strerror (W.startup_dosync i n.notify_port)]))
      rw [ht]
      have hc : complained H W i n = some n.notify_port := by
        unfold complained; rw [if_pos h]
      refine ⟨_, by simp; rfl, ?_, ?_, ?_, ?_⟩
      · simpa [terminated] using h1
      · simpa [queried] using h2
      · simpa [notified] using h3
      · rw [hc]
        simpa [complaints] using h4
    · obtain ⟨t, ht, h1, h2, h3, h4⟩ := ih (i + 1)
        (emit (fflush (printf s "init: notifying %p\n" [.p n.notify_port]))
          (.startup_dosync n.notify_port (W.startup_dosync i n.notify_port)))
      rw [ht]
      have hc : complained H W i n = none := by
        unfold complained; rw [if_neg h]
      refine ⟨_, by simp; rfl, ?_, ?_, ?_, ?_⟩
      · simpa [terminated] using h1
      · simpa [queried] using h2
      · simpa [notified] using h3
      · rw [hc]
        simpa [complaints] using h4

/-- However the loop over the process ids ends, it changes nothing but the
trace, calls no notified task and prints no complaint of one. -/
theorem kill_loop_quiet (H : Hdr) (W : World) (flags : Int) (pids : List Int) :
    ∀ (ind : Nat) (s : InitState), ∃ t,
      (kill_loop H W flags ind pids s = .ret () (addTrace s t) ∨
        kill_loop H W flags ind pids s = .exited 1 (addTrace s t)) ∧
      notified t = [] ∧ complaints t = [] := by
  induction pids with
  | nil => intro ind s; exact ⟨[], Or.inl (by simp [kill_loop]), rfl, rfl⟩
  | cons pid rest ih =>
    intro ind s
    have key : ∀ t0, notified t0 = [] → complaints t0 = [] → ∃ t,
        (kill_loop H W flags (ind + 1) rest (addTrace s t0) = .ret () (addTrace s t) ∨
          kill_loop H W flags (ind + 1) rest (addTrace s t0) = .exited 1 (addTrace s t)) ∧
        notified t = [] ∧ complaints t = [] := by
      intro t0 n0 c0
      obtain ⟨t, ht, hn, hc⟩ := ih (ind + 1) (addTrace s t0)
      refine ⟨t0 ++ t, ?_, ?_, ?_⟩
      · rcases ht with h | h
        · left; rw [h]; simp
        · right; rw [h]; simp
      · rw [notified_append, n0, hn]; rfl
      · rw [complaints_append, c0, hc]; rfl
    have bad : ∀ t0, notified t0 = [] → complaints t0 = [] → ∃ t,
        (((procbad H flags (addTrace s t0)).bind (fun e _ => e.elim) : Res Unit)
            = .ret () (addTrace s t) ∨
          ((procbad H flags (addTrace s t0)).bind (fun e _ => e.elim) : Res Unit)
            = .exited 1 (addTrace s t)) ∧
        notified t = [] ∧ complaints t = [] := by
      intro t0 n0 c0
      refine ⟨t0 ++ procbad_effects H flags, Or.inr ?_, ?_, ?_⟩
      · simp [procbad, reboot_mach, exit, procbad_effects]
      · rw [notified_append, n0]; rfl
      · rw [complaints_append, c0]; rfl
    unfold kill_loop
    simp only [emit_eq, printf_eq, fflush_eq, addTrace_addTrace, addTrace_procserver,
      addTrace_proctask]
    split_ifs
    · exact bad _ rfl rfl
    · exact key _ rfl rfl
    · exact bad _ rfl rfl
    · exact key _ rfl rfl
    · exact key _ rfl rfl
    · exact key _ rfl rfl
    · exact key _ rfl rfl

/-- Every run of `reboot_system`, in two parts: the broadcast, which calls
every notified task once in list order and terminates nothing, and, starting
with the enumeration of the processes, the rest, which calls no notified
task. -/
theorem reboot_system_parts (H : Hdr) (W : World) (flags : Int) (s : InitState) :
    ∃ t1 t2, reboot_system H W flags s = .exited 1 (addTrace s
        (t1 ++ .proc_getallpids s.procserver (W.proc_getallpids s.procserver).1
          (W.proc_getallpids s.procserver).2 :: t2)) ∧
      notified t1 = s.ntfy_tasks.map (fun n => n.notify_port) ∧ terminated t1 = [] ∧
      complaints t1 = s.ntfy_tasks.enum.filterMap (fun p => complained H W p.1 p.2) ∧
      notified t2 = [] ∧ complaints t2 = [] := by
  obtain ⟨t1, ht1, hk1, _, hn1, hc1⟩ := notify_loop_trace H W s.ntfy_tasks 0 s
  refine ⟨t1, ?_⟩
  unfold reboot_system
  simp only [ht1, emit_eq, addTrace_addTrace, addTrace_procserver]
  split_ifs with h
  · refine ⟨procbad_effects H flags, ?_, hn1, hk1, hc1, rfl, rfl⟩
    simp [procbad, reboot_mach, exit, procbad_effects]
  · simp only [Res.bind_ret]
    obtain ⟨t2, ht2, hn2, hc2⟩ := kill_loop_quiet H W flags (W.proc_getallpids s.procserver).2 0
      (addTrace s (t1 ++ [.proc_getallpids s.procserver (W.proc_getallpids s.procserver).1
        (W.proc_getallpids s.procserver).2]))
    rcases ht2 with h2 | h2
    · refine ⟨t2 ++ [.printf "Killing proc server\n" [], .fflush, .task_terminate s.proctask,
        .printf "Init exiting\n" [], .fflush], ?_, hn1, hk1, hc1, ?_, ?_⟩
      · rw [h2]; simp [exit]
      · rw [notified_append, hn2]; rfl
      · rw [complaints_append, hc2]; rfl
    · refine ⟨t2, ?_, hn1, hk1, hc1, hn2, hc2⟩
      rw [h2]; simp

/-- C15: in every run of `reboot_system` the trace splits in two parts, the
first with one `startup_dosync` call for every entry of the notification list
and no `task_terminate`, the second without any `startup_dosync`: every
notified task is called before any task is terminated.  So it is when the
crash sequence is started by the death of an essential task. -/
theorem crash_notifies_before_terminating (H : Hdr) (W : World) (s : InitState) :
    (∀ flags : Int, ∃ t1 t2, reboot_system H W flags s = .exited 1 (addTrace s (t1 ++ t2)) ∧
      notified t1 = s.ntfy_tasks.map (fun n => n.notify_port) ∧ terminated t1 = [] ∧
      notified t2 = []) ∧
    (∀ notify name : Nat, (∃ et ∈ s.ess_tasks, et.task_port = name) →
      ∃ t1 t2, do_mach_notify_dead_name H W s notify name = .exited 1 (addTrace s (t1 ++ t2)) ∧
        notified t1 = s.ntfy_tasks.map (fun n => n.notify_port) ∧ terminated t1 = [] ∧
        notified t2 = []) := by
  constructor
  · intro flags
    obtain ⟨t1, t2, h, hn, hk, _, hn2, _⟩ := reboot_system_parts H W flags s
    refine ⟨t1, _ :: t2, h, hn, hk, ?_⟩
    rw [show ∀ (e : Effect), e :: t2 = [e] ++ t2 from fun _ => rfl, notified_append, hn2]
    rfl
  · intro notify name hm
    obtain ⟨et, _, _, s1, hs1, hl⟩ := ess_loop_match H W name s.ess_tasks s hm
    obtain ⟨t1, t2, h, hn, hk, _, hn2, _⟩ := reboot_system_parts H W (CRASH_FLAGS H)
      (fflush (printf s "Init crashing system; essential task %s died\n" [.s et.name]))
    rw [hs1] at h
    simp only [Res.exited.injEq, true_and] at h
    refine ⟨[.printf "Init crashing system; essential task %s died\n" [.s et.name], .fflush]
      ++ t1, .proc_getallpids s.procserver (W.proc_getallpids s.procserver).1
          (W.proc_getallpids s.procserver).2 :: t2, ?_, ?_, ?_, ?_⟩
    · unfold do_mach_notify_dead_name
      rw [hl, h]
      simp
    · rw [notified_append, hn]; rfl
    · rw [terminated_append, hk]; rfl
    · rw [show ∀ (e : Effect), e :: t2 = [e] ++ t2 from fun _ => rfl, notified_append, hn2]
      rfl

/-- Worked example for C15: the essential task 30 of `busyState` dies; the
notified tasks 40 and 41 are called before anything is terminated. -/
theorem crash_notifies_before_terminating_witness :
    (∃ et ∈ busyState.ess_tasks, et.task_port = 30) ∧
    ∃ t1 t2, do_mach_notify_dead_name gnuHdr calmWorld busyState 4 30
        = .exited 1 (addTrace busyState (t1 ++ t2)) ∧
      notified t1 = [40, 41] ∧ terminated t1 = [] ∧ notified t2 = [] :=
  ⟨⟨⟨30, "fsck".toList⟩, List.mem_cons_self _ _, rfl⟩,
    (crash_notifies_before_terminating gnuHdr calmWorld busyState).2 4 30
      ⟨⟨30, "fsck".toList⟩, List.mem_cons_self _ _, rfl⟩⟩

/-- C17: in every run of `reboot_system`, whatever the notified tasks answer,
every entry of the notification list is called once, in list order, and the
enumeration of the processes follows; a complaint is printed exactly for the
answers that are errors other than `MACH_SEND_INVALID_DEST`, so none for a
target that answers `MACH_SEND_INVALID_DEST`. -/
theorem broadcast_is_best_effort (H : Hdr) (W : World) (flags : Int) (s : InitState) :
    (∃ t1 t2, reboot_system H W flags s = .exited 1 (addTrace s
        (t1 ++ .proc_getallpids s.procserver (W.proc_getallpids s.procserver).1
          (W.proc_getallpids s.procserver).2 :: t2)) ∧
      notified t1 = s.ntfy_tasks.map (fun n => n.notify_port) ∧ notified t2 = [] ∧
      complaints t1 = s.ntfy_tasks.enum.filterMap (fun p => complained H W p.1 p.2) ∧
      complaints t2 = []) ∧
    (∀ (i : Nat) (n : ntfy_task),
      W.startup_dosync i n.notify_port = H.MACH_SEND_INVALID_DEST → complained H W i n = none) := by
  constructor
  · obtain ⟨t1, t2, h, hn, _, hc, hn2, hc2⟩ := reboot_system_parts H W flags s
    exact ⟨t1, t2, h, hn, hn2, hc, hc2⟩
  · intro i n h
    unfold complained
    rw [if_neg]
    intro hh
    exact hh.2 h

/-- Worked example for C17: of the notified tasks 40 and 41 of `busyState` the
first is gone and the second answers EPERM; both are called, only the second
is complained about. -/
theorem broadcast_is_best_effort_witness :
    grumpyWorld.startup_dosync 0 40 = gnuHdr.MACH_SEND_INVALID_DEST ∧
    complained gnuHdr grumpyWorld 0 { notify_port := 40 } = none ∧
    ∃ t1 t2, reboot_system gnuHdr grumpyWorld 0 busyState = .exited 1 (addTrace busyState
        (t1 ++ .proc_getallpids busyState.procserver
          (grumpyWorld.proc_getallpids busyState.procserver).1
          (grumpyWorld.proc_getallpids busyState.procserver).2 :: t2)) ∧
      notified t1 = [40, 41] ∧ notified t2 = [] ∧ complaints t1 = [41] ∧ complaints t2 = [] := by
  refine ⟨rfl, (broadcast_is_best_effort gnuHdr grumpyWorld 0 busyState).2 0 _ rfl, ?_⟩
  obtain ⟨t1, t2, h, hn, hn2, hc, hc2⟩ :=
    (broadcast_is_best_effort gnuHdr grumpyWorld 0 busyState).1
  refine ⟨t1, t2, h, hn, hn2, ?_, hc2⟩
  rw [hc]
  decide

/-! ## A dead process registry during the enumeration -/

theorem addTrace_inj {s : InitState} {a b : List Effect} (h : addTrace s a = addTrace s b) :
    a = b := by
  have := congrArg InitState.trace h
  simpa using this

/-- The loop over a list of process ids in two parts. -/
theorem kill_loop_append (H : Hdr) (W : World) (flags : Int) (pre rest : List Int) :
    ∀ (ind : Nat) (s : InitState),
      kill_loop H W flags ind (pre ++ rest) s =
        (kill_loop H W flags ind pre s).bind
          (fun _ s1 => kill_loop H W flags (ind + pre.length) rest s1) := by
  induction pre with
  | nil => intro ind s; simp [kill_loop]
  | cons pid more ih =>
    intro ind s
    have e : ind + (more.length + 1) = ind + 1 + more.length := by omega
    simp only [List.cons_append, List.length_cons, e]
    rw [kill_loop, kill_loop]
    simp only []
    split_ifs
    · rfl
    · exact ih _ _
    · rfl
    · exact ih _ _
    · exact ih _ _
    · exact ih _ _
    · exact ih _ _

/-- When the loop over the process ids runs to its end, it has looked up every
process id, in order. -/
theorem kill_loop_queried (H : Hdr) (W : World) (flags : Int) (pids : List Int) :
    ∀ (ind : Nat) (s : InitState), ∃ t,
      (kill_loop H W flags ind pids s = .ret () (addTrace s t) ∧ queried t = pids) ∨
      kill_loop H W flags ind pids s = .exited 1 (addTrace s t) := by
  induction pids with
  | nil => intro ind s; exact ⟨[], Or.inl ⟨by simp [kill_loop], rfl⟩⟩
  | cons pid rest ih =>
    intro ind s
    have key : ∀ t0, queried t0 = [pid] → ∃ t,
        (kill_loop H W flags (ind + 1) rest (addTrace s t0) = .ret () (addTrace s t) ∧
          queried t = pid :: rest) ∨
        kill_loop H W flags (ind + 1) rest (addTrace s t0) = .exited 1 (addTrace s t) := by
      intro t0 q0
      obtain ⟨t, ht⟩ := ih (ind + 1) (addTrace s t0)
      refine ⟨t0 ++ t, ?_⟩
      rcases ht with ⟨h, hq⟩ | h
      · left; rw [h]; exact ⟨by simp, by rw [queried_append, q0, hq]; rfl⟩
      · right; rw [h]; simp
    have bad : ∀ t0, ∃ t,
        (((procbad H flags (addTrace s t0)).bind (fun e _ => e.elim) : Res Unit)
            = .ret () (addTrace s t) ∧ queried t = pid :: rest) ∨
          ((procbad H flags (addTrace s t0)).bind (fun e _ => e.elim) : Res Unit)
            = .exited 1 (addTrace s t) := by
      intro t0
      refine ⟨t0 ++ procbad_effects H flags, Or.inr ?_⟩
      simp [procbad, reboot_mach, exit, procbad_effects]
    unfold kill_loop
    simp only [emit_eq, printf_eq, fflush_eq, addTrace_addTrace, addTrace_procserver,
      addTrace_proctask]
    split_ifs
    · exact bad _
    · exact key _ rfl
    · exact bad _
    · exact key _ rfl
    · exact key _ rfl
    · exact key _ rfl
    · exact key _ rfl

/-- The round of the loop in which a lookup reports the process registry as
dead: the block at `procbad` follows the lookup, nothing is terminated and the
process exits. -/
theorem kill_loop_dead (H : Hdr) (W : World) (flags : Int) (ind : Nat) (pid : Int)
    (post : List Int) (s : InitState)
    (hd : dead_at H W s.procserver s.proctask ind pid) :
    ∃ t, kill_loop H W flags ind (pid :: post) s
        = .exited 1 (addTrace s (t ++ procbad_effects H flags)) ∧
      terminated t = [] ∧ queried t = [pid] := by
  unfold kill_loop
  simp only [emit_eq, printf_eq, fflush_eq, addTrace_addTrace, addTrace_procserver,
    addTrace_proctask]
  by_cases c1 : (W.proc_pid2task ind s.procserver pid).1 = H.MACH_SEND_INVALID_DEST
  · rw [if_pos c1]
    exact ⟨[.proc_pid2task s.procserver pid (W.proc_pid2task ind s.procserver pid).1
        (W.proc_pid2task ind s.procserver pid).2],
      by simp [procbad, reboot_mach, exit, procbad_effects], rfl, rfl⟩
  · rw [if_neg c1]
    rcases hd with h | ⟨h0, h1, h2, h3⟩
    · exact absurd h c1
    · rw [if_neg (not_not.mpr h0), if_pos ⟨h1, h2⟩, if_pos h3]
      exact ⟨[.proc_pid2task s.procserver pid (W.proc_pid2task ind s.procserver pid).1
          (W.proc_pid2task ind s.procserver pid).2,
        .proc_getprocinfo s.procserver pid (W.proc_getprocinfo ind s.procserver pid).1
          (W.proc_getprocinfo ind s.procserver pid).2],
        by simp [procbad, reboot_mach, exit, procbad_effects], rfl, rfl⟩

/-- C13: in `reboot_system`, when the enumeration reports the process registry
as dead, or when a lookup for the process at some position does after the
lookups before it did not, the block at `procbad` follows at once: the process
ids looked up are those up to that position and no other, the tasks terminated
are the victims before that position, the task of the process registry is not
terminated, and `reboot_mach` runs with the flags given and the process
exits. -/
theorem reboot_system_abandons_enumeration (H : Hdr) (W : World) (flags : Int)
    (s : InitState) :
    ((W.proc_getallpids s.procserver).1 = H.MACH_SEND_INVALID_DEST →
      ∃ t, reboot_system H W flags s = .exited 1 (addTrace s (t ++ procbad_effects H flags)) ∧
        terminated t = [] ∧ queried t = []) ∧
    (∀ (pre : List Int) (pid : Int) (post : List Int),
      (W.proc_getallpids s.procserver).1 ≠ H.MACH_SEND_INVALID_DEST →
      (W.proc_getallpids s.procserver).2 = pre ++ pid :: post →
      (∀ j p, pre.get? j = some p →
        (W.proc_pid2task j s.procserver p).1 ≠ H.MACH_SEND_INVALID_DEST ∧
        ((W.proc_pid2task j s.procserver p).1 = 0 →
          (W.proc_pid2task j s.procserver p).2 ≠ W.mach_task_self →
          (W.proc_pid2task j s.procserver p).2 ≠ s.proctask →
          (W.proc_getprocinfo j s.procserver p).1 ≠ H.MACH_SEND_INVALID_DEST)) →
      dead_at H W s.procserver s.proctask pre.length pid →
      ∃ t, reboot_system H W flags s = .exited 1 (addTrace s (t ++ procbad_effects H flags)) ∧
        terminated t = pre.enum.filterMap
          (fun p => victim H W s.procserver s.proctask p.1 p.2) ∧
        s.proctask ∉ terminated t ∧
        queried t = pre ++ [pid]) := by
  obtain ⟨t1, ht1, hk1, hq1, _⟩ := notify_loop_trace H W s.ntfy_tasks 0 s
  constructor
  · intro hdead
    refine ⟨t1 ++ [.proc_getallpids s.procserver (W.proc_getallpids s.procserver).1
      (W.proc_getallpids s.procserver).2], ?_, ?_, ?_⟩
    · unfold reboot_system
      simp only [ht1, emit_eq, addTrace_addTrace, addTrace_procserver, if_pos hdead]
      simp [procbad, reboot_mach, exit, procbad_effects]
    · rw [terminated_append, hk1]; rfl
    · rw [queried_append, hq1]; rfl
  · intro pre pid post hall hpids hpre hdead
    obtain ⟨t2, ht2, hk2⟩ := kill_loop_victims H W flags pre 0
      (addTrace s (t1 ++ [.proc_getallpids s.procserver (W.proc_getallpids s.procserver).1
        (W.proc_getallpids s.procserver).2]))
      (by intro j p hj; simpa using hpre j p hj)
    obtain ⟨t2', hq⟩ := kill_loop_queried H W flags pre 0
      (addTrace s (t1 ++ [.proc_getallpids s.procserver (W.proc_getallpids s.procserver).1
        (W.proc_getallpids s.procserver).2]))
    have hq2 : queried t2 = pre := by
      rcases hq with ⟨h, hq⟩ | h
      · rw [ht2] at h
        simp only [Res.ret.injEq, true_and] at h
        rw [addTrace_inj h]; exact hq
      · rw [ht2] at h; cases h
    obtain ⟨t3, ht3, hk3, hq3⟩ := kill_loop_dead H W flags (0 + pre.length) pid post
      (addTrace (addTrace s (t1 ++ [.proc_getallpids s.procserver
        (W.proc_getallpids s.procserver).1 (W.proc_getallpids s.procserver).2])) t2)
      (by simpa using hdead)
    have hterm : terminated (t1 ++ [.proc_getallpids s.procserver
        (W.proc_getallpids s.procserver).1 (W.proc_getallpids s.procserver).2] ++ t2 ++ t3)
        = pre.enum.filterMap (fun p => victim H W s.procserver s.proctask p.1 p.2) := by
      simp only [terminated_append, hk1, hk2, hk3, addTrace_procserver, addTrace_proctask]
      simp [terminated, List.enum]
    refine ⟨t1 ++ [.proc_getallpids s.procserver (W.proc_getallpids s.procserver).1
      (W.proc_getallpids s.procserver).2] ++ t2 ++ t3, ?_, hterm, ?_, ?_⟩
    · unfold reboot_system
      simp only [ht1, emit_eq, addTrace_addTrace, addTrace_procserver, if_neg hall,
        Res.bind_ret]
      rw [show kill_loop H W flags 0 (W.proc_getallpids s.procserver).2 =
        kill_loop H W flags 0 (pre ++ pid :: post) from by rw [hpids]]
      rw [kill_loop_append, ht2]
      simp only [Res.bind_ret]
      rw [ht3]
      simp
    · rw [hterm]
      intro hm
      obtain ⟨p, _, hp⟩ := List.mem_filterMap.mp hm
      unfold victim at hp
      split_ifs at hp with c
      exact c.2.2.1 (Option.some.inj hp)
    · simp only [queried_append, hq1, hq2, hq3]
      simp [queried]

/-- Worked example for C13: the process registry lists the pids 3, 1 and 2 and
dies at the lookup of the third; the worker (task 30) has been terminated, the
task of the process registry (20) is not, and `reboot_mach` runs with the
flags 8. -/
theorem reboot_system_abandons_enumeration_witness :
    (dyingProcWorld.proc_getallpids busyState.procserver).1 ≠ gnuHdr.MACH_SEND_INVALID_DEST ∧
    (dyingProcWorld.proc_getallpids busyState.procserver).2 = [3, 1] ++ 2 :: [] ∧
    dead_at gnuHdr dyingProcWorld busyState.procserver busyState.proctask 2 2 ∧
    ∃ t, reboot_system gnuHdr dyingProcWorld 8 busyState
        = .exited 1 (addTrace busyState (t ++ procbad_effects gnuHdr 8)) ∧
      terminated t = [30] ∧ busyState.proctask ∉ terminated t ∧ queried t = [3, 1, 2] := by
  have hd : dead_at gnuHdr dyingProcWorld busyState.procserver busyState.proctask 2 2 :=
    Or.inl rfl
  refine ⟨by decide, rfl, hd, ?_⟩
  obtain ⟨t, h1, h2, h3, h4⟩ :=
    (reboot_system_abandons_enumeration gnuHdr dyingProcWorld 8 busyState).2 [3, 1] 2 []
      (by decide) rfl
      (by
        intro j p hj
        rcases j with _ | _ | j
        · cases hj; exact ⟨by decide, fun _ _ _ => by decide⟩
        · cases hj; exact ⟨by decide, fun _ _ _ => by decide⟩
        · cases hj)
      hd
  refine ⟨t, h1, ?_, h3, h4⟩
  rw [h2]
  decide

/-! ## The launcher `run_for_real` -/

/-- What `sameCore` says about the fields the launcher reads. -/
theorem sameCore_fields {s s1 : InitState} (c : sameCore s s1) :
    s1.procserver = s.procserver ∧ s1.default_dtable = s.default_dtable ∧
    s1.startup = s.startup ∧ s1.bootport = s.bootport ∧ s1.authserver = s.authserver := by
  have c : { s1 with default_ports := s.default_ports, errno := s.errno, stdin := s.stdin,
                     trace := s.trace } = s := c
  have f1 := congrArg InitState.procserver c
  have f2 := congrArg InitState.default_dtable c
  have f3 := congrArg InitState.startup c
  have f4 := congrArg InitState.bootport c
  have f5 := congrArg InitState.authserver c
  exact ⟨f1, f2, f3, f4, f5⟩

theorem sameCore_update (s : InitState) (ports : List Nat) (e : Int) (inp : List Char)
    (t : List Effect) :
    sameCore s { s with default_ports := ports, errno := e, stdin := inp, trace := t } := by
  cases s; simp [sameCore]

/-- The lookup loop of `run_for_real` either runs out of fuel or returns a file
that is not null: it has then gone through rounds of prompt, failed lookup and
error report, the first prompt naming the file name it started with, and
ended with the lookup that gave the file. -/
theorem run_for_real_loop_cases (W : World) (filename : List Char) :
    ∀ (fuel : Nat) (aliased : Bool) (buf : List Char) (s : InitState),
      (∃ s1 t, run_for_real_loop W filename fuel aliased buf s = .timeout s1 ∧
        s1.trace = s.trace ++ t ∧ (∀ e ∈ t, isRetry e = true) ∧
        (fuel ≠ 0 → ∃ t1,
          t = .printf "File name [%s]: " [.s (if aliased then buf else filename)] :: t1) ∧
        t.length = 3 * fuel) ∨
      (∃ name file s1 t, run_for_real_loop W filename fuel aliased buf s
          = .ret (name, file) s1 ∧ file ≠ 0 ∧
        sameCore s s1 ∧ s1.default_ports = s.default_ports ∧
        s1.trace = s.trace ++
          (.printf "File name [%s]: " [.s (if aliased then buf else filename)] :: t) ++
          [.path_lookup name file] ∧
        ∀ e ∈ t, isRetry e = true) := by
  intro fuel
  induction fuel with
  | zero => intro a b s; exact Or.inl ⟨s, [], rfl, by simp, by simp, fun h => absurd rfl h, rfl⟩
  | succ n ih =>
    intro a b s
    unfold run_for_real_loop
    lift_lets
    intro s1 g s2 a2 name file s3
    by_cases hf : file = 0
    · rw [if_pos hf]
      rcases ih a2 g.2.1 (emit s3 (.perror name)) with
        ⟨s4, t, h4, ht, hr, _, hl⟩ | ⟨nm, fl, s4, t, h4, hfl, hc, hd, ht, hr⟩
      · refine Or.inl ⟨s4, [.printf "File name [%s]: " [.s (if a then b else filename)],
          .path_lookup name file, .perror name] ++ t, h4, ?_, ?_, fun _ => ⟨_, rfl⟩, ?_⟩
        · rw [ht]; simp [s3, s2, s1]
        rotate_left
        · simp only [List.cons_append, List.nil_append, List.length_cons, hl]; omega
        · intro e he
          simp only [List.cons_append, List.nil_append, List.mem_cons] at he
          rcases he with h | h | h | h
          · rw [h]; rfl
          · rw [h]; simp [isRetry, hf]
          · rw [h]; rfl
          · exact hr e h
      · refine Or.inr ⟨nm, fl, s4, [.path_lookup name file, .perror name,
          .printf "File name [%s]: " [.s (if a2 then g.2.1 else filename)]] ++ t, h4, hfl,
          ?_, ?_, ?_, ?_⟩
        · refine sameCore_trans ?_ hc
          cases s; simp [sameCore, s3, s2, s1, addTrace]
        · rw [hd]; rfl
        · rw [ht]; simp [s3, s2, s1]
        · intro e he
          simp only [List.cons_append, List.nil_append, List.mem_cons] at he
          rcases he with h | h | h | h
          · rw [h]; simp [isRetry, hf]
          · rw [h]; rfl
          · rw [h]; rfl
          · exact hr e h
    · rw [if_neg hf]
      refine Or.inr ⟨name, file, s3, [], rfl, hf, ?_, rfl, ?_, by simp⟩
      · cases s; simp [sameCore, s3, s2, s1, addTrace]
      · simp [s3, s2, s1]

/-- The launcher `run_for_real` either runs out of fuel in its lookup loop or
returns: it has then looked the program up until a lookup gave a file, created
the task, declared it a child of the process registry, fetched its proc port
into `default_ports`, and only then started the image with the arguments and
the ports; nothing but `default_ports`, the console input and the trace has
changed. -/
theorem run_for_real_cases (H : Hdr) (W : World) (fuel : Nat) (filename args : List Char)
    (arglen : Nat) (s : InitState) :
    (∃ s1 t, run_for_real H W fuel filename args arglen s = .timeout s1 ∧
      s1.trace = s.trace ++ t ∧ (∀ e ∈ t, isRetry e = true) ∧
      (fuel ≠ 0 → ∃ t1, t = .printf "File name [%s]: " [.s (cstr filename)] :: t1) ∧
      t.length = 3 * fuel) ∨
    (∃ name file task proc err s1 t,
      run_for_real H W fuel filename args arglen s = .ret () s1 ∧ file ≠ 0 ∧
      sameCore s s1 ∧ s1.default_ports = s.default_ports.set H.INIT_PORT_PROC proc.2 ∧
      s1.trace = s.trace ++ (.printf "File name [%s]: " [.s (cstr filename)] :: t) ++
        start_effects H W s.procserver s.default_dtable s.default_ports name file task proc
          (args.take arglen) err ∧
      ∀ e ∈ t, isRetry e = true) := by
  unfold run_for_real
  rcases run_for_real_loop_cases W (cstr filename) fuel false [] s with
    ⟨s1, t, h1, ht, hr, hp⟩ | ⟨name, file, s1, t, h1, hf, hc, hd, ht, hr⟩
  · left; rw [h1]; exact ⟨s1, t, rfl, ht, hr, hp⟩
  · right
    rw [h1, Res.bind_ret]
    lift_lets
    intro task a1 a2 r a3 a4 a5 a6 e a7 a8 a9 a10
    obtain ⟨hp, hdt, _, _, _⟩ := sameCore_fields hc
    refine ⟨name, file, task, r, e, a10, t, rfl, hf, ?_, ?_, ?_, hr⟩
    · refine sameCore_trans hc ?_
      cases s1
      simp [sameCore, a10, a9, a8, a7, a6, a5, a4, a3, a2, a1, addTrace, getchar]
    · simp [a10, a9, a8, a7, a6, a5, a4, a3, a2, a1, getchar, hd]
    · simp [a10, a9, a8, a7, a6, a5, a4, a3, a2, a1, getchar, hd, ht, start_effects, hp, hdt]

/-- The launch sequence either runs out of fuel in the lookup loop of the
shell, after the effects of `launch_steps` and rounds of that loop, or in the
lookup loop of pipes, after the run of the shell and rounds of that loop, or
returns: its effects are then those of `launch_steps`, of the run of the
shell, of the run of pipes and of `finish_effects`, in this order, `errno`
holds the result of `fsys_init`, and of the globals only `default_ports`,
`errno` and the console input have changed. -/
theorem launch_system_cases (H : Hdr) (W : World) (fuel : Nat) (s : InitState) :
    (∃ s1 t, launch_system H W fuel s = .timeout s1 ∧
      s1.trace = s.trace ++ launch_steps H W s ++ t ∧ (∀ e ∈ t, isRetry e = true) ∧
      (fuel ≠ 0 → ∃ t1, t = .printf "File name [%s]: " [.s (cstr shell)] :: t1)) ∨
    (∃ (l1 : Started) (s1 : InitState) (t : List Effect),
      launch_system H W fuel s = .timeout s1 ∧ l1.file ≠ 0 ∧
      (∀ x ∈ l1.retries, isRetry x = true) ∧ (∀ e ∈ t, isRetry e = true) ∧
      s1.trace = s.trace ++ launch_steps H W s ++
        l1.effects H W s.procserver s.default_dtable
          (s.default_ports.set H.INIT_PORT_AUTH s.authserver) shell shell ++ t) ∨
    (∃ (l1 l2 : Started) (old : Nat) (err : Int) (s1 : InitState),
      launch_system H W fuel s = .ret () s1 ∧ sameCore s s1 ∧ s1.errno = err ∧
      l1.file ≠ 0 ∧ l2.file ≠ 0 ∧
      (∀ x ∈ l1.retries, isRetry x = true) ∧ (∀ x ∈ l2.retries, isRetry x = true) ∧
      s1.trace = s.trace ++ launch_steps H W s ++
        l1.effects H W s.procserver s.default_dtable
          (s.default_ports.set H.INIT_PORT_AUTH s.authserver) shell shell ++
        l2.effects H W s.procserver s.default_dtable
          ((s.default_ports.set H.INIT_PORT_AUTH s.authserver).set H.INIT_PORT_PROC l1.proc.2)
          pipes pipes ++
        finish_effects W s old err) := by
  unfold launch_system
  lift_lets
  intro s1 s2 s3 authproc s4 s5 s6 s7 s8 s9 s10 fsproc s11
  have c11 : sameCore s s11 := by
    cases s
    simp [sameCore, s11, s10, s9, s8, s7, s6, s5, s4, s3, s2, s1, addTrace]
  have t11 : s11.trace = s.trace ++ launch_steps H W s := by
    simp [s11, fsproc, s10, s9, s8, s7, s6, s5, s4, authproc, s3, s2, s1, launch_steps,
      launch_head, clock]
  have p11 : s11.default_ports = s.default_ports.set H.INIT_PORT_AUTH s.authserver := by
    simp [s11, s10, s9, s8, s7, s6, s5, s4, s3, s2, s1]
  have f11 : fsproc.2 = (W.proc_task2proc (s.trace.length + 9) s.procserver s.fstask).2 := by
    simp [fsproc, s10, s9, s8, s7, s6, s5, s4, s3, s2, s1, clock]
  obtain ⟨hps, hdt, hst, hbp, hau⟩ := sameCore_fields c11
  rcases run_for_real_cases H W fuel shell shell shell.length s11 with
    ⟨a, t, ha, hta, hra, hpa, _⟩ | ⟨n1, f1, k1, p1, e1, a, r1, ha, hf1, hca, hpa, hta, hr1⟩
  · left
    rw [ha]
    exact ⟨a, t, rfl, by rw [hta, t11], hra, hpa⟩
  · rw [ha, Res.bind_ret]
    obtain ⟨hps2, hdt2, hst2, hbp2, hau2⟩ := sameCore_fields hca
    rcases run_for_real_cases H W fuel pipes pipes pipes.length a with
      ⟨b, t, hb, htb, hrb, _⟩ | ⟨n2, f2, k2, p2, e2, b, r2, hb, hf2, hcb, hpb, htb, hr2⟩
    · right; left
      rw [hb]
      refine ⟨⟨r1, n1, f1, k1, p1, e1⟩, b, t, rfl, hf1, hr1, hrb, ?_⟩
      rw [htb, hta, t11]
      simp only [Started.effects, List.take_length, hps, hdt, p11, List.append_assoc]
    · right; right
      rw [hb, Res.bind_ret]
      obtain ⟨hps3, hdt3, hst3, hbp3, hau3⟩ := sameCore_fields hcb
      lift_lets
      intro b1 b2 old b3 b4 e b5 b6 b7
      have e4 : b4 = addTrace b3 (if old ≠ 0 then [.mach_port_deallocate old] else []) := by
        show (if old ≠ 0 then emit b3 (.mach_port_deallocate old) else b3) = _
        split_ifs <;> simp
      have e7 : b7 = addTrace b6 (if e ≠ 0 then [.perror "fsys_init".toList] else []) := by
        show (if e ≠ 0 then emit b6 (.perror "fsys_init".toList) else b6) = _
        split_ifs <;> simp
      have a3 : After b [] b3 := After.emit (After.fflush (After.printf (After.refl b) _ _)) _ rfl
      have a6 : After b [] b6 :=
        After.errno (After.emit (After.ite (After.emit a3 (.mach_port_deallocate old) rfl) a3)
          (.fsys_init b4.bootport fsproc.2 b4.authserver e) rfl) e
      have hcf : sameCore b b7 := (After.ite (After.emit a6 (.perror "fsys_init".toList) rfl) a6).1
      have hef : b7.errno = e := by
        rw [e7]; rfl
      refine ⟨⟨r1, n1, f1, k1, p1, e1⟩, ⟨r2, n2, f2, k2, p2, e2⟩, old, e, b7, rfl,
        sameCore_trans c11 (sameCore_trans hca (sameCore_trans hcb hcf)), hef, hf1, hf2,
        hr1, hr2, ?_⟩
      have hb7 : b7.trace = b.trace ++ finish_effects W s old e := by
        rw [e7]
        simp [b6, b5, e4, b3, b2, b1, finish_effects, hps3, hps2, hps, hst3, hst2, hst,
          hbp3, hbp2, hbp, hau3, hau2, hau, f11]
      rw [hb7, htb, hta, t11]
      simp only [Started.effects, List.take_length, hps2, hps, hdt2, hdt, hpa, p11,
        List.append_assoc]

/-! ## The order of the launch sequence -/

/-- The arguments executed in a trace of two parts. -/
theorem executed_append (a b : List Effect) :
    executed (a ++ b) = executed a ++ executed b := by
  simp [executed, List.filterMap_append]

/-- A round of a lookup loop that does not find the program is no call on the
process registry and does not announce the message port. -/
theorem retry_quiet {e : Effect} (h : isRetry e = true) :
    isProcCall e = false ∧ announces e = false ∧ executed [e] = [] := by
  cases e <;> simp_all [isRetry, isProcCall, announces, executed]

/-- Rounds that do not find the program start nothing. -/
theorem executed_retries {t : List Effect} (h : ∀ e ∈ t, isRetry e = true) :
    executed t = [] := by
  induction t with
  | nil => rfl
  | cons e t ih =>
    have he := (retry_quiet (h e (List.mem_cons_self e t))).2.2
    have ht := ih fun x hx => h x (List.mem_cons_of_mem e hx)
    rw [show e :: t = [e] ++ t from rfl, executed_append, he, ht]
    rfl

/-- One returning run of `run_for_real` starts one image, with the argument
blob it was given. -/
theorem Started.executed_effects (H : Hdr) (W : World) (procserver : Nat)
    (dtable ports : List Nat) (filename args : List Char) (l : Started)
    (h : ∀ x ∈ l.retries, isRetry x = true) :
    executed (l.effects H W procserver dtable ports filename args) = [args] := by
  have hr := executed_retries h
  rw [Started.effects, show ∀ (e : Effect), e :: l.retries = [e] ++ l.retries from fun _ => rfl,
    executed_append, executed_append, hr]
  rfl

/-- One returning run of `run_for_real` does not announce the message port. -/
theorem Started.effects_quiet (H : Hdr) (W : World) (procserver : Nat)
    (dtable ports : List Nat) (filename args : List Char) (l : Started)
    (h : ∀ x ∈ l.retries, isRetry x = true) :
    ∀ e ∈ l.effects H W procserver dtable ports filename args, announces e = false := by
  intro e he
  simp only [Started.effects, start_effects, List.mem_append, List.mem_cons,
    List.mem_singleton, List.not_mem_nil, or_false] at he
  rcases he with (h1 | h1) | h1
  · rw [h1]; rfl
  · exact (retry_quiet (h e h1)).2.1
  · rcases h1 with h1 | h1 | h1 | h1 | h1 | h1 | h1 | h1 | h1 <;> rw [h1] <;> rfl

/-- The steps of the launch sequence before the shell start nothing and do not
announce the message port. -/
theorem launch_steps_quiet (H : Hdr) (W : World) (s : InitState) :
    executed (launch_steps H W s) = [] ∧ ∀ e ∈ launch_steps H W s, announces e = false := by
  refine ⟨rfl, ?_⟩
  intro e he
  simp only [launch_steps, launch_head, List.mem_append, List.mem_cons,
    List.mem_singleton, List.not_mem_nil, or_false] at he
  rcases he with (h1 | h1 | h1 | h1 | h1) | h1 | h1 | h1 | h1 | h1 <;> rw [h1] <;> rfl

/-- C16: the effects of `launch_system` come in the order of the launch
sequence.  A run that returns has performed, in this order, the effects of
`launch_steps` (reply to the process registry, the two child declarations,
lookup of the auth identity and reply to the auth server, installation of the
auth and proc ports, arguments and version told to the registry, lookup of the
identity of the bootstrap filesystem), the run of the shell, the run of pipes,
the completion message, `proc_setmsgport`, and then the release of the old
port, `fsys_init` and its report.  The two images started are the shell and
pipes, both before `proc_setmsgport`, which occurs once, and no effect after
it is a call on the process registry.  A run that does not return is stuck in
the lookup loop of the shell or of pipes, before `proc_setmsgport`. -/
theorem launch_system_effect_order (H : Hdr) (W : World) (fuel : Nat) (s : InitState) :
    (∃ s1 t, launch_system H W fuel s = .timeout s1 ∧
      s1.trace = s.trace ++ launch_steps H W s ++ t ∧ (∀ e ∈ t, isRetry e = true)) ∨
    (∃ (l1 : Started) (s1 : InitState) (t : List Effect),
      launch_system H W fuel s = .timeout s1 ∧
      s1.trace = s.trace ++ launch_steps H W s ++
        l1.effects H W s.procserver s.default_dtable
          (s.default_ports.set H.INIT_PORT_AUTH s.authserver) shell shell ++ t ∧
      (∀ e ∈ t, isRetry e = true)) ∨
    (∃ (l1 l2 : Started) (old : Nat) (err : Int) (s1 : InitState) (before after : List Effect),
      launch_system H W fuel s = .ret () s1 ∧
      s1.trace = s.trace ++ before ++ .proc_setmsgport s.procserver s.startup old :: after ∧
      before = launch_steps H W s ++
        l1.effects H W s.procserver s.default_dtable
          (s.default_ports.set H.INIT_PORT_AUTH s.authserver) shell shell ++
        l2.effects H W s.procserver s.default_dtable
          ((s.default_ports.set H.INIT_PORT_AUTH s.authserver).set H.INIT_PORT_PROC l1.proc.2)
          pipes pipes ++
        [.printf "Init has completed.\n" [], .fflush] ∧
      after = (if old ≠ 0 then [.mach_port_deallocate old] else []) ++
        [.fsys_init s.bootport (W.proc_task2proc (s.trace.length + 9) s.procserver s.fstask).2
          s.authserver err] ++
        (if err ≠ 0 then [.perror "fsys_init".toList] else []) ∧
      executed before = [shell, pipes] ∧ executed after = [] ∧
      (∀ e ∈ before, announces e = false) ∧ (∀ e ∈ after, isProcCall e = false)) := by
  rcases launch_system_cases H W fuel s with
    ⟨s1, t, h, ht, hr, _⟩ | ⟨l1, s1, t, h, _, _, hr, ht⟩ |
    ⟨l1, l2, old, err, s1, h, _, _, _, _, hr1, hr2, ht⟩
  · exact Or.inl ⟨s1, t, h, ht, hr⟩
  · exact Or.inr (Or.inl ⟨l1, s1, t, h, ht, hr⟩)
  · refine Or.inr (Or.inr ⟨l1, l2, old, err, s1, _, _, h, ?_, rfl, rfl, ?_, ?_, ?_, ?_⟩)
    · rw [ht]; simp [finish_effects]
    · rw [executed_append, executed_append, executed_append, (launch_steps_quiet H W s).1,
        Started.executed_effects _ _ _ _ _ _ _ _ hr1, Started.executed_effects _ _ _ _ _ _ _ _ hr2]
      rfl
    · by_cases ho : old = 0 <;> by_cases he : err = 0 <;> simp [ho, he, executed]
    · intro e he
      simp only [List.mem_append, List.mem_cons, List.mem_singleton, List.not_mem_nil,
        or_false] at he
      rcases he with ((h1 | h1) | h1) | h1 | h1
      · exact (launch_steps_quiet H W s).2 e h1
      · exact Started.effects_quiet _ _ _ _ _ _ _ _ hr1 e h1
      · exact Started.effects_quiet _ _ _ _ _ _ _ _ hr2 e h1
      · rw [h1]; rfl
      · rw [h1]; rfl
    · by_cases ho : old = 0 <;> by_cases hz : err = 0 <;> simp [ho, hz, isProcCall]

/-- C16, an instance: in the calm world the launch sequence on the state with
both servers registered cannot be stuck with one unit of fuel: it returns, the
images started are the shell and pipes, in this order, and the trace splits at
the one announcement of the message port. -/
theorem launch_system_effect_order_witness :
    ∃ s1 before after old,
      launch_system gnuHdr calmWorld 1 (registered bootState 22 70 17 23 71 18) = .ret () s1 ∧
      s1.trace = before ++ .proc_setmsgport 22 4 old :: after ∧
      executed before = [shell, pipes] ∧ executed after = [] ∧
      (∀ e ∈ before, announces e = false) ∧ (∀ e ∈ after, isProcCall e = false) := by
  obtain ⟨x, e⟩ : ∃ x, launch_system gnuHdr calmWorld 1
      (registered bootState 22 70 17 23 71 18) = .ret () x := ⟨_, rfl⟩
  rcases launch_system_effect_order gnuHdr calmWorld 1
      (registered bootState 22 70 17 23 71 18) with
    ⟨s1, t, h, _⟩ | ⟨l1, s1, t, h, _⟩ | ⟨l1, l2, old, err, s1, b, a, h, ht, _, _, hb, ha, qb, qa⟩
  · rw [e] at h; cases h
  · rw [e] at h; cases h
  · exact ⟨s1, b, a, old, h, by simpa [registered, bootState] using ht, hb, ha, qb, qa⟩

/-- C19: for every program path and argument blob, a run of `run_for_real`
that returns has asked for the file name and looked the path up until a lookup
gave a file (the rounds before are prompts, failed lookups and error reports),
and has then, in this order, created the task, declared it a child of the
process registry, fetched its proc port into `default_ports`, and started the
image with the given arguments and that port set.  A run that does not return
has gone through as many failed rounds as it had fuel and has created and
started nothing. -/
theorem run_for_real_registers_before_exec (H : Hdr) (W : World) (fuel : Nat)
    (filename args : List Char) (arglen : Nat) (s : InitState) :
    (∃ s1 t, run_for_real H W fuel filename args arglen s = .timeout s1 ∧
      s1.trace = s.trace ++ t ∧ (∀ e ∈ t, isRetry e = true) ∧ t.length = 3 * fuel) ∨
    (∃ (name : List Char) (file task : Nat) (proc : Int × Nat) (err : Int) (s1 : InitState)
        (t : List Effect),
      run_for_real H W fuel filename args arglen s = .ret () s1 ∧ file ≠ 0 ∧
      s1.default_ports = s.default_ports.set H.INIT_PORT_PROC proc.2 ∧
      (∀ e ∈ t, isRetry e = true) ∧
      s1.trace = s.trace ++ (.printf "File name [%s]: " [.s (cstr filename)] :: t) ++
        [ .path_lookup name file,
          .task_create W.mach_task_self task,
          .proc_child s.procserver task,
          .proc_task2proc s.procserver task proc.1 proc.2,
          .printf "Pausing for %s\n" [.s name],
          .file_exec file task (args.take arglen) s.default_dtable
            (s.default_ports.set H.INIT_PORT_PROC proc.2) err,
          .mach_port_deallocate
            ((s.default_ports.set H.INIT_PORT_PROC proc.2).getD H.INIT_PORT_PROC 0),
          .mach_port_deallocate task,
          .mach_port_deallocate file ]) := by
  rcases run_for_real_cases H W fuel filename args arglen s with
    ⟨s1, t, h, ht, hr, _, hl⟩ | ⟨name, file, task, proc, err, s1, t, h, hf, _, hd, ht, hr⟩
  · exact Or.inl ⟨s1, t, h, ht, hr, hl⟩
  · exact Or.inr ⟨name, file, task, proc, err, s1, t, h, hf, hd, hr, ht⟩

/-- C19, an instance: in the calm world the shell cannot fail to resolve, so
the run returns: the task is created, declared a child of the registry 22 and
given its proc port before the image is started with the argument blob. -/
theorem run_for_real_registers_before_exec_witness :
    ∃ s1 file task proc err,
      run_for_real gnuHdr calmWorld 1 shell shell shell.length
        (registered bootState 22 70 17 23 71 18) = .ret () s1 ∧
      s1.default_ports = [7, 8, 0, proc, 4, 0] ∧
      s1.trace.drop 2 =
        [ .task_create 10 task,
          .proc_child 22 task,
          .proc_task2proc 22 task err proc,
          .printf "Pausing for %s\n" [.s "/bin/sh".toList],
          .file_exec file task shell [11, 12, 13] [7, 8, 0, proc, 4, 0] 0,
          .mach_port_deallocate proc,
          .mach_port_deallocate task,
          .mach_port_deallocate file ] := by
  obtain ⟨x, e, e1, e2⟩ : ∃ x, run_for_real gnuHdr calmWorld 1 shell shell shell.length
      (registered bootState 22 70 17 23 71 18) = .ret () x ∧
      x.default_ports = [7, 8, 0, 1062, 4, 0] ∧
      x.trace.drop 2 =
        [ .task_create 10 62,
          .proc_child 22 62,
          .proc_task2proc 22 62 0 1062,
          .printf "Pausing for %s\n" [.s "/bin/sh".toList],
          .file_exec 50 62 shell [11, 12, 13] [7, 8, 0, 1062, 4, 0] 0,
          .mach_port_deallocate 1062,
          .mach_port_deallocate 62,
          .mach_port_deallocate 50 ] := ⟨_, rfl, by decide, by decide⟩
  rcases run_for_real_registers_before_exec gnuHdr calmWorld 1 shell shell shell.length
      (registered bootState 22 70 17 23 71 18) with
    ⟨s1, t, h, _⟩ | ⟨name, file, task, proc, err, s1, t, h, _⟩
  · rw [e] at h; cases h
  · exact ⟨x, 50, 62, 1062, 0, e, e1, e2⟩

/-! ## The results of the remote calls of the launch sequence -/

/-- The lookup loop of `run_for_real` does not depend on the answers of
`fsys_init`. -/
theorem run_for_real_loop_fsys (W : World) (f : Nat → Nat → Nat → Nat → Int)
    (filename : List Char) :
    ∀ (fuel : Nat) (aliased : Bool) (buf : List Char) (s : InitState),
      run_for_real_loop { W with fsys_init := f } filename fuel aliased buf s =
        run_for_real_loop W filename fuel aliased buf s := by
  intro fuel
  induction fuel with
  | zero => intro a b s; rfl
  | succ n ih =>
    intro a b s
    rw [run_for_real_loop, run_for_real_loop]
    simp only [ih]

/-- The launcher `run_for_real` does not depend on the answers of
`fsys_init`. -/
theorem run_for_real_fsys (H : Hdr) (W : World) (f : Nat → Nat → Nat → Nat → Int) :
    run_for_real H { W with fsys_init := f } = run_for_real H W := by
  funext fuel filename args arglen s
  unfold run_for_real
  rw [run_for_real_loop_fsys]

/-- The launch sequence in two worlds that differ in the answers of
`fsys_init` only: both runs are stuck in the same lookup loop, or both reach
the last step in the same state `b` and end with it. -/
theorem launch_system_fsys (H : Hdr) (W : World) (f : Nat → Nat → Nat → Nat → Int)
    (fuel : Nat) (s : InitState) :
    (∃ b fs,
      launch_system H W fuel s
        = .ret () (fsys_step b fs (W.fsys_init (clock b) b.bootport fs b.authserver)) ∧
      launch_system H { W with fsys_init := f } fuel s
        = .ret () (fsys_step b fs (f (clock b) b.bootport fs b.authserver)) ∧
      b.bootport = s.bootport ∧ b.authserver = s.authserver) ∨
    (∃ s1, launch_system H W fuel s = .timeout s1 ∧
      launch_system H { W with fsys_init := f } fuel s = .timeout s1) := by
  unfold launch_system
  rw [run_for_real_fsys H W f]
  rw [show ({ W with fsys_init := f } : World).proc_task2proc = W.proc_task2proc from rfl,
    show ({ W with fsys_init := f } : World).mach_task_self = W.mach_task_self from rfl,
    show ({ W with fsys_init := f } : World).environ = W.environ from rfl,
    show ({ W with fsys_init := f } : World).proc_setmsgport = W.proc_setmsgport from rfl,
    show ({ W with fsys_init := f } : World).fsys_init = f from rfl]
  lift_lets
  intro s1 s2 s3 authproc s4 s5 s6 s7 s8 s9 s10 fsproc s11
  have c11 : sameCore s s11 := by
    cases s
    simp [sameCore, s11, s10, s9, s8, s7, s6, s5, s4, s3, s2, s1, addTrace]
  obtain ⟨_, _, _, hbp, hau⟩ := sameCore_fields c11
  rcases run_for_real_cases H W fuel shell shell shell.length s11 with
    ⟨a, t, ha, _⟩ | ⟨n1, f1, k1, p1, e1, a, r1, ha, hf1, hca, _⟩
  · right
    rw [ha]
    exact ⟨a, rfl, rfl⟩
  · rw [ha, Res.bind_ret, Res.bind_ret]
    obtain ⟨_, _, _, hbp2, hau2⟩ := sameCore_fields hca
    rcases run_for_real_cases H W fuel pipes pipes pipes.length a with
      ⟨b, t, hb, _⟩ | ⟨n2, f2, k2, p2, e2, b, r2, hb, hf2, hcb, _⟩
    · right
      rw [hb]
      exact ⟨b, rfl, rfl⟩
    · left
      rw [hb, Res.bind_ret, Res.bind_ret]
      obtain ⟨_, _, _, hbp3, hau3⟩ := sameCore_fields hcb
      lift_lets
      intro b1 b2 old b3 b4 e b5 b6 b7 e0 c5 c6 c7
      have a4 : After b [] b4 :=
        After.ite (After.emit (After.emit (After.fflush (After.printf (After.refl b) _ _))
          (.proc_setmsgport b2.procserver b2.startup old) rfl) (.mach_port_deallocate old) rfl)
          (After.emit (After.fflush (After.printf (After.refl b) _ _))
            (.proc_setmsgport b2.procserver b2.startup old) rfl)
      obtain ⟨_, _, _, hbp4, hau4⟩ := sameCore_fields a4.1
      refine ⟨b4, fsproc.2, ?_, ?_, by rw [hbp4, hbp3, hbp2, hbp], by rw [hau4, hau3, hau2, hau]⟩
      · show Res.ret () b7 = Res.ret () (fsys_step b4 fsproc.2 e)
        congr 1
        show (if e ≠ 0 then emit b6 (.perror "fsys_init".toList) else b6) = _
        split_ifs with he <;> simp [fsys_step, he, b6, b5, addTrace]
      · show Res.ret () c7 = Res.ret () (fsys_step b4 fsproc.2 e0)
        congr 1
        show (if e0 ≠ 0 then emit c6 (.perror "fsys_init".toList) else c6) = _
        split_ifs with he <;> simp [fsys_step, he, c6, c5, addTrace]

/-- C12, as the code has it: whatever the remote calls of the steps before the
shell answer, `launch_system` reports nothing about them and neither exits nor
crashes; it performs all of `launch_steps` and goes on to the prompt for the
shell, and it ends by returning or, out of fuel, inside a lookup loop. -/
theorem launch_system_ignores_failures (H : Hdr) (W : World) (fuel : Nat) (s : InitState) :
    reports (launch_steps H W s) = [] ∧
    (∃ t, (launch_system H W (fuel + 1) s).state.trace =
      s.trace ++ launch_steps H W s ++ .printf "File name [%s]: " [.s (cstr shell)] :: t) ∧
    ((∃ s1, launch_system H W (fuel + 1) s = .ret () s1) ∨
      (∃ s1, launch_system H W (fuel + 1) s = .timeout s1)) := by
  refine ⟨rfl, ?_⟩
  rcases launch_system_cases H W (fuel + 1) s with
    ⟨s1, t, h, ht, _, hp⟩ | ⟨l1, s1, t, h, _, _, _, ht⟩ |
    ⟨l1, l2, old, err, s1, h, _, _, _, _, _, _, ht⟩
  · obtain ⟨t1, h1⟩ := hp (Nat.succ_ne_zero fuel)
    rw [h]
    exact ⟨⟨t1, by rw [← h1]; exact ht⟩, Or.inr ⟨s1, rfl⟩⟩
  · rw [h]
    exact ⟨⟨_, by rw [Res.state, ht, Started.effects]; simp only [List.cons_append,
      List.append_assoc]; rfl⟩, Or.inr ⟨s1, rfl⟩⟩
  · rw [h]
    exact ⟨⟨_, by rw [Res.state, ht, Started.effects]; simp only [List.cons_append,
      List.append_assoc]; rfl⟩, Or.inl ⟨s1, rfl⟩⟩

/-- C12, a counterexample: when the process registry fails both lookups of a
proc port (the auth identity and the identity of the bootstrap filesystem),
`launch_system` reports nothing, does not exit and starts the shell and
pipes. -/
theorem failed_identity_lookup_not_fatal :
    ∃ s1, launch_system gnuHdr lostProcWorld 1 (registered bootState 22 70 17 23 71 18)
        = .ret () s1 ∧
      Effect.proc_task2proc 22 21 gnuHdr.MACH_SEND_INVALID_DEST 0 ∈ s1.trace ∧
      Effect.proc_task2proc 22 6 gnuHdr.MACH_SEND_INVALID_DEST 0 ∈ s1.trace ∧
      reports s1.trace = [] ∧ executed s1.trace = [shell, pipes] :=
  ⟨_, rfl, by decide, by decide, by decide, by decide⟩

/-- The launch sequence in a world `W` and in the world where `fsys_init`
succeeds: both runs are stuck in the same lookup loop, or both return, and the
state after a result `e` of `fsys_init` is the state after the success but for
`errno` and for the trace, which has `e` in its `fsys_init` effect and the
report after it when `e` is a failure. -/
theorem launch_system_fsys_states (H : Hdr) (W : World) (fuel : Nat) (s : InitState) :
    (∃ (s0 : InitState) (t : List Effect) (fs : Nat) (e : Int),
      launch_system H { W with fsys_init := fun _ _ _ _ => 0 } fuel s = .ret () s0 ∧
      s0.errno = 0 ∧ s0.trace = t ++ [.fsys_init s.bootport fs s.authserver 0] ∧
      e = W.fsys_init t.length s.bootport fs s.authserver ∧
      launch_system H W fuel s = .ret ()
        { s0 with
          errno := e,
          trace := t ++ .fsys_init s.bootport fs s.authserver e ::
            (if e ≠ 0 then [.perror "fsys_init".toList] else []) }) ∨
    (∃ s1, launch_system H { W with fsys_init := fun _ _ _ _ => 0 } fuel s = .timeout s1 ∧
      launch_system H W fuel s = .timeout s1) := by
  rcases launch_system_fsys H W (fun _ _ _ _ => 0) fuel s with
    ⟨b, fs, h1, h2, hb, hu⟩ | ⟨s1, h1, h2⟩
  · left
    rw [h1, h2]
    refine ⟨fsys_step b fs 0, b.trace, fs, W.fsys_init (clock b) b.bootport fs b.authserver,
      rfl, rfl, ?_, ?_, ?_⟩
    · simp [fsys_step, hb, hu]
    · rw [hb, hu]; rfl
    · congr 1
      cases b
      simp only [] at hb hu
      simp [fsys_step, addTrace, hb, hu]
  · right
    rw [h1, h2]
    exact ⟨s1, rfl, rfl⟩

/-- C18: the registration that triggers the launch, in a world `W` and in the
world where `fsys_init` succeeds.  Either both runs are stuck in the same
lookup loop, before `fsys_init`, or both handlers return the deferred-reply
result `MIG_NO_REPLY`, and the state after a result `e` of `fsys_init` is the
state after the success but for `errno`, which holds `e`, and the trace, which
has `e` in its `fsys_init` effect and, when `e` is a failure, the report
`perror ("fsys_init")` after it.  This holds for the registration of the
process registry after the auth server and for that of the auth server after
the process registry. -/
theorem fsys_init_failure_is_not_fatal (H : Hdr) (W : World) (fuel : Nat) (s : InitState)
    (server reply : Nat) (ty : Int) (port : Nat) :
    (s.procserver = 0 → s.authserver ≠ 0 →
      (∃ (s0 : InitState) (t : List Effect) (fs : Nat) (e : Int),
        S_startup_procinit H { W with fsys_init := fun _ _ _ _ => 0 } fuel s server reply ty port
          = .ret H.MIG_NO_REPLY s0 ∧
        s0.errno = 0 ∧ s0.trace = t ++ [.fsys_init s.bootport fs s.authserver 0] ∧
        e = W.fsys_init t.length s.bootport fs s.authserver ∧
        S_startup_procinit H W fuel s server reply ty port
          = .ret H.MIG_NO_REPLY
            { s0 with
              errno := e,
              trace := t ++ .fsys_init s.bootport fs s.authserver e ::
                (if e ≠ 0 then [.perror "fsys_init".toList] else []) }) ∨
      (∃ s1,
        S_startup_procinit H { W with fsys_init := fun _ _ _ _ => 0 } fuel s server reply ty port
          = .timeout s1 ∧
        S_startup_procinit H W fuel s server reply ty port = .timeout s1)) ∧
    (s.authserver = 0 → s.procserver ≠ 0 →
      (∃ (s0 : InitState) (t : List Effect) (fs : Nat) (e : Int),
        S_startup_authinit H { W with fsys_init := fun _ _ _ _ => 0 } fuel s server reply ty port
          = .ret H.MIG_NO_REPLY s0 ∧
        s0.errno = 0 ∧ s0.trace = t ++ [.fsys_init s.bootport fs port 0] ∧
        e = W.fsys_init t.length s.bootport fs port ∧
        S_startup_authinit H W fuel s server reply ty port
          = .ret H.MIG_NO_REPLY
            { s0 with
              errno := e,
              trace := t ++ .fsys_init s.bootport fs port e ::
                (if e ≠ 0 then [.perror "fsys_init".toList] else []) }) ∨
      (∃ s1,
        S_startup_authinit H { W with fsys_init := fun _ _ _ _ => 0 } fuel s server reply ty port
          = .timeout s1 ∧
        S_startup_authinit H W fuel s server reply ty port = .timeout s1)) := by
  constructor
  · intro hp ha
    have key := launch_system_fsys_states H W fuel
      { { s with procserver := port } with procreply := reply, procreplytype := ty }
    unfold S_startup_procinit
    simp only [hp, ha, ne_eq, not_true_eq_false, not_false_eq_true, if_true, if_false]
    rcases key with ⟨s0, t, fs, e, h0, he0, ht, he, h1⟩ | ⟨s1, h0, h1⟩
    · left
      rw [h0, h1]
      exact ⟨s0, t, fs, e, rfl, he0, ht, he, rfl⟩
    · right
      rw [h0, h1]
      exact ⟨s1, rfl, rfl⟩
  · intro ha hp
    have key := launch_system_fsys_states H W fuel
      { { s with authserver := port } with authreply := reply, authreplytype := ty }
    unfold S_startup_authinit
    simp only [hp, ha, ne_eq, not_true_eq_false, not_false_eq_true, if_true, if_false]
    rcases key with ⟨s0, t, fs, e, h0, he0, ht, he, h1⟩ | ⟨s1, h0, h1⟩
    · left
      rw [h0, h1]
      exact ⟨s0, t, fs, e, rfl, he0, ht, he, rfl⟩
    · right
      rw [h0, h1]
      exact ⟨s1, rfl, rfl⟩

/-- C18, an instance: the auth server is registered and the process registry
registers; where the bootstrap filesystem refuses its ports with `EPERM`, the
handler returns `MIG_NO_REPLY` as in the calm world, and the state is that of
the calm world but for `errno`, the result in the trace and the report. -/
theorem fsys_init_failure_is_not_fatal_witness :
    ∃ s0 t fs,
      S_startup_procinit gnuHdr calmWorld 1
          { bootState with authserver := 23, authreply := 71, authreplytype := 18 } 4 70 17 22
        = .ret gnuHdr.MIG_NO_REPLY s0 ∧
      s0.trace = t ++ [.fsys_init 5 fs 23 0] ∧
      S_startup_procinit gnuHdr deafFsWorld 1
          { bootState with authserver := 23, authreply := 71, authreplytype := 18 } 4 70 17 22
        = .ret gnuHdr.MIG_NO_REPLY
          { s0 with
            errno := gnuHdr.EPERM,
            trace := t ++ [.fsys_init 5 fs 23 gnuHdr.EPERM, .perror "fsys_init".toList] } := by
  rcases (fsys_init_failure_is_not_fatal gnuHdr deafFsWorld 1
      { bootState with authserver := 23, authreply := 71, authreplytype := 18 } 4 70 17 22).1
      rfl (by decide) with
    ⟨s0, t, fs, e, h0, _, ht, he, h1⟩ | ⟨s1, h0, _⟩
  · have he2 : e = gnuHdr.EPERM := he
    subst he2
    exact ⟨s0, t, fs, h0, ht, h1⟩
  · obtain ⟨x, ex⟩ : ∃ x, S_startup_procinit gnuHdr calmWorld 1
        { bootState with authserver := 23, authreply := 71, authreplytype := 18 } 4 70 17 22
          = .ret gnuHdr.MIG_NO_REPLY x := ⟨_, rfl⟩
    have h2 : S_startup_procinit gnuHdr calmWorld 1
        { bootState with authserver := 23, authreply := 71, authreplytype := 18 } 4 70 17 22
          = .timeout s1 := h0
    rw [ex] at h2
    cases h2

/-! ## The reply of the operator in `run` -/

/-- A bare newline on the console: `getstring` returns 1 and leaves the empty
string in the buffer. -/
theorem getstring_newline (buf : List Char) (n : Nat) (rest : List Char) (hn : 2 ≤ n) :
    getstring buf n ('\n' :: rest) = (1, [], rest) := by
  obtain ⟨m, rfl⟩ : ∃ m, n = m + 2 := ⟨n - 2, by omega⟩
  have h1 : fgets (m + 2) ('\n' :: rest) = some (['\n'], rest) := by
    simp [fgets, fgets_read]
  have h2 : cstr ['\n'] = ['\n'] := by decide
  rw [getstring, h1]
  simp only [h2]
  simp

/-- A console at its end: `getstring` returns 0. -/
theorem getstring_eof (buf : List Char) (n : Nat) : (getstring buf n []).1 = 0 := by
  by_cases h0 : n = 0 <;> by_cases h1 : n = 1 <;> simp [getstring, fgets, h0, h1, cstr]

/-- One round of the loop of `run` in which the lookup fails: the failure is
reported, the operator is asked, and the result of `getstring` decides. -/
theorem run_loop_failed_lookup (H : Hdr) (W : World) (server : List Char) (ports : List Nat)
    (task : TaskVar) (fuel : Nat) (aliased : Bool) (buf : List Char) (s : InitState)
    (hf : W.path_lookup (clock s) (if aliased then buf else server) = 0) :
    run_loop H W server ports task (fuel + 1) aliased buf s =
      if (getstring buf H.BUFSIZ s.stdin).1 ≠ 0 then
        run_loop H W server ports task fuel true (getstring buf H.BUFSIZ s.stdin).2.1
          { addTrace s
              [.path_lookup (if aliased then buf else server) 0,
               .perror (if aliased then buf else server),
               .printf "File name for server %s (or nothing to reboot): " [.s server]] with
            stdin := (getstring buf H.BUFSIZ s.stdin).2.2 }
      else
        (crash_system H W
          { addTrace s
              [.path_lookup (if aliased then buf else server) 0,
               .perror (if aliased then buf else server),
               .printf "File name for server %s (or nothing to reboot): " [.s server]] with
            stdin := (getstring buf H.BUFSIZ s.stdin).2.2 }).bind fun e _ => e.elim := by
  rw [run_loop]
  generalize (if aliased = true then buf else server) = prog at hf ⊢
  simp only [hf, MACH_PORT_NULL, if_true, Res.bind_ret, Bool.false_eq_true, if_false,
    emit_eq, printf_eq, addTrace_addTrace, addTrace_stdin, List.singleton_append,
    List.cons_append, List.nil_append]
  by_cases hg : (getstring buf H.BUFSIZ s.stdin).1 = 0
  · simp only [hg, ne_eq, not_true_eq_false, if_false]
    cases hc : crash_system H W _ with
    | ret e _ => exact e.elim
    | exited c s1 => rfl
    | hang s1 => rfl
    | fault s1 => rfl
    | timeout s1 => rfl
  · simp only [hg, ne_eq, not_false_eq_true, if_true]

/-- The bytes `fgets` takes from a line that fits. -/
theorem fgets_read_line : ∀ (l : List Char) (n : Nat) (rest : List Char),
    (∀ c ∈ l, c ≠ '\n') → l.length < n →
    fgets_read n (l ++ '\n' :: rest) = (l ++ ['\n'], rest) := by
  intro l
  induction l with
  | nil =>
    intro n rest _ hn
    obtain ⟨m, rfl⟩ : ∃ m, n = m + 1 := ⟨n - 1, by simp at hn; omega⟩
    simp [fgets_read]
  | cons c l ih =>
    intro n rest hc hn
    obtain ⟨m, rfl⟩ : ∃ m, n = m + 1 := ⟨n - 1, by simp at hn; omega⟩
    have h1 : c ≠ '\n' := hc c (List.mem_cons_self c l)
    have h2 := ih m rest (fun x hx => hc x (List.mem_cons_of_mem c hx))
      (by simp at hn; omega)
    simp [fgets_read, h1, h2]

/-- A line that fits in the buffer and has no NUL in it: `getstring` returns 1
and leaves the line without its newline in the buffer, also when that is the
empty string. -/
theorem getstring_line (buf l : List Char) (n : Nat) (rest : List Char)
    (hc : ∀ c ∈ l, c ≠ '\n' ∧ c ≠ NUL) (hn : l.length + 2 ≤ n) :
    getstring buf n (l ++ '\n' :: rest) = (1, l, rest) := by
  have h1 : fgets n (l ++ '\n' :: rest) = some (l ++ ['\n'], rest) := by
    have := fgets_read_line l (n - 1) rest (fun c h => (hc c h).1) (by omega)
    simp [fgets, this, show n ≠ 0 by omega, show n ≠ 1 by omega]
  have h2 : cstr (l ++ ['\n']) = l ++ ['\n'] := by
    rw [cstr, List.takeWhile_eq_self_iff]
    intro c h
    rcases List.mem_append.mp h with h | h
    · simpa using (hc c h).2
    · rw [List.mem_singleton.mp h]; decide
  rw [getstring, h1]
  simp only [h2]
  simp

/-- The loop of `run` at a failed lookup when the operator answers with a bare
newline: `getstring` reports a string, so the loop does not go to
`crash_system` but goes on with the empty path as the program to look up. -/
theorem run_loop_empty_line (H : Hdr) (W : World) (server : List Char) (ports : List Nat)
    (task : TaskVar) (fuel : Nat) (aliased : Bool) (buf : List Char) (s : InitState)
    (rest : List Char) (hB : 2 ≤ H.BUFSIZ)
    (hf : W.path_lookup (clock s) (if aliased then buf else server) = 0)
    (hin : s.stdin = '\n' :: rest) :
    run_loop H W server ports task (fuel + 1) aliased buf s =
      run_loop H W server ports task fuel true []
        { addTrace s
            [.path_lookup (if aliased then buf else server) 0,
             .perror (if aliased then buf else server),
             .printf "File name for server %s (or nothing to reboot): " [.s server]] with
          stdin := rest } := by
  rw [run_loop_failed_lookup H W server ports task fuel aliased buf s hf, hin,
    getstring_newline buf H.BUFSIZ rest hB]
  rfl

/-- The loop of `run` at a failed lookup when the console has no input left:
the crash sequence runs and the process exits. -/
theorem run_loop_no_input (H : Hdr) (W : World) (server : List Char) (ports : List Nat)
    (task : TaskVar) (fuel : Nat) (aliased : Bool) (buf : List Char) (s : InitState)
    (hf : W.path_lookup (clock s) (if aliased then buf else server) = 0)
    (hin : s.stdin = []) :
    ∃ s1, run_loop H W server ports task (fuel + 1) aliased buf s = .exited 1 s1 := by
  rw [run_loop_failed_lookup H W server ports task fuel aliased buf s hf, hin,
    if_neg (by simp [getstring_eof])]
  obtain ⟨s1, h1⟩ := reboot_system_exits H W (CRASH_FLAGS H)
    { addTrace s
        [.path_lookup (if aliased then buf else server) 0,
         .perror (if aliased then buf else server),
         .printf "File name for server %s (or nothing to reboot): " [.s server]] with
      stdin := (getstring buf H.BUFSIZ []).2.2 }
  exact ⟨s1, by rw [crash_system, h1]; rfl⟩

/-- The loop of `run` at a failed lookup when the operator answers with a
line: the line without its newline is the program looked up next. -/
theorem run_loop_reply (H : Hdr) (W : World) (server : List Char) (ports : List Nat)
    (task : TaskVar) (fuel : Nat) (aliased : Bool) (buf : List Char) (s : InitState)
    (l rest : List Char) (hc : ∀ c ∈ l, c ≠ '\n' ∧ c ≠ NUL)
    (hB : l.length + 2 ≤ H.BUFSIZ)
    (hf : W.path_lookup (clock s) (if aliased then buf else server) = 0)
    (hin : s.stdin = l ++ '\n' :: rest) :
    run_loop H W server ports task (fuel + 1) aliased buf s =
      run_loop H W server ports task fuel true l
        { addTrace s
            [.path_lookup (if aliased then buf else server) 0,
             .perror (if aliased then buf else server),
             .printf "File name for server %s (or nothing to reboot): " [.s server]] with
          stdin := rest } := by
  rw [run_loop_failed_lookup H W server ports task fuel aliased buf s hf, hin,
    getstring_line buf l H.BUFSIZ rest hc hB]
  rfl

/-- C14 at the failing input: the process server is not found, and the
operator answers the prompt `(or nothing to reboot)` with an empty line, then
with `/boot/proc`.  The crash sequence is not run: the empty path is looked
up next, and `run` returns with the server started from `/boot/proc`.  With
no input at all the same call does end in the crash sequence, and the sibling
`run_for_real` that gets an empty line keeps its file name. -/
theorem run_empty_line_is_no_crash :
    (∃ s1, run gnuHdr spareDiskWorld 3 "/hurd/proc".toList [7, 8, 0, 0, 4, 0] .proctask
        { bootState with stdin := "\n/boot/proc\n\n".toList } = .ret () s1 ∧
      lookups s1.trace = ["/hurd/proc".toList, [], "/boot/proc".toList] ∧
      terminated s1.trace = [] ∧
      s1.trace.getLast? = some .fflush) ∧
    (∃ s1, run gnuHdr spareDiskWorld 3 "/hurd/proc".toList [7, 8, 0, 0, 4, 0] .proctask
        bootState = .exited 1 s1 ∧
      lookups s1.trace = ["/hurd/proc".toList]) ∧
    (∃ s1, run_for_real gnuHdr calmWorld 1 shell shell shell.length
        { bootState with stdin := "\n".toList } = .ret () s1 ∧
      lookups s1.trace = ["/bin/sh".toList]) :=
  ⟨⟨_, rfl, by decide, by decide, by decide⟩, ⟨_, rfl, by decide⟩, ⟨_, rfl, by decide⟩⟩

/-! ## file_set_translator: the exclusive passive bit -/

@[simp] theorem FsNode.emit_trace (np : FsNode) (e : FsEffect) :
    (np.emit e).trace = np.trace ++ [e] := rfl

@[simp] theorem FsNode.emit_st_mode (np : FsNode) (e : FsEffect) :
    (np.emit e).st_mode = np.st_mode := rfl

@[simp] theorem FsNode.emit_st_rdev (np : FsNode) (e : FsEffect) :
    (np.emit e).st_rdev = np.st_rdev := rfl

/-- The passive translator handed in passes the tests of lines 46 and 47 when
it is null or ends in a NUL. -/
theorem passive_wellformed (passive : Option (List Char))
    (h : passive = none ∨ ∃ p, passive = some (p ++ [NUL])) :
    passive ≠ some [] ∧
    ¬ ((passive.getD []).getLast? ≠ none ∧ (passive.getD []).getLast? ≠ some NUL) := by
  rcases h with rfl | ⟨p, rfl⟩
  · simp
  · simp

/-- With the exclusive passive bit on a node that has a passive translator,
the part of the call from line 85 on returns `EBUSY` at once. -/
theorem set_translators_busy (H : FsHdr) (W : FsWorld) (passive_flags active_flags : Nat)
    (passive : Option (List Char)) (active : Nat) (np : FsNode)
    (hps : passive_flags &&& H.FS_TRANS_SET ≠ 0) (hpe : passive_flags &&& H.FS_TRANS_EXCL ≠ 0)
    (hpt : np.st_mode &&& H.S_IPTRANS ≠ 0) :
    set_translators H W passive_flags active_flags passive active np
      = .ret H.EBUSY (np.emit .mutex_unlock) := by
  unfold set_translators
  rw [if_pos ⟨hps, hpe, hpt⟩]

/-- C20, the divergence: a passive translator is set with the exclusive flag
on a node that has one, and an active translator is set without the exclusive
and the orphan flag on a node whose active translator has the control port
`control`.  The go-away request is sent to the active translator before the
exclusive passive bit is looked at: the call returns `EBUSY` only after it,
with the old active translator told to go away, and it returns the error of
the go-away request instead when that is another one than a dead server. -/
theorem goaway_precedes_exclusive_check (H : FsHdr) (W : FsWorld) (cred : protid)
    (passive_flags active_flags killtrans_flags : Nat) (passive : Option (List Char))
    (active : Nat) (np : FsNode) (control : Nat)
    (hps : passive_flags &&& H.FS_TRANS_SET ≠ 0) (hpe : passive_flags &&& H.FS_TRANS_EXCL ≠ 0)
    (hpt : np.st_mode &&& H.S_IPTRANS ≠ 0)
    (hro : W.diskfs_check_readonly = false)
    (hpas : passive = none ∨ ∃ p, passive = some (p ++ [NUL]))
    (how : W.fshelp_isowner cred.user = 0)
    (has : active_flags &&& H.FS_TRANS_SET ≠ 0) (hao : active_flags &&& H.FS_TRANS_ORPHAN = 0)
    (hae : active_flags &&& H.FS_TRANS_EXCL = 0)
    (hfc : W.fshelp_fetch_control (np.trace.length + 1) = (0, control)) (hc : control ≠ 0) :
    diskfs_S_file_set_translator H W (some cred) passive_flags active_flags killtrans_flags
        passive active np =
      if W.fsys_goaway (np.trace.length + 3) control killtrans_flags ≠ 0 ∧
          W.fsys_goaway (np.trace.length + 3) control killtrans_flags ≠ H.MIG_SERVER_DIED ∧
          W.fsys_goaway (np.trace.length + 3) control killtrans_flags
            ≠ H.MACH_SEND_INVALID_DEST then
        .ret (W.fsys_goaway (np.trace.length + 3) control killtrans_flags)
          { np with
            trace := np.trace ++
              [.mutex_lock, .fshelp_fetch_control 0 control, .mutex_unlock,
               .fsys_goaway control killtrans_flags
                 (W.fsys_goaway (np.trace.length + 3) control killtrans_flags),
               .mach_port_deallocate control] }
      else
        .ret H.EBUSY
          { np with
            trace := np.trace ++
              [.mutex_lock, .fshelp_fetch_control 0 control, .mutex_unlock,
               .fsys_goaway control killtrans_flags
                 (W.fsys_goaway (np.trace.length + 3) control killtrans_flags),
               .mach_port_deallocate control, .mutex_lock, .mutex_unlock] } := by
  obtain ⟨hp1, hp2⟩ := passive_wellformed passive hpas
  unfold diskfs_S_file_set_translator
  simp only [hps, false_and, if_false, hro, Bool.false_eq_true, and_false, hp1, hp2, how,
    ne_eq, not_true_eq_false, has, not_false_eq_true, hao, and_self, if_true,
    FsNode.clock, FsNode.emit_trace, List.length_append, List.length_singleton, hfc, hc, hae]
  split_ifs with h
  · simp [FsNode.emit]
  · rw [set_translators_busy H W _ _ _ _ _ hps hpe (by simpa using hpt)]
    simp [FsNode.emit]

/-- C20 at the failing input: on a writable filesystem the owner sets a
passive translator with `FS_TRANS_SET | FS_TRANS_EXCL` and an active one with
`FS_TRANS_SET` on a file that has a passive translator and an active one with
the control port 77.  The call returns `EBUSY`, and the active translator has
been sent the go-away request. -/
theorem goaway_precedes_exclusive_check_witness :
    diskfs_S_file_set_translator gnuFsHdr calmFsWorld (some { user := 1 }) 6 4 0
        (some ("/hurd/hello".toList ++ [NUL])) 88 translatedNode =
      .ret gnuFsHdr.EBUSY
        { translatedNode with
          trace := [.mutex_lock, .fshelp_fetch_control 0 77, .mutex_unlock,
            .fsys_goaway 77 0 0, .mach_port_deallocate 77, .mutex_lock, .mutex_unlock] } :=
  (goaway_precedes_exclusive_check gnuFsHdr calmFsWorld { user := 1 } 6 4 0
    (some ("/hurd/hello".toList ++ [NUL])) 88 translatedNode 77
    (by decide) (by decide) (by decide) rfl (Or.inr ⟨_, rfl⟩) rfl
    (by decide) (by decide) (by decide) rfl (by decide)).trans (by decide)

/-- At the input of C20 with an active translator that refuses to go away, the
call does not return `EBUSY`: it returns the error of the go-away request.
With `FS_TRANS_EXCL` among the active flags no go-away request is sent and the
call returns `EBUSY`. -/
theorem exclusive_check_examples :
    diskfs_S_file_set_translator gnuFsHdr stubbornFsWorld (some { user := 1 }) 6 4 0
        (some ("/hurd/hello".toList ++ [NUL])) 88 translatedNode =
      .ret (gnuFsHdr.EBUSY + 1)
        { translatedNode with
          trace := [.mutex_lock, .fshelp_fetch_control 0 77, .mutex_unlock,
            .fsys_goaway 77 0 (gnuFsHdr.EBUSY + 1), .mach_port_deallocate 77] } ∧
    diskfs_S_file_set_translator gnuFsHdr calmFsWorld (some { user := 1 }) 6 6 0
        (some ("/hurd/hello".toList ++ [NUL])) 88 translatedNode =
      .ret gnuFsHdr.EBUSY
        { translatedNode with
          trace := [.mutex_lock, .fshelp_fetch_control 0 77, .mach_port_deallocate 77,
            .mutex_unlock] } :=
  ⟨by decide, by decide⟩

/-- The part of C20 that holds: when no go-away request is due (no active
translator is set, or it is set as an orphan, or the node has no active
translator, or the active one is set exclusively), the owner's call on a
writable filesystem returns `EBUSY`, the mode and the device number of the
node are unchanged, and no call has dismissed or set a translator. -/
theorem exclusive_passive_busy (H : FsHdr) (W : FsWorld) (cred : protid)
    (passive_flags active_flags killtrans_flags : Nat) (passive : Option (List Char))
    (active : Nat) (np : FsNode)
    (hps : passive_flags &&& H.FS_TRANS_SET ≠ 0) (hpe : passive_flags &&& H.FS_TRANS_EXCL ≠ 0)
    (hpt : np.st_mode &&& H.S_IPTRANS ≠ 0)
    (hro : W.diskfs_check_readonly = false)
    (hpas : passive = none ∨ ∃ p, passive = some (p ++ [NUL]))
    (how : W.fshelp_isowner cred.user = 0)
    (hno : active_flags &&& H.FS_TRANS_SET = 0 ∨ active_flags &&& H.FS_TRANS_ORPHAN ≠ 0 ∨
      ((W.fshelp_fetch_control (np.trace.length + 1)).1 = 0 ∧
        ((W.fshelp_fetch_control (np.trace.length + 1)).2 = 0 ∨
          active_flags &&& H.FS_TRANS_EXCL ≠ 0))) :
    ∃ np1, diskfs_S_file_set_translator H W (some cred) passive_flags active_flags
        killtrans_flags passive active np = .ret H.EBUSY np1 ∧
      np1.st_mode = np.st_mode ∧ np1.st_rdev = np.st_rdev ∧
      translator_calls np1.trace = translator_calls np.trace := by
  obtain ⟨hp1, hp2⟩ := passive_wellformed passive hpas
  unfold diskfs_S_file_set_translator
  simp only [hps, false_and, if_false, hro, Bool.false_eq_true, and_false, hp1, hp2, how,
    ne_eq, not_true_eq_false, FsNode.clock, FsNode.emit_trace, List.length_append,
    List.length_singleton]
  by_cases h1 : ¬ active_flags &&& H.FS_TRANS_SET = 0 ∧ active_flags &&& H.FS_TRANS_ORPHAN = 0
  · rw [if_pos h1]
    have h2 : (W.fshelp_fetch_control (np.trace.length + 1)).1 = 0 ∧
        ((W.fshelp_fetch_control (np.trace.length + 1)).2 = 0 ∨
          active_flags &&& H.FS_TRANS_EXCL ≠ 0) := by
      rcases hno with h | h | h
      · exact absurd h h1.1
      · exact absurd h1.2 h
      · exact h
    simp only [h2.1, not_true_eq_false, if_false]
    by_cases h3 : (W.fshelp_fetch_control (np.trace.length + 1)).2 = 0
    · simp only [h3, not_true_eq_false, false_and, if_false]
      rw [set_translators_busy H W _ _ _ _ _ hps hpe (by simpa using hpt)]
      exact ⟨_, rfl, rfl, rfl, by simp [translator_calls, List.filter_append]⟩
    · have h4 : ¬ active_flags &&& H.FS_TRANS_EXCL = 0 := by
        rcases h2.2 with h | h
        · exact absurd h h3
        · exact h
      simp only [h3, h4, not_false_eq_true, and_false, if_false, if_true]
      rw [set_translators_busy H W _ _ _ _ _ hps hpe (by simpa using hpt)]
      exact ⟨_, rfl, rfl, rfl, by simp [translator_calls, List.filter_append]⟩
  · rw [if_neg h1]
    rw [set_translators_busy H W _ _ _ _ _ hps hpe (by simpa using hpt)]
    exact ⟨_, rfl, rfl, rfl, by simp [translator_calls, List.filter_append]⟩

/-! ## file_set_translator: the device number of a short-circuited device -/

/-- The C string at the start of bytes that go on with a NUL. -/
theorem cstr_append_nul (name rest : List Char) (h : ∀ c ∈ name, c ≠ NUL) :
    cstr (name ++ NUL :: rest) = name := by
  induction name with
  | nil => simp [cstr]
  | cons c l ih =>
    have hc : c ≠ NUL := h c (List.mem_cons_self c l)
    have hl := ih fun x hx => h x (List.mem_cons_of_mem c hx)
    show List.takeWhile (fun c => c ≠ NUL) (c :: (l ++ NUL :: rest)) = c :: l
    rw [List.takeWhile_cons_of_pos (by simpa using hc)]
    exact congrArg (c :: ·) hl

/-- The bytes after a string and its NUL. -/
theorem drop_past_nul (name rest : List Char) :
    (name ++ NUL :: rest).drop (name.length + 1) = rest := by
  induction name with
  | nil => rfl
  | cons c l ih => simp

/-- A call by the owner on a writable filesystem that sets only a passive
translator, without the exclusive and the force flag, and whose translator is
a short-circuited one with the mode `m`, comes to the block `if (newmode)`
with the node locked. -/
theorem file_set_translator_shortcut (H : FsHdr) (W : FsWorld) (cred : protid)
    (passive_flags active_flags killtrans_flags : Nat) (p : List Char) (active : Nat)
    (np : FsNode) (m : Nat)
    (hps : passive_flags &&& H.FS_TRANS_SET ≠ 0) (hpe : passive_flags &&& H.FS_TRANS_EXCL = 0)
    (hpf : passive_flags &&& H.FS_TRANS_FORCE = 0) (has : active_flags &&& H.FS_TRANS_SET = 0)
    (hro : W.diskfs_check_readonly = false) (how : W.fshelp_isowner cred.user = 0)
    (hp : p.getLast? = some NUL)
    (hm : shortcut_mode H W (some p) = some m) (hm0 : m ≠ 0) :
    diskfs_S_file_set_translator H W (some cred) passive_flags active_flags killtrans_flags
        (some p) active np = set_shortcut H W p m (np.emit .mutex_lock) := by
  have hp1 : p ≠ [] := by
    intro h; rw [h] at hp; cases hp
  obtain ⟨k, rfl⟩ : ∃ k, m = k + 1 := ⟨m - 1, by omega⟩
  unfold diskfs_S_file_set_translator
  simp only [hps, false_and, if_false, hro, Bool.false_eq_true, and_false, Option.some.injEq,
    hp1, Option.getD_some, hp, ne_eq, not_true_eq_false, how, has, not_false_eq_true]
  unfold set_translators
  simp only [hps, hpe, ne_eq, not_true_eq_false, false_and, and_false, if_false, has,
    not_false_eq_true, if_true, hpf, hm]

/-- The device number block on a translator string that ends after the name:
the major number is missing and the result is `EINVAL`. -/
theorem set_device_number_no_major (H : FsHdr) (W : FsWorld) (name : List Char) (np : FsNode)
    (hname : ∀ c ∈ name, c ≠ NUL) :
    set_device_number H W (name ++ [NUL]) np = .inr (.ret H.EINVAL (np.emit .mutex_unlock)) := by
  unfold set_device_number
  simp [cstr_append_nul name [] hname]

/-- The device number block on a translator string that ends after the major
number: the second `assert` fails. -/
theorem set_device_number_no_minor (H : FsHdr) (W : FsWorld) (name major : List Char)
    (np : FsNode) (hname : ∀ c ∈ name, c ≠ NUL) (hmajor : ∀ c ∈ major, c ≠ NUL) :
    set_device_number H W (name ++ NUL :: (major ++ [NUL])) np = .inr (.assert_failed np) := by
  unfold set_device_number
  simp only [cstr_append_nul name (major ++ [NUL]) hname, drop_past_nul,
    cstr_append_nul major [] hmajor]
  simp
  omega

/-- The device number block on a translator string with both numbers: the
device number made of them is validated and stored. -/
theorem set_device_number_both (H : FsHdr) (W : FsWorld) (name major rest : List Char)
    (np : FsNode) (hname : ∀ c ∈ name, c ≠ NUL) (hmajor : ∀ c ∈ major, c ≠ NUL)
    (hrest : rest ≠ []) :
    set_device_number H W (name ++ NUL :: (major ++ NUL :: rest)) np =
      if W.diskfs_validate_rdev_change np.clock
          (W.makedev (W.strtol major) (W.strtol (cstr rest))) ≠ 0 then
        .inr (.ret (W.diskfs_validate_rdev_change np.clock
            (W.makedev (W.strtol major) (W.strtol (cstr rest))))
          ((np.emit (.diskfs_validate_rdev_change
            (W.makedev (W.strtol major) (W.strtol (cstr rest)))
            (W.diskfs_validate_rdev_change np.clock
              (W.makedev (W.strtol major) (W.strtol (cstr rest)))))).emit .mutex_unlock))
      else
        .inl { np.emit (.diskfs_validate_rdev_change
            (W.makedev (W.strtol major) (W.strtol (cstr rest)))
            (W.diskfs_validate_rdev_change np.clock
              (W.makedev (W.strtol major) (W.strtol (cstr rest))))) with
          st_rdev := W.makedev (W.strtol major) (W.strtol (cstr rest)) } := by
  have hl : 0 < rest.length := List.length_pos.mpr hrest
  have h2 : (name ++ NUL :: (major ++ NUL :: rest)).drop (name.length + 1 + major.length + 1)
      = rest := by
    rw [show name.length + 1 + major.length + 1 = (name.length + 1) + (major.length + 1) by
      omega, ← List.drop_drop, drop_past_nul, drop_past_nul]
  unfold set_device_number
  simp only [cstr_append_nul name (major ++ NUL :: rest) hname, drop_past_nul,
    cstr_append_nul major rest hmajor, h2]
  rw [if_neg (by simp), if_neg (by simp), if_neg (by simp; omega), if_neg (by simp; omega)]

/-- C21, the divergence: the owner sets, on a writable filesystem, the passive
translator of a node that is not a directory to a short-circuited character
or block device, and the translator string ends after the major number.  The
second `assert (arg < passive + passivelen)` of the argument parsing fails:
the call does not return `EINVAL`, the server aborts with the node locked. -/
theorem missing_minor_fails_assertion (H : FsHdr) (W : FsWorld) (cred : protid)
    (passive_flags active_flags killtrans_flags : Nat) (name major : List Char)
    (active : Nat) (np : FsNode) (m : Nat)
    (hps : passive_flags &&& H.FS_TRANS_SET ≠ 0) (hpe : passive_flags &&& H.FS_TRANS_EXCL = 0)
    (hpf : passive_flags &&& H.FS_TRANS_FORCE = 0) (has : active_flags &&& H.FS_TRANS_SET = 0)
    (hro : W.diskfs_check_readonly = false) (how : W.fshelp_isowner cred.user = 0)
    (hname : ∀ c ∈ name, c ≠ NUL) (hmajor : ∀ c ∈ major, c ≠ NUL)
    (hm : shortcut_mode H W (some (name ++ NUL :: (major ++ [NUL]))) = some m) (hm0 : m ≠ 0)
    (hdev : m = H.S_IFBLK ∨ m = H.S_IFCHR) (hdir : S_ISDIR H np.st_mode = false) :
    diskfs_S_file_set_translator H W (some cred) passive_flags active_flags killtrans_flags
        (some (name ++ NUL :: (major ++ [NUL]))) active np
      = .assert_failed (np.emit .mutex_lock) := by
  rw [file_set_translator_shortcut H W cred passive_flags active_flags killtrans_flags _
    active np m hps hpe hpf has hro how
    (by rw [show name ++ NUL :: (major ++ [NUL]) = (name ++ NUL :: major) ++ [NUL] by simp,
      List.getLast?_append]; rfl) hm hm0]
  unfold set_shortcut
  rw [if_neg (by simpa using hdir)]
  simp only [hdev, if_true, set_device_number_no_minor H W name major _ hname hmajor]

/-- C21 at the failing input: the passive translator `/hurd/chrdev` with the
major number 5 and no minor number is set on a regular file; an assertion
fails. -/
theorem missing_minor_fails_assertion_witness :
    diskfs_S_file_set_translator gnuFsHdr calmFsWorld (some { user := 1 }) 4 0 0
        (some ("/hurd/chrdev".toList ++ NUL :: ("5".toList ++ [NUL]))) 0
        { st_mode := 0o100644, st_rdev := 0, trace := [] }
      = .assert_failed { st_mode := 0o100644, st_rdev := 0, trace := [.mutex_lock] } :=
  missing_minor_fails_assertion gnuFsHdr calmFsWorld { user := 1 } 4 0 0
    "/hurd/chrdev".toList "5".toList 0 { st_mode := 0o100644, st_rdev := 0, trace := [] }
    gnuFsHdr.S_IFCHR (by decide) (by decide) (by decide) (by decide) rfl rfl
    (by decide) (by decide) (by decide) (by decide) (Or.inr rfl) (by decide)

/-- The part of C21 about a missing major number: the call returns `EINVAL`,
and the mode and the device number of the node are unchanged. -/
theorem missing_major_is_invalid (H : FsHdr) (W : FsWorld) (cred : protid)
    (passive_flags active_flags killtrans_flags : Nat) (name : List Char)
    (active : Nat) (np : FsNode) (m : Nat)
    (hps : passive_flags &&& H.FS_TRANS_SET ≠ 0) (hpe : passive_flags &&& H.FS_TRANS_EXCL = 0)
    (hpf : passive_flags &&& H.FS_TRANS_FORCE = 0) (has : active_flags &&& H.FS_TRANS_SET = 0)
    (hro : W.diskfs_check_readonly = false) (how : W.fshelp_isowner cred.user = 0)
    (hname : ∀ c ∈ name, c ≠ NUL)
    (hm : shortcut_mode H W (some (name ++ [NUL])) = some m) (hm0 : m ≠ 0)
    (hdev : m = H.S_IFBLK ∨ m = H.S_IFCHR) (hdir : S_ISDIR H np.st_mode = false) :
    diskfs_S_file_set_translator H W (some cred) passive_flags active_flags killtrans_flags
        (some (name ++ [NUL])) active np
      = .ret H.EINVAL { np with trace := np.trace ++ [.mutex_lock, .mutex_unlock] } := by
  rw [file_set_translator_shortcut H W cred passive_flags active_flags killtrans_flags _
    active np m hps hpe hpf has hro how (by simp) hm hm0]
  unfold set_shortcut
  rw [if_neg (by simpa using hdir)]
  simp only [hdev, if_true, set_device_number_no_major H W name _ hname]
  simp [FsNode.emit]

/-- The part of C21 about a translator string with both numbers, the second
followed by a NUL: when the device number made of the two parsed values is
accepted, it is the device number of the node afterwards; the mode is the new
one when the mode change is accepted and the old one otherwise. -/
theorem device_number_is_stored (H : FsHdr) (W : FsWorld) (cred : protid)
    (passive_flags active_flags killtrans_flags : Nat) (name major minor : List Char)
    (active : Nat) (np : FsNode) (m : Nat)
    (hps : passive_flags &&& H.FS_TRANS_SET ≠ 0) (hpe : passive_flags &&& H.FS_TRANS_EXCL = 0)
    (hpf : passive_flags &&& H.FS_TRANS_FORCE = 0) (has : active_flags &&& H.FS_TRANS_SET = 0)
    (hro : W.diskfs_check_readonly = false) (how : W.fshelp_isowner cred.user = 0)
    (hname : ∀ c ∈ name, c ≠ NUL) (hmajor : ∀ c ∈ major, c ≠ NUL)
    (hminor : ∀ c ∈ minor, c ≠ NUL)
    (hm : shortcut_mode H W (some (name ++ NUL :: (major ++ NUL :: (minor ++ [NUL]))))
      = some m) (hm0 : m ≠ 0)
    (hdev : m = H.S_IFBLK ∨ m = H.S_IFCHR) (hlnk : m ≠ H.S_IFLNK)
    (hdir : S_ISDIR H np.st_mode = false)
    (hok : W.diskfs_validate_rdev_change (np.trace.length + 1)
      (W.makedev (W.strtol major) (W.strtol minor)) = 0) :
    ∃ err np1,
      diskfs_S_file_set_translator H W (some cred) passive_flags active_flags killtrans_flags
        (some (name ++ NUL :: (major ++ NUL :: (minor ++ [NUL])))) active np = .ret err np1 ∧
      np1.st_rdev = W.makedev (W.strtol major) (W.strtol minor) ∧
      (err = 0 →
        np1.st_mode = (np.st_mode &&& (2 ^ 32 - 1 - H.S_IFMT % 2 ^ 32)) ||| m) ∧
      (err ≠ 0 → np1.st_mode = np.st_mode) := by
  rw [file_set_translator_shortcut H W cred passive_flags active_flags killtrans_flags _
    active np m hps hpe hpf has hro how
    (by rw [show name ++ NUL :: (major ++ NUL :: (minor ++ [NUL]))
        = (name ++ NUL :: (major ++ NUL :: minor)) ++ [NUL] by simp,
      List.getLast?_append]; rfl) hm hm0]
  unfold set_shortcut
  rw [if_neg (by simpa using hdir)]
  simp only [hdev, if_true,
    set_device_number_both H W name major (minor ++ [NUL]) _ hname hmajor (by simp),
    cstr_append_nul minor [] hminor, FsNode.clock, FsNode.emit_trace, List.length_append,
    List.length_singleton, hok, ne_eq, not_true_eq_false, if_false, hlnk]
  refine ⟨_, _, rfl, ?_, ?_, ?_⟩
  · split_ifs <;> rfl
  · intro h
    rw [if_pos h]; rfl
  · intro h
    rw [if_neg h]; rfl

/-- Examples for C21: `/hurd/chrdev` without arguments gives `EINVAL` and
leaves the node as it was but for the lock calls; `/hurd/blkdev` with the
numbers 5 and 7 makes the node a block device with the device number
`makedev (5, 7)`. -/
theorem device_number_examples :
    diskfs_S_file_set_translator gnuFsHdr calmFsWorld (some { user := 1 }) 4 0 0
        (some ("/hurd/chrdev".toList ++ [NUL])) 0
        { st_mode := 0o100644, st_rdev := 0, trace := [] }
      = .ret gnuFsHdr.EINVAL
        { st_mode := 0o100644, st_rdev := 0, trace := [.mutex_lock, .mutex_unlock] } ∧
    diskfs_S_file_set_translator gnuFsHdr calmFsWorld (some { user := 1 }) 4 0 0
        (some ("/hurd/blkdev".toList ++ NUL :: ("5".toList ++ NUL :: ("7".toList ++ [NUL])))) 0
        { st_mode := 0o100644, st_rdev := 0, trace := [] }
      = .ret 0
        { st_mode := 0o60644, st_rdev := 1287,
          trace := [.mutex_lock, .diskfs_validate_rdev_change 1287 0, .diskfs_truncate 0,
            .diskfs_validate_mode_change 0o60644 0, .diskfs_node_update 1, .mutex_unlock] } :=
  ⟨by decide, by decide⟩

/-! ## io_rdwr: the copy loop -/

/-- A value in the range of `int` is stored as it is. -/
theorem int32_id (x : Int) (h0 : -2147483648 ≤ x) (h1 : x < 2147483648) : int32 x = x := by
  unfold int32; omega

/-- A value in the unsigned 32-bit range is stored as it is. -/
theorem uint32_id (x : Int) (h0 : 0 ≤ x) (h1 : x < 4294967296) : uint32 x = x := by
  unfold uint32; omega

@[simp] theorem RwNode.emit_appends (np : RwNode) (e : RwEffect) :
    (np.emit e).trace = np.trace ++ [e] := rfl

/-- The copy loop when eight pages fit in an `int`, `trunc_page` gives a place
below its argument and less than a page away, the access ends within the range
of `int`, `vm_map` succeeds and no memory fault occurs: with more fuel than
bytes the loop ends and the function returns 0, and the rounds gone through
split the access, each of them inside its window. -/
theorem io_rdwr_loop_chunks (H : RwHdr) (W : RwWorld) (memobj : Nat) (dir : Int)
    (hP : 0 < H.vm_page_size) (hW : 8 * H.vm_page_size < 2147483648)
    (htr : ∀ x, 0 ≤ x → x < 2147483648 →
      0 ≤ H.trunc_page x ∧ H.trunc_page x ≤ x ∧ x - H.trunc_page x < H.vm_page_size)
    (hf : ∀ k, W.catch_exception k = 0) (hm : ∀ k, (W.vm_map k).1 = 0) :
    ∀ (fuel : Nat) (data offset amt : Int) (np : RwNode),
      0 ≤ offset → 0 ≤ amt → offset + amt < 2147483648 → amt < fuel →
      ∃ cs : List Copy,
        io_rdwr_loop H W memobj dir fuel data offset amt np =
          .ret 0 { np with
            trace := np.trace ++ cs.flatMap (Copy.effects H memobj dir) ++
              [.mach_port_deallocate memobj] } ∧
        chunked data offset amt cs ∧
        (cs.map Copy.cc).sum = amt ∧
        ∀ c ∈ cs, c.winoff = H.trunc_page c.offset ∧ 0 ≤ c.offset - c.winoff ∧
          c.offset - c.winoff + c.cc ≤ 8 * H.vm_page_size := by
  intro fuel
  induction fuel with
  | zero =>
    intro data offset amt np _ ha _ hfu
    simp at hfu
    omega
  | succ n ih =>
    intro data offset amt np ho ha hb hfu
    rw [io_rdwr_loop]
    by_cases h0 : amt > 0
    · obtain ⟨ht0, ht1, ht2⟩ := htr offset ho (by omega)
      have e1 : int32 (H.trunc_page offset) = H.trunc_page offset :=
        int32_id _ (by omega) (by omega)
      have e2 : int32 (offset - H.trunc_page offset) = offset - H.trunc_page offset :=
        int32_id _ (by omega) (by omega)
      have e3 : int32 (offset - H.trunc_page offset + amt)
          = offset - H.trunc_page offset + amt := int32_id _ (by omega) (by omega)
      have e4 : uint32 (offset - H.trunc_page offset + amt)
          = offset - H.trunc_page offset + amt := uint32_id _ (by omega) (by omega)
      have e5 : uint32 (8 * H.vm_page_size) = 8 * H.vm_page_size :=
        uint32_id _ (by omega) (by omega)
      have e6 : uint32 (offset - H.trunc_page offset) = offset - H.trunc_page offset :=
        uint32_id _ (by omega) (by omega)
      have e7 : uint32 (8 * H.vm_page_size - (offset - H.trunc_page offset))
          = 8 * H.vm_page_size - (offset - H.trunc_page offset) :=
        uint32_id _ (by omega) (by omega)
      have e8 : int32 (8 * H.vm_page_size - (offset - H.trunc_page offset))
          = 8 * H.vm_page_size - (offset - H.trunc_page offset) :=
        int32_id _ (by omega) (by omega)
      simp only [h0, if_true, hm, hf, ne_eq, not_true_eq_false, if_false, e1, e2, e3, e4, e5,
        e6, e7, e8]
      by_cases hlong : offset - H.trunc_page offset + amt > 8 * H.vm_page_size
      · simp only [hlong, if_true]
        have e9 : int32 (offset + (8 * H.vm_page_size - (offset - H.trunc_page offset)))
            = offset + (8 * H.vm_page_size - (offset - H.trunc_page offset)) :=
          int32_id _ (by omega) (by omega)
        have e10 : int32 (amt - (8 * H.vm_page_size - (offset - H.trunc_page offset)))
            = amt - (8 * H.vm_page_size - (offset - H.trunc_page offset)) :=
          int32_id _ (by omega) (by omega)
        rw [e9, e10]
        obtain ⟨cs, hr, hc, hs, hw⟩ := ih
          (data + (8 * H.vm_page_size - (offset - H.trunc_page offset)))
          (offset + (8 * H.vm_page_size - (offset - H.trunc_page offset)))
          (amt - (8 * H.vm_page_size - (offset - H.trunc_page offset)))
          ((((((((np.emit (.vm_map (8 * H.vm_page_size) memobj (H.trunc_page offset) 0
            (W.vm_map np.clock).2)).emit
            (.register_memory_fault_area (H.trunc_page offset) (W.vm_map np.clock).2
              (8 * H.vm_page_size))).emit (.catch_exception 0)).emit
            (.bcopy (dir ≠ 0) data (W.vm_map np.clock).2 (offset - H.trunc_page offset)
              (8 * H.vm_page_size - (offset - H.trunc_page offset)))).emit
            .end_catch_exception).emit
            (.vm_deallocate (W.vm_map np.clock).2 (8 * H.vm_page_size))).emit
            (.unregister_memory_fault_area (W.vm_map np.clock).2 (8 * H.vm_page_size))))
          (by omega) (by omega) (by omega) (by push_cast at hfu ⊢; omega)
        refine ⟨(⟨data, offset, H.trunc_page offset, (W.vm_map np.clock).2,
          8 * H.vm_page_size - (offset - H.trunc_page offset)⟩ : Copy) :: cs, ?_, ?_, ?_, ?_⟩
        · rw [hr]
          simp [RwNode.emit, Copy.effects]
        · exact ⟨rfl, rfl, by show 0 < 8 * H.vm_page_size - (offset - H.trunc_page offset); omega,
            by show 8 * H.vm_page_size - (offset - H.trunc_page offset) ≤ amt; omega, hc⟩
        · simp only [List.map_cons, List.sum_cons, hs]; omega
        · intro c hc'
          rcases List.mem_cons.mp hc' with h | h
          · rw [h]
            exact ⟨rfl, by show 0 ≤ offset - H.trunc_page offset; omega,
              by show offset - H.trunc_page offset +
                (8 * H.vm_page_size - (offset - H.trunc_page offset)) ≤ _; omega⟩
          · exact hw c h
      · simp only [hlong, if_false]
        have e9 : int32 (offset + amt) = offset + amt := int32_id _ (by omega) (by omega)
        have e10 : int32 (amt - amt) = 0 := by rw [sub_self]; rfl
        rw [e9, e10]
        obtain ⟨cs, hr, hc, hs, hw⟩ := ih (data + amt) (offset + amt) 0
          ((((((((np.emit (.vm_map (8 * H.vm_page_size) memobj (H.trunc_page offset) 0
            (W.vm_map np.clock).2)).emit
            (.register_memory_fault_area (H.trunc_page offset) (W.vm_map np.clock).2
              (8 * H.vm_page_size))).emit (.catch_exception 0)).emit
            (.bcopy (dir ≠ 0) data (W.vm_map np.clock).2 (offset - H.trunc_page offset)
              amt)).emit
            .end_catch_exception).emit
            (.vm_deallocate (W.vm_map np.clock).2 (8 * H.vm_page_size))).emit
            (.unregister_memory_fault_area (W.vm_map np.clock).2 (8 * H.vm_page_size))))
          (by omega) (by omega) (by omega) (by push_cast at hfu ⊢; omega)
        refine ⟨(⟨data, offset, H.trunc_page offset, (W.vm_map np.clock).2, amt⟩ : Copy) :: cs,
          ?_, ?_, ?_, ?_⟩
        · rw [hr]
          simp [RwNode.emit, Copy.effects]
        · exact ⟨rfl, rfl, h0, le_refl amt, by simpa using hc⟩
        · simp only [List.map_cons, List.sum_cons, hs]; omega
        · intro c hc'
          rcases List.mem_cons.mp hc' with h | h
          · rw [h]
            exact ⟨rfl, by show 0 ≤ offset - H.trunc_page offset; omega,
              by show offset - H.trunc_page offset + amt ≤ _; omega⟩
          · exact hw c h
    · have ha0 : amt = 0 := by omega
      refine ⟨[], ?_, ha0, by simp [ha0], by simp⟩
      simp [h0, io_rdwr_end, ha0, RwNode.emit]

/-- C22, with its conditions: eight pages and the end of the access are within
the range of `int`, `trunc_page` gives a place that is not negative, not above
its argument and less than a page below it, a write is not asked of a
read-only filesystem, `vm_map` succeeds every time and no memory fault occurs.
Then `io_rdwr` with more fuel than bytes returns 0: the copy loop ends and the
final assertion holds.  The rounds of the loop split the access: each copies
at least one byte and no more than is left, each starts where the one before
ended, in the file and in the buffer, the numbers of bytes add up to `amt`,
and each copy lies inside the eight pages mapped at `trunc_page` of its
offset. -/
theorem io_rdwr_chunks (H : RwHdr) (W : RwWorld) (fuel : Nat) (np : RwNode)
    (data offset amt dir : Int)
    (hP : 0 < H.vm_page_size) (hW : 8 * H.vm_page_size < 2147483648)
    (htr : ∀ x, 0 ≤ x → x < 2147483648 →
      0 ≤ H.trunc_page x ∧ H.trunc_page x ≤ x ∧ x - H.trunc_page x < H.vm_page_size)
    (ho : 0 ≤ offset) (ha : 0 ≤ amt) (hb : offset + amt < 2147483648)
    (hd : dir = 0 ∨ W.readonly = 0)
    (hf : ∀ k, W.catch_exception k = 0) (hm : ∀ k, (W.vm_map k).1 = 0)
    (hfuel : amt < fuel) :
    ∃ (cs : List Copy) (np1 : RwNode),
      io_rdwr H W fuel np data offset amt dir = .ret 0 np1 ∧
      np1.trace = np.trace ++
        (if W.readonly = 0 then [.catch_exception 0, .end_catch_exception] else []) ++
        [.get_filemap W.get_filemap, .mach_port_insert_right W.get_filemap] ++
        cs.flatMap (Copy.effects H W.get_filemap dir) ++
        [.mach_port_deallocate W.get_filemap] ∧
      chunked data offset amt cs ∧
      (cs.map Copy.cc).sum = amt ∧
      ∀ c ∈ cs, c.winoff = H.trunc_page c.offset ∧ 0 ≤ c.offset - c.winoff ∧
        c.offset - c.winoff + c.cc ≤ 8 * H.vm_page_size := by
  have hd2 : ¬ (dir ≠ 0 ∧ W.readonly ≠ 0) := by
    rintro ⟨h1, h2⟩
    rcases hd with h | h
    · exact h1 h
    · exact h2 h
  unfold io_rdwr
  rw [if_neg hd2]
  by_cases hr : W.readonly = 0
  · simp only [hr, if_true, hf, ne_eq, not_true_eq_false, if_false]
    obtain ⟨cs, h, hc, hs, hw⟩ := io_rdwr_loop_chunks H W W.get_filemap dir hP hW htr hf hm
      fuel data offset amt
      (((((if ¬ dir = 0 then
          { np.emit (.catch_exception 0) with di_mtime := W.wallclock_seconds }
        else { np.emit (.catch_exception 0) with di_atime := W.wallclock_seconds }).emit
        .end_catch_exception).emit (.get_filemap W.get_filemap)).emit
        (.mach_port_insert_right W.get_filemap)))
      ho ha hb hfuel
    refine ⟨cs, _, h, ?_, hc, hs, hw⟩
    split_ifs <;> simp [RwNode.emit]
  · simp only [hr, if_false, ne_eq, not_true_eq_false]
    obtain ⟨cs, h, hc, hs, hw⟩ := io_rdwr_loop_chunks H W W.get_filemap dir hP hW htr hf hm
      fuel data offset amt
      ((np.emit (.get_filemap W.get_filemap)).emit (.mach_port_insert_right W.get_filemap))
      ho ha hb hfuel
    refine ⟨cs, _, h, ?_, hc, hs, hw⟩
    simp [RwNode.emit]

/-- C22, an instance: 40000 bytes are read at the file offset 5000 with pages
of 4096 bytes.  The call returns 0 after two rounds: 31864 bytes from the
window at 4096, then 8136 bytes from the window at 36864. -/
theorem io_rdwr_chunks_witness :
    ∃ (cs : List Copy) (np1 : RwNode),
      io_rdwr gnuRwHdr calmRwWorld 40001 someInode 100 5000 40000 0 = .ret 0 np1 ∧
      np1.trace = someInode.trace ++
        (if calmRwWorld.readonly = 0 then [.catch_exception 0, .end_catch_exception] else []) ++
        [.get_filemap calmRwWorld.get_filemap,
          .mach_port_insert_right calmRwWorld.get_filemap] ++
        cs.flatMap (Copy.effects gnuRwHdr calmRwWorld.get_filemap 0) ++
        [.mach_port_deallocate calmRwWorld.get_filemap] ∧
      chunked 100 5000 40000 cs ∧
      (cs.map Copy.cc).sum = 40000 ∧
      ∀ c ∈ cs, c.winoff = gnuRwHdr.trunc_page c.offset ∧ 0 ≤ c.offset - c.winoff ∧
        c.offset - c.winoff + c.cc ≤ 8 * gnuRwHdr.vm_page_size :=
  io_rdwr_chunks gnuRwHdr calmRwWorld 40001 someInode 100 5000 40000 0
    (by decide) (by decide)
    (by
      intro x h0 h1
      show 0 ≤ uint32 x / 4096 * 4096 ∧ uint32 x / 4096 * 4096 ≤ x ∧
        x - uint32 x / 4096 * 4096 < 4096
      rw [uint32_id x h0 (by omega)]
      omega)
    (by decide) (by decide) (by decide) (Or.inl rfl) (fun _ => rfl) (fun _ => rfl)
    (by decide)

/-- C22, a counterexample: one byte is read at the offset 0 and no memory fault
occurs, but the address space is used up and `vm_map` fails.  The assertion
after `vm_map` fails: the loop is left by the abort of the server, nothing has
been copied and the final assertion is not reached. -/
theorem vm_map_failure_aborts :
    (∀ k, crampedRwWorld.catch_exception k = 0) ∧
    io_rdwr gnuRwHdr crampedRwWorld 2 someInode 100 0 1 0 =
      .assert_failed
        { di_mtime := 0, di_atime := 1000,
          trace := [.catch_exception 0, .end_catch_exception, .get_filemap 9,
            .mach_port_insert_right 9, .vm_map 32768 9 0 3 0] } :=
  ⟨fun _ => rfl, by decide⟩

/-- Examples for `io_rdwr`.  The rounds of the instance of C22 as the trace
has them.  A write asked of a read-only filesystem fails the first assertion.
An access that ends beyond the range of `int` goes on with a wrapped offset:
after 32768 bytes at 2147479552 the second window is mapped at
-2147454976.  With pages of 2^29 bytes the size of the window is 0 in 32 bits
and every round copies nothing, so the loop does not end. -/
theorem io_rdwr_examples :
    mapped_and_copied
        (io_rdwr gnuRwHdr calmRwWorld 3 someInode 100 5000 40000 0).node.trace =
      [.vm_map 32768 9 4096 0 65536, .bcopy false 100 65536 904 31864,
       .vm_map 32768 9 36864 0 65536, .bcopy false 31964 65536 0 8136] ∧
    io_rdwr gnuRwHdr { calmRwWorld with readonly := 1 } 3 someInode 100 0 1 1 =
      .assert_failed someInode ∧
    mapped_and_copied
        (io_rdwr gnuRwHdr calmRwWorld 3 someInode 100 2147479552 40000 0).node.trace =
      [.vm_map 32768 9 2147479552 0 65536, .bcopy false 100 65536 0 32768,
       .vm_map 32768 9 (-2147454976) 0 65536, .bcopy false 32868 65536 0 7232] ∧
    (∃ np1, io_rdwr hugePageHdr calmRwWorld 3 someInode 100 0 1 0 = .timeout np1 ∧
      mapped_and_copied np1.trace =
        [.vm_map 0 9 0 0 65536, .bcopy false 100 65536 0 0,
         .vm_map 0 9 0 0 65536, .bcopy false 100 65536 0 0,
         .vm_map 0 9 0 0 65536, .bcopy false 100 65536 0 0]) :=
  ⟨by decide, by decide, by decide, _, rfl, by decide⟩

end HurdInit
